import Mathlib

/-!
# humpback-center: the cluster orchestration core

A shallow embedding of `cluster/cluster.go` and of the response constructors of
`api/response/respcluster.go`.

Conventions of the embedding.

* Go maps (`cluster.groups`, `cluster.engines`, `cluster.pendingContainers`, the meta
  catalog) are lists; a lookup takes the first entry with the key, an insertion replaces
  the entry with the key, and the list order stands for the iteration order of the map.
* Go `int` is `Int`; a counting loop `for ; n > 0; n--` recurses on `n.toNat`.
* A Go `(value, error)` result is a structure with an optional error; a nil pointer or nil
  slice is `none`.
* The agent behind an engine is an oracle: a function from the calls made so far and the
  current call to a reply.  Every call is appended to `Cluster.calls`, so that "no engine is
  contacted" reads `calls` unchanged.
* Go strings are sequences of bytes; a Lean `String` stands for one, a character for a byte.
-/

namespace Humpback

/-! ## Errors -/

/-- The error values of the cluster package (`ErrCluster...`), and `errorf` for an error
built from a text: `fmt.Errorf` in the cluster, or an error reported by an agent. -/
inductive Error where
  | ErrClusterDiscoveryInvalid
  | ErrClusterMetaDataNotFound
  | ErrClusterGroupNotFound
  | ErrClusterContainerNotFound
  | ErrClusterNoEngineAvailable
  | ErrClusterContainersUpgrading
  | ErrClusterContainersMigrating
  | ErrClusterContainersSetting
  | ErrClusterContainersInstancesInvalid
  | ErrClusterCreateContainerNameConflict
  | ErrClusterCreateContainerFailure
  | errorf (text : String)
deriving DecidableEq, Repr

/-! ## Data model -/

namespace models

/-- The container template `models.Container`, with the fields the cluster reads or writes. -/
structure Container where
  Name : String
  Image : String := ""
  Env : List String := []
  Memory : Int := 0
deriving DecidableEq, Repr

end models

namespace types

/-- Web hooks of a meta (`types.WebHooks`), kept as the list of their URLs. -/
abbrev WebHooks := List String

/-- One entry of `types.CreatedContainers`. -/
structure CreatedContainer where
  IP : String
  Container : models.Container
deriving DecidableEq, Repr

/-- The list `types.CreatedContainers`. -/
abbrev CreatedContainers := List CreatedContainer

/-- Modelled from the spec: `SetCreatedPair` of the absent `types` package; the result
envelope `CreatedContainers: [{IP, Container}]` gains one entry at its end. -/
def SetCreatedPair (created : CreatedContainers) (ip : String) (container : models.Container) :
    CreatedContainers :=
  created ++ [{ IP := ip, Container := container }]

/-- One entry of `types.OperatedContainers`. -/
structure OperatedContainer where
  IP : String
  ID : String
  Action : String
  Error : Option Error
deriving DecidableEq, Repr

/-- The list `types.OperatedContainers`. -/
abbrev OperatedContainers := List OperatedContainer

/-- Modelled from the spec: `SetOperatedPair` of the absent `types` package; the result
envelope `OperatedContainers: [{IP, ID, Action, Error?}]` gains one entry at its end. -/
def SetOperatedPair (operated : OperatedContainers) (ip id action : String) (err : Option Error) :
    OperatedContainers :=
  operated ++ [{ IP := ip, ID := id, Action := action, Error := err }]

/-- One entry of `types.RemovedContainers`. -/
structure RemovedContainer where
  IP : String
  ID : String
  Error : Option Error
deriving DecidableEq, Repr

/-- The list `types.RemovedContainers`. -/
abbrev RemovedContainers := List RemovedContainer

/-- Modelled from the spec: `SetRemovedPair` of the absent `types` package; the result
envelope `RemovedContainers: [{IP, ID, Error?}]` gains one entry at its end. -/
def SetRemovedPair (removed : RemovedContainers) (ip id : String) (err : Option Error) :
    RemovedContainers :=
  removed ++ [{ IP := ip, ID := id, Error := err }]

end types

/-- The in-flight marker `pendingContainer`. -/
structure pendingContainer where
  GroupID : String
  Name : String
  Config : models.Container
deriving DecidableEq, Repr

/-- A server of a group: `Server`. -/
structure Server where
  Name : String
  IP : String
deriving DecidableEq, Repr

/-- A group: `Group`. -/
structure Group where
  ID : String
  Servers : List Server
  ContactInfo : String := ""
deriving DecidableEq, Repr

/-- The states of an engine (`engineState` of the absent `engine.go`, named in the spec). -/
inductive engineState where
  | StatePending
  | StateUnhealthy
  | StateHealthy
  | StateDisconnected
deriving DecidableEq, Repr

/-- Modelled from the spec: `GetStateText` of the absent `engine.go`; the text of a state is
its name in the spec's data model. -/
def GetStateText : engineState → String
  | .StatePending => "Pending"
  | .StateUnhealthy => "Unhealthy"
  | .StateHealthy => "Healthy"
  | .StateDisconnected => "Disconnected"

/-- The `Info` part of a container: `{ID, State}`. -/
structure ContainerInfo where
  ID : String
  State : String := ""
deriving DecidableEq, Repr

/-- The `Config` part of a container: the submitted template and the meta it belongs to. -/
structure ContainerConfig where
  Container : models.Container
  MetaID : String
deriving DecidableEq, Repr

/-- A container held by an engine: `Container`. -/
structure Container where
  Info : ContainerInfo
  Config : ContainerConfig
deriving DecidableEq, Repr

/-- An engine: `Engine`, with its container map as a list. -/
structure Engine where
  IP : String
  Name : String := ""
  state : engineState := .StateHealthy
  containers : List Container := []
deriving DecidableEq, Repr

/-- One per-instance record of a meta: `BaseConfig {Index, ID, Name}`. -/
structure ContainerBaseConfig where
  Index : Int
  ID : String
  Name : String
deriving DecidableEq, Repr

/-- A meta of the catalog: `MetaData`, that is `MetaBase` with `BaseConfigs`. -/
structure MetaData where
  GroupID : String
  MetaID : String
  Instances : Int
  WebHooks : types.WebHooks := []
  Config : models.Container
  BaseConfigs : List ContainerBaseConfig := []
deriving DecidableEq, Repr

/-- A call to the agent of the engine with address `ip`. -/
inductive AgentCall where
  | create (ip : String) (config : models.Container)
  | remove (ip : String) (id : String)
  | operate (ip : String) (action : String) (id : String)
deriving DecidableEq, Repr

/-- The reply of an agent: an error text or none, and for a create that succeeds the ID
and the state of the new container (the cluster never makes up a container ID). -/
structure AgentReply where
  err : Option String := none
  id : String := ""
  state : String := ""
deriving DecidableEq, Repr

/-- A task of the upgrade queue. -/
structure UpgradeTask where
  MetaID : String
  ImageTag : String
  Containers : List Container
deriving DecidableEq, Repr

/-- A `float64`: a number (the rational it stands for), an infinity, or NaN. -/
inductive float64 where
  | NaN
  | negInf
  | posInf
  | num (q : ℚ)
deriving DecidableEq, Repr

namespace float64

/-- The comparison `a < b` of Go on `float64`: false as soon as one side is NaN. -/
def lt : float64 → float64 → Bool
  | NaN, _ => false
  | _, NaN => false
  | negInf, negInf => false
  | negInf, _ => true
  | posInf, _ => false
  | num _, negInf => false
  | num _, posInf => true
  | num a, num b => decide (a < b)

/-- The comparison `a <= b` of Go on `float64`: false as soon as one side is NaN. -/
def le : float64 → float64 → Bool
  | NaN, _ => false
  | _, NaN => false
  | negInf, _ => true
  | posInf, posInf => true
  | posInf, _ => false
  | num _, negInf => false
  | num _, posInf => true
  | num a, num b => decide (a ≤ b)

end float64

/-- A node as discovery reports it: `NodeData {Key, IP, Name}`. -/
structure NodeData where
  Key : String := ""
  IP : String
  Name : String
deriving DecidableEq, Repr

/-- A call to `PendEngines`. -/
inductive PendCall where
  | AddEngine (ip name : String)
  | RemoveEngine (ip name : String)
deriving DecidableEq, Repr

/-- What the cluster takes from outside: the agents, the weight score of the scheduler
(computed in floating point by the absent `selectWeightdEngines`), the PRNG `randSeed`
(`intn k n` is the value of the `k`-th call `Intn(n)`, reduced modulo `n`), and the
generator of meta IDs of the absent catalog. -/
structure Env where
  agent : List AgentCall → AgentCall → AgentReply
  score : Engine → models.Container → Int
  intn : Nat → Nat → Nat
  newMetaID : String

/-- The cluster: `Cluster`, with the caches it owns and the trace of agent calls;
`readers` is the number of read locks held on the embedded `sync.RWMutex`, `nodeCache` are
the nodes of the `NodeCache`, and `pendCalls` is the trace of the calls made to
`PendEngines`, whose source is not at hand. -/
structure Cluster where
  overcommitRatio : float64 := float64.num (1 / 20)
  createRetry : Int := 0
  nodeCache : List NodeData := []
  pendCalls : List PendCall := []
  randCalls : Nat := 0
  configCache : List MetaData := []
  upgraderCache : List UpgradeTask := []
  migtatorCache : List String := []
  pendingContainers : List (String × pendingContainer) := []
  engines : List Engine := []
  groups : List Group := []
  calls : List AgentCall := []
  readers : Nat := 0
deriving DecidableEq, Repr

/-! ## Strings -/

/-- The Go conversion `strconv.Itoa`. -/
def Itoa (i : Int) : String :=
  toString i

/-- The Go slice `s[:n]` of a string with at least `n` bytes. -/
def sliceTo (s : String) (n : Nat) : String :=
  String.mk (s.data.take n)

/-- The rest of the entry `entry` of an environment after `key=`, when it starts so. -/
def stripKey (key entry : String) : Option String :=
  if (key.data ++ ['=']).isPrefixOf entry.data then
    some (String.mk (entry.data.drop (key.data.length + 1)))
  else
    none

/-- The value of `key` in an environment: that of the last entry `key=value`. -/
def envValue (key : String) (env : List String) : Option String :=
  (env.filterMap (stripKey key)).getLast?

/-- The number a decimal text stands for. -/
def parseDecimal (s : String) : Nat :=
  s.data.foldl (fun acc ch => acc * 10 + (ch.toNat - 48)) 0

/-! ## The meta catalog (`ContainersConfigCache`)

The catalog's source file is not part of the sources at hand; its operations follow the
spec, section 4.1. -/

namespace ContainersConfigCache

/-- Modelled from the spec: `GetMetaData`, a pure lookup by meta ID. -/
def GetMetaData (cache : List MetaData) (metaid : String) : Option MetaData :=
  cache.find? (fun m => m.MetaID == metaid)

/-- Modelled from the spec: `GetMetaDataOfName`, a pure lookup by the template's name; it
takes a name only and yields one meta, the first found with that name. -/
def GetMetaDataOfName (cache : List MetaData) (name : String) : Option MetaData :=
  cache.find? (fun m => m.Config.Name == name)

/-- Modelled from the spec: `GetMetaDataOfContainer`, a pure lookup by the ID of a container
bound in `BaseConfigs`. -/
def GetMetaDataOfContainer (cache : List MetaData) (containerid : String) : Option MetaData :=
  cache.find? (fun m => m.BaseConfigs.any (fun b => b.ID == containerid))

/-- Modelled from the spec: `GetGroupMetaData`, the metas of a group. -/
def GetGroupMetaData (cache : List MetaData) (groupid : String) : List MetaData :=
  cache.filter (fun m => m.GroupID == groupid)

/-- Modelled from the spec: `CreateMetaData` allocates a fresh meta ID (here the one the
environment hands out) and stores a meta with no `BaseConfigs`; it returns the catalog and
the meta. -/
def CreateMetaData (env : Env) (cache : List MetaData) (groupid : String) (instances : Int)
    (webhooks : types.WebHooks) (config : models.Container) : List MetaData × MetaData :=
  let metaData : MetaData :=
    { GroupID := groupid, MetaID := env.newMetaID, Instances := instances,
      WebHooks := webhooks, Config := config, BaseConfigs := [] }
  (cache ++ [metaData], metaData)

/-- Modelled from the spec: `SetMetaData` updates the instances and web hooks of a meta in
place. -/
def SetMetaData (cache : List MetaData) (metaid : String) (instances : Int)
    (webhooks : types.WebHooks) : List MetaData :=
  cache.map (fun m =>
    if m.MetaID == metaid then { m with Instances := instances, WebHooks := webhooks } else m)

/-- Modelled from the spec: `RemoveMetaData` deletes the map entry of a meta. -/
def RemoveMetaData (cache : List MetaData) (metaid : String) : List MetaData :=
  cache.filter (fun m => !(m.MetaID == metaid))

/-- The least index below `instances` that is not in `used`, searched from `start`. -/
def idleIndex (used : List Int) : Nat → Nat → Int
  | 0, _ => -1
  | fuel + 1, start =>
    if used.contains (start : Int) then idleIndex used fuel (start + 1) else (start : Int)

/-- Modelled from the spec: `MakeContainerIdleIndex` returns the smallest non-negative
integer below `Instances` that no `BaseConfig` of the meta uses, and `-1` if there is none
(or no such meta). -/
def MakeContainerIdleIndex (cache : List MetaData) (metaid : String) : Int :=
  match GetMetaData cache metaid with
  | none => -1
  | some m => idleIndex (m.BaseConfigs.map (fun b => b.Index)) m.Instances.toNat 0

/-- Modelled from the spec: `AppendBaseConfig` adds a per-instance record to a meta. -/
def AppendBaseConfig (cache : List MetaData) (metaid : String) (baseConfig : ContainerBaseConfig) :
    List MetaData :=
  cache.map (fun m =>
    if m.MetaID == metaid then { m with BaseConfigs := m.BaseConfigs ++ [baseConfig] } else m)

/-- Modelled from the spec: `RemoveBaseConfigByID` drops the per-instance record of a
container. -/
def RemoveBaseConfigByID (cache : List MetaData) (containerid : String) : List MetaData :=
  cache.map (fun m =>
    { m with BaseConfigs := m.BaseConfigs.filter (fun b => !(b.ID == containerid)) })

end ContainersConfigCache

/-! ## The queues

Modelled from the spec, sections 4.5 and 4.6: the source files of the two queues are not at
hand.  A queue holds the metas with a task in flight. -/

namespace UpgradeContainersCache

/-- Modelled from the spec: `Contains` of the upgrade queue: a task for the meta is queued. -/
def Contains (queue : List UpgradeTask) (metaid : String) : Bool :=
  queue.any (fun t => t.MetaID == metaid)

/-- Modelled from the spec: `Upgrade` enqueues a task for the meta, unless one is queued. -/
def Upgrade (queue : List UpgradeTask) (metaid imagetag : String) (containers : List Container) :
    List UpgradeTask :=
  if Contains queue metaid then queue
  else queue ++ [{ MetaID := metaid, ImageTag := imagetag, Containers := containers }]

end UpgradeContainersCache

namespace MigrateContainersCache

/-- Modelled from the spec: `Contains` of the migrate queue: a task for the meta is
outstanding. -/
def Contains (queue : List String) (metaid : String) : Bool :=
  queue.contains metaid

end MigrateContainersCache

/-! ## Engines

Modelled from the spec, section 4.2: `engine.go` is not at hand. -/

namespace Engine

/-- Modelled from the spec: `IsHealthy`: the engine is in state `Healthy`. -/
def IsHealthy (engine : Engine) : Bool :=
  engine.state == engineState.StateHealthy

/-- Modelled from the spec: `State` is the text of the engine's state. -/
def State (engine : Engine) : String :=
  GetStateText engine.state

/-- Modelled from the spec: `Containers(metaID)` are the containers of the engine that carry
the meta ID stamped at their creation. -/
def Containers (engine : Engine) (metaid : String) : List Container :=
  engine.containers.filter (fun c => c.Config.MetaID == metaid)

/-- Modelled from the spec: `Container(id)` is the container of the engine with that ID. -/
def Container (engine : Engine) (containerid : String) : Option Humpback.Container :=
  engine.containers.find? (fun c => c.Info.ID == containerid)

end Engine

/-- Rewrites the engine registered under `ip`. -/
def updateEngine (cluster : Cluster) (ip : String) (f : Engine → Engine) : Cluster :=
  { cluster with engines := cluster.engines.map (fun e => if e.IP == ip then f e else e) }

/-- Sends `call` to the agent: the reply, and the cluster with the call on its trace. -/
def callAgent (env : Env) (cluster : Cluster) (call : AgentCall) : Cluster × AgentReply :=
  ({ cluster with calls := cluster.calls ++ [call] }, env.agent cluster.calls call)

namespace Engine

/-- Modelled from the spec: `CreateContainer(config)` submits the config to the agent; on
success the container enters the engine's map, bound to the meta whose ID the config's
environment carries, and a `BaseConfig{Index, ID, Name}` is recorded in the catalog; an
agent error surfaces verbatim and changes nothing. -/
def CreateContainer (env : Env) (cluster : Cluster) (engine : Engine) (config : models.Container) :
    Cluster × Option Humpback.Container × Option Error :=
  let (cluster, reply) := callAgent env cluster (AgentCall.create engine.IP config)
  match reply.err with
  | some text => (cluster, none, some (Error.errorf text))
  | none =>
    let metaid := (envValue "HUMPBACK_CLUSTER_METAID" config.Env).getD ""
    let index := parseDecimal ((envValue "HUMPBACK_CLUSTER_CONTAINER_INDEX" config.Env).getD "")
    let container : Humpback.Container :=
      { Info := { ID := reply.id, State := reply.state },
        Config := { Container := config, MetaID := metaid } }
    let cluster := updateEngine cluster engine.IP (fun e =>
      { e with containers := e.containers.filter (fun c => !(c.Info.ID == reply.id)) ++ [container] })
    let baseConfig : ContainerBaseConfig := { Index := index, ID := reply.id, Name := config.Name }
    ({ cluster with
        configCache := ContainersConfigCache.AppendBaseConfig cluster.configCache metaid baseConfig },
      some container, none)

/-- Modelled from the spec: `RemoveContainer(id)` forwards to the agent; on success the
container leaves the engine's map and its `BaseConfig` leaves the catalog; an agent error
surfaces verbatim and changes nothing. -/
def RemoveContainer (env : Env) (cluster : Cluster) (engine : Engine) (containerid : String) :
    Cluster × Option Error :=
  let (cluster, reply) := callAgent env cluster (AgentCall.remove engine.IP containerid)
  match reply.err with
  | some text => (cluster, some (Error.errorf text))
  | none =>
    let cluster := updateEngine cluster engine.IP (fun e =>
      { e with containers := e.containers.filter (fun c => !(c.Info.ID == containerid)) })
    ({ cluster with
        configCache := ContainersConfigCache.RemoveBaseConfigByID cluster.configCache containerid },
      none)

/-- Modelled from the spec: `OperateContainer({Action, id})` forwards to the agent; on
success the state of the container in the engine's map is the one the agent reports; an
agent error surfaces verbatim and changes nothing. -/
def OperateContainer (env : Env) (cluster : Cluster) (engine : Engine) (action containerid : String) :
    Cluster × Option Error :=
  let (cluster, reply) := callAgent env cluster (AgentCall.operate engine.IP action containerid)
  match reply.err with
  | some text => (cluster, some (Error.errorf text))
  | none =>
    (updateEngine cluster engine.IP (fun e =>
      { e with containers := e.containers.map (fun c =>
          if c.Info.ID == containerid then { c with Info := { c.Info with State := reply.state } }
          else c) }),
      none)

end Engine

/-! ## Helpers of the cluster package that are not at hand -/

/-- Modelled from the spec: `selectIPOrName`, the identity of a server or engine: its IP,
or its name when the IP is blank. -/
def selectIPOrName (ip name : String) : String :=
  if ip != "" then ip else name

/-- Modelled from the spec: `removeDuplicatesEngines` keeps the first of the engines with
the same identity under `selectIPOrName`. -/
def removeDuplicatesEngines : List Engine → List Engine
  | [] => []
  | engine :: rest =>
    engine :: (removeDuplicatesEngines rest).filter (fun e =>
      !(selectIPOrName e.IP e.Name == selectIPOrName engine.IP engine.Name))

/-- Modelled from the spec: `filterAppendIPList` appends the engine's IP to the avoid-IP
list, once; without an engine the list is as it was. -/
def filterAppendIPList (engine : Option Engine) (ipList : List String) : List String :=
  match engine with
  | none => ipList
  | some e => if ipList.contains e.IP then ipList else ipList ++ [e.IP]

/-- Modelled from the spec: `filterIPList` keeps the candidates whose IP is not in the
avoid-IP list. -/
def filterIPList (engines : List Engine) (ipList : List String) : List Engine :=
  engines.filter (fun e => !(ipList.contains e.IP))

/-- The order of `sort.Sort(weightedEngines)`: descending by score, ties broken by
lexicographic IP. -/
def weightedLess (a b : Engine × Int) : Prop :=
  b.2 < a.2 ∨ (a.2 = b.2 ∧ a.1.IP ≤ b.1.IP)

instance weightedLessDecidable : DecidableRel weightedLess :=
  fun a b => by unfold weightedLess; exact inferInstance

/-- Modelled from the spec: `selectWeightdEngines` scores each candidate and drops those with
a negative score. -/
def selectWeightdEngines (env : Env) (engines : List Engine) (config : models.Container) :
    List (Engine × Int) :=
  (engines.map (fun e => (e, env.score e config))).filter (fun p => decide (0 ≤ p.2))

/-- The order of `sort.Sort(reduceEngines)`: descending by the number of the meta's
containers on the engine. -/
def reduceLess (a b : Engine × List Container) : Prop :=
  b.2.length ≤ a.2.length

instance reduceLessDecidable : DecidableRel reduceLess :=
  fun a b => by unfold reduceLess; exact inferInstance

/-- Modelled from the spec: `selectReduceEngines` pairs each engine that holds containers of
the meta with those containers. -/
def selectReduceEngines (metaid : String) (engines : List Engine) :
    List (Engine × List Container) :=
  (engines.map (fun e => (e, e.Containers metaid))).filter (fun p => !p.2.isEmpty)

/-- The instance index a container was created with, read from its environment. -/
def containerIndex (container : Container) : Nat :=
  parseDecimal
    ((envValue "HUMPBACK_CLUSTER_CONTAINER_INDEX" container.Config.Container.Env).getD "")

/-- Modelled from the spec: `ReduceContainer`, the victim on the chosen engine: the
container with the highest instance index. -/
def ReduceContainer (containers : List Container) : Option Container :=
  containers.foldl (fun best c =>
    match best with
    | none => some c
    | some b => if containerIndex b < containerIndex c then some c else some b) none

/-! ## `cluster.go`: reads

Engines are held by pointer in Go.  A snapshot of engines (a result of `GetGroupEngines`) is
a list of values.  The loops of `OperateContainers`, `UpgradeContainers` and
`RemoveContainers` read an engine's containers before they change them and never change the
engine's state, so they read the values of the snapshot; `UpdateContainers`, which lists the
containers after it created or reduced some, reads the engines again from the cluster. -/

/-- The Go method `Cluster.GetMetaData`. -/
def GetMetaData (cluster : Cluster) (metaid : String) : Option MetaData :=
  ContainersConfigCache.GetMetaData cluster.configCache metaid

/-- The Go method `Cluster.GetEngine`. -/
def GetEngine (cluster : Cluster) (ip : String) : Option Engine :=
  cluster.engines.find? (fun e => e.IP == ip)

/-- The body of the loop over `group.Servers` in `GetGroupEngines`: the engine a server
contributes, if any. -/
def serverEngine (cluster : Cluster) (server : Server) : Option Engine :=
  if server.IP != "" then
    cluster.engines.find? (fun engine => server.IP == engine.IP)
  else if server.Name != "" then
    cluster.engines.find? (fun engine => server.Name == engine.Name)
  else
    none

/-- The Go method `Cluster.GetGroupEngines`; `none` is the nil slice. -/
def GetGroupEngines (cluster : Cluster) (groupid : String) : Option (List Engine) :=
  match cluster.groups.find? (fun g => g.ID == groupid) with
  | none => none
  | some group => some (removeDuplicatesEngines (group.Servers.filterMap (serverEngine cluster)))

/-- The Go method `Cluster.GetMetaDataEngines`. -/
def GetMetaDataEngines (cluster : Cluster) (metaid : String) : Except Error (MetaData × List Engine) :=
  match GetMetaData cluster metaid with
  | none => Except.error Error.ErrClusterMetaDataNotFound
  | some metaData =>
    match GetGroupEngines cluster metaData.GroupID with
    | none => Except.error Error.ErrClusterGroupNotFound
    | some engines => Except.ok (metaData, engines)

/-- The Go method `Cluster.InGroupsContains`: the loop over the IPs, then the loop over the
names. -/
def InGroupsContains (cluster : Cluster) (ip name : String) : Bool :=
  if cluster.groups.any (fun group =>
      group.Servers.any (fun server => server.IP != "" && server.IP == ip)) then
    true
  else if cluster.groups.any (fun group =>
      group.Servers.any (fun server => server.Name != "" && server.Name == name)) then
    true
  else
    false

/-- The Go method `Cluster.RemoveGroup`: the body is `return false`, the removal is
commented out. -/
def RemoveGroup (cluster : Cluster) (_groupid : String) : Cluster × Bool :=
  (cluster, false)

/-- The Go method `Cluster.containsPendingContainers`. -/
def containsPendingContainers (cluster : Cluster) (groupid name : String) : Bool :=
  cluster.pendingContainers.any (fun p => p.2.GroupID == groupid && p.2.Name == name)

/-- The Go method `Cluster.cehckContainerNameUniqueness`. -/
def cehckContainerNameUniqueness (cluster : Cluster) (groupid name : String) : Bool :=
  if containsPendingContainers cluster groupid name then
    false
  else
    match ContainersConfigCache.GetMetaDataOfName cluster.configCache name with
    | some metaData => if metaData.GroupID == groupid then false else true
    | none => true

/-- The Go method `Cluster.validateMetaData`. -/
def validateMetaData (cluster : Cluster) (metaid : String) : Except Error (MetaData × List Engine) :=
  if UpgradeContainersCache.Contains cluster.upgraderCache metaid then
    Except.error Error.ErrClusterContainersUpgrading
  else if MigrateContainersCache.Contains cluster.migtatorCache metaid then
    Except.error Error.ErrClusterContainersMigrating
  else
    GetMetaDataEngines cluster metaid

/-- The statement `cluster.pendingContainers[name] = marker`. -/
def setPendingContainer (cluster : Cluster) (name : String) (marker : pendingContainer) : Cluster :=
  { cluster with
    pendingContainers := cluster.pendingContainers.filter (fun p => !(p.1 == name)) ++ [(name, marker)] }

/-- The statement `delete(cluster.pendingContainers, name)`. -/
def deletePendingContainer (cluster : Cluster) (name : String) : Cluster :=
  { cluster with pendingContainers := cluster.pendingContainers.filter (fun p => !(p.1 == name)) }

/-! ## `cluster.go`: the scheduler -/

/-- Exchanges the entries `i` and `j` of a list. -/
def swapAt (l : List Engine) (i j : Nat) : List Engine :=
  match l.get? i, l.get? j with
  | some a, some b => (l.set i b).set j a
  | _, _ => l

/-- The shuffle loop of `selectEngines`: `for i := len - 1; i > 0; i--`, with `k` calls of
the PRNG made before. -/
def shuffleEngines (env : Env) : Nat → Nat → List Engine → Nat × List Engine
  | 0, k, l => (k, l)
  | i + 1, k, l =>
    let j := env.intn k (i + 2) % (i + 2)
    shuffleEngines env i (k + 1) (swapAt l (i + 1) j)

/-- The Go method `Cluster.selectEngines`. -/
def selectEngines (env : Env) (cluster : Cluster) (engines : List Engine) (ipList : List String)
    (config : models.Container) : Cluster × List Engine :=
  let selectEngines := engines.filter (fun engine => engine.IsHealthy)
  if selectEngines.length == 0 then
    (cluster, selectEngines)
  else
    let weightedEngines := selectWeightdEngines env selectEngines config
    let selectEngines :=
      if weightedEngines.length > 0 then
        (weightedEngines.insertionSort weightedLess).map (fun p => p.1)
      else
        selectEngines
    if selectEngines.length > 0 && ipList.length > 0 then
      let filterEngines := filterIPList selectEngines ipList
      if filterEngines.length > 0 then
        (cluster, filterEngines)
      else
        let (k, shuffled) :=
          shuffleEngines env (selectEngines.length - 1) cluster.randCalls selectEngines
        ({ cluster with randCalls := k }, shuffled)
    else
      (cluster, selectEngines)

/-- The result `(*Engine, *Container, error)` of `createContainer` and `reduceContainer`. -/
structure Placement where
  engine : Option Engine
  container : Option Container
  err : Option Error
deriving DecidableEq, Repr

/-- The Go method `Cluster.createContainer`. -/
def createContainer (env : Env) (cluster : Cluster) (metaData : MetaData) (ipList : List String)
    (config : models.Container) : Cluster × Placement :=
  match GetGroupEngines cluster metaData.GroupID with
  | none => (cluster, ⟨none, none, some Error.ErrClusterNoEngineAvailable⟩)
  | some [] => (cluster, ⟨none, none, some Error.ErrClusterNoEngineAvailable⟩)
  | some (e :: es) =>
    match selectEngines env cluster (e :: es) ipList config with
    | (cluster, []) => (cluster, ⟨none, none, some Error.ErrClusterNoEngineAvailable⟩)
    | (cluster, engine :: _) =>
      match Engine.CreateContainer env cluster engine config with
      | (cluster, _, some err) => (cluster, ⟨some engine, none, some err⟩)
      | (cluster, container, none) => (cluster, ⟨some engine, container, none⟩)

/-! ## `cluster.go`: creating and reducing containers

A function that can panic in Go returns an `Option`: `none` is the panic.  `createContainers`
panics at `metaData.GroupID[:8]` when the group ID has fewer than 8 bytes. -/

/-- The config `createContainers` submits for the instance `index`: lines 685 to 691 of
`cluster.go`; `none` when `metaData.GroupID[:8]` is out of range. -/
def containerConfig (metaData : MetaData) (config : models.Container) (index : Int) :
    Option models.Container :=
  if metaData.GroupID.length < 8 then
    none
  else
    let indexStr := Itoa index
    let containerConfig := config
    let containerConfig :=
      { containerConfig with
        Name := sliceTo metaData.GroupID 8 ++ "-" ++ containerConfig.Name ++ "-" ++ indexStr }
    let containerConfig :=
      { containerConfig with
        Env := containerConfig.Env ++ ["HUMPBACK_CLUSTER_GROUPID=" ++ metaData.GroupID] }
    let containerConfig :=
      { containerConfig with
        Env := containerConfig.Env ++ ["HUMPBACK_CLUSTER_METAID=" ++ metaData.MetaID] }
    let containerConfig :=
      { containerConfig with
        Env := containerConfig.Env ++ ["HUMPBACK_CLUSTER_CONTAINER_INDEX=" ++ indexStr] }
    let containerConfig :=
      { containerConfig with
        Env := containerConfig.Env ++
          ["HUMPBACK_CLUSTER_CONTAINER_ORIGINALNAME=" ++ containerConfig.Name] }
    some containerConfig

/-- The retry loop of `createContainers`:
`for ; retries < cluster.createRetry && err != nil; retries++`, with `fuel` retries left. -/
def createContainersRetry (env : Env) (metaData : MetaData) (config : models.Container) :
    Nat → Cluster → Placement → List String → Cluster × Placement × List String
  | 0, cluster, placed, ipList => (cluster, placed, ipList)
  | fuel + 1, cluster, placed, ipList =>
    match placed.err with
    | none => (cluster, placed, ipList)
    | some _ =>
      match createContainer env cluster metaData ipList config with
      | (cluster, placed) =>
        createContainersRetry env metaData config fuel cluster placed
          (filterAppendIPList placed.engine ipList)

/-- The end of a turn of the loop of `createContainers` that placed a container: the
engine's IP joins the avoid-IP list and the pair joins the created list; `none` is the
dereference of a nil engine or container. -/
def createContainersPlaced (placed : Placement) (ipList : List String)
    (created : types.CreatedContainers) : Option (List String × types.CreatedContainers) :=
  match placed.engine, placed.container with
  | some engine, some container =>
    some (filterAppendIPList (some engine) ipList,
      types.SetCreatedPair created engine.IP container.Config.Container)
  | _, _ => none

/-- One turn of the loop of `createContainers`, lines 681 to 715: the cluster, the avoid-IP
list and the created list at the end of the turn (a `continue` ends the turn); `none` is a
panic. -/
def createContainersTurn (env : Env) (metaData : MetaData) (config : models.Container)
    (cluster : Cluster) (ipList : List String) (created : types.CreatedContainers) :
    Option (Cluster × List String × types.CreatedContainers) :=
  let index := ContainersConfigCache.MakeContainerIdleIndex cluster.configCache metaData.MetaID
  if index < 0 then
    some (cluster, ipList, created)
  else
    match containerConfig metaData config index with
    | none => none
    | some containerConfig =>
      match createContainer env cluster metaData ipList containerConfig with
      | (cluster, placed) =>
        match placed.err with
        | none =>
          match createContainersPlaced placed ipList created with
          | none => none
          | some (ipList, created) => some (cluster, ipList, created)
        | some err =>
          if err = Error.ErrClusterNoEngineAvailable then
            some (cluster, ipList, created)
          else
            match createContainersRetry env metaData containerConfig cluster.createRetry.toNat
                cluster placed (filterAppendIPList placed.engine ipList) with
            | (cluster, placed, ipList) =>
              match placed.err with
              | some _ => some (cluster, ipList, created)
              | none =>
                match createContainersPlaced placed ipList created with
                | none => none
                | some (ipList, created) => some (cluster, ipList, created)

/-- The loop `for ; instances > 0; instances--` of `createContainers`. -/
def createContainersLoop (env : Env) (metaData : MetaData) (config : models.Container) :
    Nat → Cluster → List String → types.CreatedContainers →
      Option (Cluster × types.CreatedContainers)
  | 0, cluster, _, created => some (cluster, created)
  | instances + 1, cluster, ipList, created =>
    match createContainersTurn env metaData config cluster ipList created with
    | none => none
    | some (cluster, ipList, created) =>
      createContainersLoop env metaData config instances cluster ipList created

/-- The Go method `Cluster.createContainers`. -/
def createContainers (env : Env) (cluster : Cluster) (metaData : MetaData) (instances : Int)
    (config : models.Container) : Option (Cluster × types.CreatedContainers) :=
  let cluster := setPendingContainer cluster config.Name
    { GroupID := metaData.GroupID, Name := config.Name, Config := config }
  match createContainersLoop env metaData config instances.toNat cluster [] [] with
  | none => none
  | some (cluster, created) => some (deletePendingContainer cluster config.Name, created)

/-- The Go method `Cluster.reduceContainer`. -/
def reduceContainer (env : Env) (cluster : Cluster) (metaData : MetaData) : Cluster × Placement :=
  match GetGroupEngines cluster metaData.GroupID with
  | none => (cluster, ⟨none, none, some Error.ErrClusterNoEngineAvailable⟩)
  | some [] => (cluster, ⟨none, none, some Error.ErrClusterNoEngineAvailable⟩)
  | some (e :: es) =>
    match (selectReduceEngines metaData.MetaID (e :: es)).insertionSort reduceLess with
    | [] => (cluster, ⟨none, none, some Error.ErrClusterNoEngineAvailable⟩)
    | reduceEngine :: _ =>
      match ReduceContainer reduceEngine.2 with
      -- not reached: `selectReduceEngines` keeps the engines with a container of the meta
      | none => (cluster, ⟨none, none, some Error.ErrClusterNoEngineAvailable⟩)
      | some container =>
        match Engine.RemoveContainer env cluster reduceEngine.1 container.Info.ID with
        | (cluster, some err) => (cluster, ⟨none, none, some err⟩)
        | (cluster, none) => (cluster, ⟨some reduceEngine.1, some container, none⟩)

/-- The loop `for ; instances > 0; instances--` of `reduceContainers`. -/
def reduceContainersLoop (env : Env) (metaData : MetaData) : Nat → Cluster → Cluster
  | 0, cluster => cluster
  | instances + 1, cluster =>
    reduceContainersLoop env metaData instances (reduceContainer env cluster metaData).1

/-- The Go method `Cluster.reduceContainers`. -/
def reduceContainers (env : Env) (cluster : Cluster) (metaData : MetaData) (instances : Int) :
    Cluster :=
  let cluster := setPendingContainer cluster metaData.Config.Name
    { GroupID := metaData.GroupID, Name := metaData.Config.Name, Config := metaData.Config }
  let cluster := reduceContainersLoop env metaData instances.toNat cluster
  deletePendingContainer cluster metaData.Config.Name

/-- The result `(string, *types.CreatedContainers, error)` of `CreateContainers`. -/
structure CreateResult where
  metaid : String
  containers : Option types.CreatedContainers
  err : Option Error
deriving DecidableEq, Repr

/-- The Go method `Cluster.CreateContainers`. -/
def CreateContainers (env : Env) (cluster : Cluster) (groupid : String) (instances : Int)
    (webhooks : types.WebHooks) (config : models.Container) : Option (Cluster × CreateResult) :=
  if instances ≤ 0 then
    some (cluster, ⟨"", none, some Error.ErrClusterContainersInstancesInvalid⟩)
  else
    match GetGroupEngines cluster groupid with
    | none => some (cluster, ⟨"", none, some Error.ErrClusterGroupNotFound⟩)
    | some engines =>
      if engines.length == 0 then
        some (cluster, ⟨"", none, some Error.ErrClusterNoEngineAvailable⟩)
      else if !cehckContainerNameUniqueness cluster groupid config.Name then
        some (cluster, ⟨"", none, some Error.ErrClusterCreateContainerNameConflict⟩)
      else
        match ContainersConfigCache.CreateMetaData env cluster.configCache groupid instances
            webhooks config with
        | (cache, metaData) =>
          match createContainers env { cluster with configCache := cache } metaData instances
              config with
          | none => none
          | some (cluster, createdContainers) =>
            if createdContainers.length == 0 then
              some ({ cluster with
                      configCache :=
                        ContainersConfigCache.RemoveMetaData cluster.configCache metaData.MetaID },
                    ⟨"", none, some Error.ErrClusterCreateContainerFailure⟩)
            else
              some (cluster, ⟨metaData.MetaID, some createdContainers, none⟩)

/-- The engine registered under the IP of `engine`, as the cluster holds it now. -/
def liveEngine (cluster : Cluster) (engine : Engine) : Engine :=
  (GetEngine cluster engine.IP).getD engine

/-- The closing loop of `UpdateContainers`: the containers of the meta on the healthy
engines. -/
def updatedContainers (cluster : Cluster) (metaid : String) (engines : List Engine) :
    types.CreatedContainers :=
  engines.foldl (fun created engine =>
    let engine := liveEngine cluster engine
    if engine.IsHealthy then
      (engine.Containers metaid).foldl (fun created container =>
        types.SetCreatedPair created engine.IP container.Config.Container) created
    else
      created) []

/-- The Go method `Cluster.UpdateContainers`. -/
def UpdateContainers (env : Env) (cluster : Cluster) (metaid : String) (instances : Int)
    (webhooks : types.WebHooks) : Option (Cluster × Option types.CreatedContainers × Option Error) :=
  if instances ≤ 0 then
    some (cluster, none, some Error.ErrClusterContainersInstancesInvalid)
  else
    match validateMetaData cluster metaid with
    | Except.error err => some (cluster, none, some err)
    | Except.ok (metaData, engines) =>
      if containsPendingContainers cluster metaData.GroupID metaData.Config.Name then
        some (cluster, none, some Error.ErrClusterContainersSetting)
      else
        let cluster :=
          { cluster with
            configCache :=
              ContainersConfigCache.SetMetaData cluster.configCache metaid instances webhooks }
        let changed : Option Cluster :=
          if engines.length > 0 then
            let originalInstances : Int := metaData.BaseConfigs.length
            if originalInstances < instances then
              (createContainers env cluster metaData (instances - originalInstances)
                metaData.Config).map (fun r => r.1)
            else
              some (reduceContainers env cluster metaData (originalInstances - instances))
          else
            some cluster
        match changed with
        | none => none
        | some cluster =>
          some (cluster, some (updatedContainers cluster metaData.MetaID engines), none)

/-! ## `cluster.go`: operating, upgrading and removing containers -/

/-- The inner loop of `OperateContainers` over the containers of one engine; the flag is
`foundContainer`. -/
def operateEngineContainers (env : Env) (engine : Engine) (containerid action : String) :
    List Container → Cluster → types.OperatedContainers →
      Cluster × types.OperatedContainers × Bool
  | [], cluster, operated => (cluster, operated, false)
  | container :: rest, cluster, operated =>
    let step : Cluster × types.OperatedContainers :=
      if containerid == "" || container.Info.ID == containerid then
        let done : Cluster × Option Error :=
          if engine.IsHealthy then
            Engine.OperateContainer env cluster engine action container.Info.ID
          else
            (cluster, some (Error.errorf ("engine state is " ++ engine.State)))
        (done.1, types.SetOperatedPair operated engine.IP container.Info.ID action done.2)
      else
        (cluster, operated)
    if container.Info.ID == containerid then
      (step.1, step.2, true)
    else
      operateEngineContainers env engine containerid action rest step.1 step.2

/-- The outer loop of `OperateContainers` over the engines; it breaks once
`foundContainer` is set. -/
def operateEngines (env : Env) (metaid containerid action : String) :
    List Engine → Cluster → types.OperatedContainers → Cluster × types.OperatedContainers
  | [], cluster, operated => (cluster, operated)
  | engine :: rest, cluster, operated =>
    match operateEngineContainers env engine containerid action (engine.Containers metaid)
        cluster operated with
    | (cluster, operated, true) => (cluster, operated)
    | (cluster, operated, false) => operateEngines env metaid containerid action rest cluster operated

/-- The Go method `Cluster.OperateContainers`. -/
def OperateContainers (env : Env) (cluster : Cluster) (metaid containerid action : String) :
    Cluster × Option types.OperatedContainers × Option Error :=
  match validateMetaData cluster metaid with
  | Except.error err => (cluster, none, some err)
  | Except.ok (metaData, engines) =>
    match operateEngines env metaData.MetaID containerid action engines cluster [] with
    | (cluster, operatedContainers) => (cluster, some operatedContainers, none)

/-- The Go method `Cluster.UpgradeContainers`. -/
def UpgradeContainers (cluster : Cluster) (metaid imagetag : String) : Cluster × Option Error :=
  match validateMetaData cluster metaid with
  | Except.error err => (cluster, some err)
  | Except.ok (metaData, engines) =>
    let upgradecontainers := engines.foldl (fun upgradecontainers engine =>
      (engine.Containers metaData.MetaID).foldl (fun upgradecontainers container =>
        upgradecontainers ++ [container]) upgradecontainers) []
    if upgradecontainers.length > 0 then
      ({ cluster with
          upgraderCache :=
            UpgradeContainersCache.Upgrade cluster.upgraderCache metaData.MetaID imagetag
              upgradecontainers },
        none)
    else
      (cluster, none)

/-- The inner loop of `RemoveContainers` over the containers of one engine; the flag is
`foundContainer`. -/
def removeEngineContainers (env : Env) (engine : Engine) (containerid : String) :
    List Container → Cluster → types.RemovedContainers →
      Cluster × types.RemovedContainers × Bool
  | [], cluster, removed => (cluster, removed, false)
  | container :: rest, cluster, removed =>
    let step : Cluster × types.RemovedContainers :=
      if containerid == "" || container.Info.ID == containerid then
        let done : Cluster × Option Error :=
          if engine.IsHealthy then
            Engine.RemoveContainer env cluster engine container.Info.ID
          else
            (cluster, some (Error.errorf ("engine state is " ++ engine.State)))
        (done.1, types.SetRemovedPair removed engine.IP container.Info.ID done.2)
      else
        (cluster, removed)
    if container.Info.ID == containerid then
      (step.1, step.2, true)
    else
      removeEngineContainers env engine containerid rest step.1 step.2

/-- The outer loop of `RemoveContainers` over the engines; it breaks once `foundContainer`
is set. -/
def removeEngines (env : Env) (metaid containerid : String) :
    List Engine → Cluster → types.RemovedContainers → Cluster × types.RemovedContainers
  | [], cluster, removed => (cluster, removed)
  | engine :: rest, cluster, removed =>
    match removeEngineContainers env engine containerid (engine.Containers metaid)
        cluster removed with
    | (cluster, removed, true) => (cluster, removed)
    | (cluster, removed, false) => removeEngines env metaid containerid rest cluster removed

/-- The closing step of `RemoveContainers`: a meta with no `BaseConfigs` left is deleted. -/
def removeEmptyMetaData (cluster : Cluster) (metaid : String) : Cluster :=
  match ContainersConfigCache.GetMetaData cluster.configCache metaid with
  | some metaData =>
    if metaData.BaseConfigs.length == 0 then
      { cluster with
        configCache := ContainersConfigCache.RemoveMetaData cluster.configCache metaData.MetaID }
    else
      cluster
  | none => cluster

/-- The Go method `Cluster.RemoveContainers`. -/
def RemoveContainers (env : Env) (cluster : Cluster) (metaid containerid : String) :
    Cluster × Option types.RemovedContainers × Option Error :=
  match validateMetaData cluster metaid with
  | Except.error err => (cluster, none, some err)
  | Except.ok (metaData, engines) =>
    match removeEngines env metaData.MetaID containerid engines cluster [] with
    | (cluster, removedContainers) =>
      (removeEmptyMetaData cluster metaData.MetaID, some removedContainers, none)

/-! ## `respcluster.go`: the create and update responses -/

namespace response

/-- The response `GroupCreateContainersResponse`. -/
structure GroupCreateContainersResponse where
  GroupID : String
  MetaID : String
  Created : String
  Containers : types.CreatedContainers
deriving DecidableEq, Repr

/-- The Go function `NewGroupCreateContainersResponse`, for a non-nil `containers`. -/
def NewGroupCreateContainersResponse (groupid metaid : String) (instances : Int)
    (containers : types.CreatedContainers) : GroupCreateContainersResponse :=
  let created := "created all"
  let created := if instances > (containers.length : Int) then "created partial" else created
  { GroupID := groupid, MetaID := metaid, Created := created, Containers := containers }

/-- The response `GroupUpdateContainersResponse`. -/
structure GroupUpdateContainersResponse where
  MetaID : String
  Updated : String
  Containers : types.CreatedContainers
deriving DecidableEq, Repr

/-- The Go function `NewGroupUpdateContainersResponse`, for a non-nil `containers`. -/
def NewGroupUpdateContainersResponse (metaid : String) (instances : Int)
    (containers : types.CreatedContainers) : GroupUpdateContainersResponse :=
  let updated := "updated all"
  let updated := if instances > (containers.length : Int) then "updated partial" else updated
  { MetaID := metaid, Updated := updated, Containers := containers }

end response

/-! ## Vocabulary of the statements -/

/-- The containers of the meta `metaid` on the engines of a snapshot, each with its engine,
in the order the loops of `OperateContainers` and `RemoveContainers` walk them. -/
def groupContainers (metaid : String) : List Engine → List (Engine × Container)
  | [] => []
  | engine :: rest =>
    (engine.Containers metaid).map (fun c => (engine, c)) ++ groupContainers metaid rest

/-- The call `OperateContainers` makes to the agent for a container on a healthy engine. -/
def operateCall (action : String) (p : Engine × Container) : AgentCall :=
  AgentCall.operate p.1.IP action p.2.Info.ID

/-- The calls `OperateContainers` makes for a list of containers: one for each container on
a healthy engine, none for the others. -/
def operateCalls (action : String) (targets : List (Engine × Container)) : List AgentCall :=
  (targets.filter (fun p => p.1.IsHealthy)).map (operateCall action)

/-- The entry of the result for a container, when `calls` are the calls made so far: on a
healthy engine it carries the error of the agent's reply (or none), on another engine the
text `engine state is ` followed by the engine's state. -/
def operatedEntry (env : Env) (action : String) (calls : List AgentCall) (p : Engine × Container) :
    types.OperatedContainer :=
  { IP := p.1.IP, ID := p.2.Info.ID, Action := action,
    Error :=
      if p.1.IsHealthy then (env.agent calls (operateCall action p)).err.map Error.errorf
      else some (Error.errorf ("engine state is " ++ p.1.State)) }

/-- The entries for a list of containers, the calls threading through. -/
def operatedEntries (env : Env) (action : String) :
    List AgentCall → List (Engine × Container) → List types.OperatedContainer
  | _, [] => []
  | calls, p :: rest =>
    operatedEntry env action calls p ::
      operatedEntries env action (calls ++ operateCalls action [p]) rest

/-- The call `RemoveContainers` makes to the agent for a container on a healthy engine. -/
def removeCall (p : Engine × Container) : AgentCall :=
  AgentCall.remove p.1.IP p.2.Info.ID

/-- The containers `RemoveContainers(m, id)` sets out to remove, among the containers of the
meta in the order of the walk: each container when `id` is blank, the container with the ID
`id` otherwise; the walk ends at the first container whose ID is `id`. -/
def removeTargets (containerid : String) : List (Engine × Container) → List (Engine × Container)
  | [] => []
  | p :: rest =>
    if p.2.Info.ID == containerid then [p]
    else if containerid == "" then p :: removeTargets containerid rest
    else removeTargets containerid rest

/-! ## Sample environments and clusters -/

/-- An environment whose agents accept every call; a created container gets the ID `c`
followed by the number of calls made before. -/
def sampleEnv : Env where
  agent := fun calls _ => { err := none, id := "c" ++ toString calls.length, state := "running" }
  score := fun _ _ => 0
  intn := fun _ _ => 0
  newMetaID := "meta0009"

/-- An environment whose agents refuse every call. -/
def refusingEnv : Env where
  agent := fun _ _ => { err := some "refused" }
  score := fun _ _ => 0
  intn := fun _ _ => 0
  newMetaID := "meta0009"

/-- A cluster with the meta `meta0001` in the upgrade queue. -/
def upgradingCluster : Cluster where
  upgraderCache := [{ MetaID := "meta0001", ImageTag := "v2", Containers := [] }]

/-- A cluster with the meta `meta0001` in the migrate queue only. -/
def migratingCluster : Cluster where
  migtatorCache := ["meta0001"]

/-- A cluster with one group. -/
def oneGroupCluster : Cluster where
  groups := [{ ID := "group0001", Servers := [{ Name := "node1", IP := "10.0.0.1" }] }]

/-- A cluster with the group `group0001` on one healthy engine and the meta `meta0001` of
that group, named `web`, with no container yet. -/
def webCluster : Cluster where
  groups := [{ ID := "group0001", Servers := [{ Name := "node1", IP := "10.0.0.1" }] }]
  engines := [{ IP := "10.0.0.1", Name := "node1" }]
  configCache :=
    [{ GroupID := "group0001", MetaID := "meta0001", Instances := 1,
       Config := { Name := "web", Env := ["A=1"] } }]

/-- The meta `meta0001` of `webCluster`. -/
def webMeta : MetaData :=
  { GroupID := "group0001", MetaID := "meta0001", Instances := 1,
    Config := { Name := "web", Env := ["A=1"] } }

/-- A cluster with two groups, each on one healthy engine, and a meta named `web` in each;
the catalog yields the one of `group0002` first. -/
def conflictCluster : Cluster where
  groups :=
    [{ ID := "group0001", Servers := [{ Name := "node1", IP := "10.0.0.1" }] },
     { ID := "group0002", Servers := [{ Name := "node2", IP := "10.0.0.2" }] }]
  engines := [{ IP := "10.0.0.1", Name := "node1" }, { IP := "10.0.0.2", Name := "node2" }]
  configCache :=
    [{ GroupID := "group0002", MetaID := "meta0002", Instances := 1, Config := { Name := "web" } },
     { GroupID := "group0001", MetaID := "meta0001", Instances := 1, Config := { Name := "web" } }]

/-- The config `createContainers` submits for the instance 0 of `webMeta`. -/
def stampedWeb : models.Container :=
  { Name := "group000-web-0",
    Env := ["A=1", "HUMPBACK_CLUSTER_GROUPID=group0001", "HUMPBACK_CLUSTER_METAID=meta0001",
      "HUMPBACK_CLUSTER_CONTAINER_INDEX=0",
      "HUMPBACK_CLUSTER_CONTAINER_ORIGINALNAME=group000-web-0"] }

/-- The config submitted for the instance 0 of a new meta `meta0009` named `web` in
`group0001`. -/
def conflictWeb : models.Container :=
  { Name := "group000-web-0",
    Env := ["HUMPBACK_CLUSTER_GROUPID=group0001", "HUMPBACK_CLUSTER_METAID=meta0009",
      "HUMPBACK_CLUSTER_CONTAINER_INDEX=0",
      "HUMPBACK_CLUSTER_CONTAINER_ORIGINALNAME=group000-web-0"] }

/-- A cluster whose group `g1` has an ID of fewer than 8 bytes, on one healthy engine. -/
def shortCluster : Cluster where
  groups := [{ ID := "g1", Servers := [{ Name := "node1", IP := "10.0.0.1" }] }]
  engines := [{ IP := "10.0.0.1", Name := "node1" }]

/-- A template named `api`. -/
def apiConfig : models.Container :=
  { Name := "api" }

/-- The meta `meta0001` with two containers bound. -/
def runningMeta : MetaData :=
  { GroupID := "group0001", MetaID := "meta0001", Instances := 2, Config := { Name := "web" },
    BaseConfigs :=
      [{ Index := 0, ID := "c1", Name := "group000-web-0" },
       { Index := 1, ID := "c2", Name := "group000-web-1" }] }

/-- A healthy engine with the container `c1` of `meta0001`, and an unhealthy engine with the
container `c2` of `meta0001`. -/
def runningEngines : List Engine :=
  [{ IP := "10.0.0.1", Name := "node1",
     containers :=
       [{ Info := { ID := "c1", State := "running" },
          Config := { Container := { Name := "group000-web-0" }, MetaID := "meta0001" } }] },
   { IP := "10.0.0.2", Name := "node2", state := engineState.StateUnhealthy,
     containers :=
       [{ Info := { ID := "c2", State := "running" },
          Config := { Container := { Name := "group000-web-1" }, MetaID := "meta0001" } }] }]

/-- A cluster with the group `group0001` on the two engines of `runningEngines` and the meta
`meta0001`. -/
def runningCluster : Cluster where
  groups :=
    [{ ID := "group0001",
       Servers := [{ Name := "node1", IP := "10.0.0.1" }, { Name := "node2", IP := "10.0.0.2" }] }]
  engines := runningEngines
  configCache := [runningMeta]

/-- A cluster with the group `group0001` on one healthy engine that holds the only
container `c1` of the meta `meta0001`. -/
def singleCluster : Cluster where
  groups := [{ ID := "group0001", Servers := [{ Name := "node1", IP := "10.0.0.1" }] }]
  engines :=
    [{ IP := "10.0.0.1", Name := "node1",
       containers :=
         [{ Info := { ID := "c1", State := "running" },
            Config := { Container := { Name := "group000-web-0" }, MetaID := "meta0001" } }] }]
  configCache :=
    [{ GroupID := "group0001", MetaID := "meta0001", Instances := 1, Config := { Name := "web" },
       BaseConfigs := [{ Index := 0, ID := "c1", Name := "group000-web-0" }] }]

/-- The cluster `conflictCluster` with the two metas named `web` in the other order: the
catalog yields the one of `group0001` first. -/
def conflictClusterSwapped : Cluster :=
  { conflictCluster with configCache := conflictCluster.configCache.reverse }

/-- The ranked candidates of `selectEngines`: the healthy engines, in the order of the
weighted selection when it keeps at least one (lines 748 to 763 of `cluster.go`). -/
def rankedEngines (env : Env) (engines : List Engine) (config : models.Container) : List Engine :=
  let selectEngines := engines.filter (fun engine => engine.IsHealthy)
  if selectEngines.length == 0 then
    selectEngines
  else
    let weightedEngines := selectWeightdEngines env selectEngines config
    if weightedEngines.length > 0 then
      (weightedEngines.insertionSort weightedLess).map (fun p => p.1)
    else
      selectEngines

/-- A cluster whose group `group0001` names a server by an IP no engine has and by the
name of the engine `10.0.0.1`. -/
def fallbackCluster : Cluster where
  groups := [{ ID := "group0001", Servers := [{ Name := "node1", IP := "10.0.0.9" }] }]
  engines := [{ IP := "10.0.0.1", Name := "node1" }]

/-- An environment whose agents accept every call and whose scheduler gives every engine
the score -1. -/
def negativeEnv : Env where
  agent := fun calls _ => { err := none, id := "c" ++ toString calls.length, state := "running" }
  score := fun _ _ => -1
  intn := fun _ _ => 0
  newMetaID := "meta0009"

/-! ## `cluster.go`: the read lock of the inspection methods

The methods below are the inspection methods once more, with the read lock of the cluster
counted: `RLock` adds a reader, `RUnlock` takes one away, and a `defer cluster.RUnlock()`
runs at every return. -/

namespace types

/-- One entry of the containers of a `types.GroupContainer`. -/
structure EngineContainer where
  IP : String
  HostName : String
  Container : models.Container
deriving DecidableEq, Repr

/-- The containers of one meta: `types.GroupContainer`. -/
structure GroupContainer where
  MetaID : String
  Instances : Int
  WebHooks : WebHooks
  Config : models.Container
  Containers : List EngineContainer
deriving DecidableEq, Repr

/-- The list `types.GroupContainers`. -/
abbrev GroupContainers := List GroupContainer

end types

namespace Locked

/-- The call `cluster.RLock()`. -/
def RLock (cluster : Cluster) : Cluster :=
  { cluster with readers := cluster.readers + 1 }

/-- The call `cluster.RUnlock()`. -/
def RUnlock (cluster : Cluster) : Cluster :=
  { cluster with readers := cluster.readers - 1 }

/-- The Go method `Cluster.GetEngine`, the lock counted. -/
def GetEngine (cluster : Cluster) (ip : String) : Cluster × Option Engine :=
  let cluster := RLock cluster
  match cluster.engines.find? (fun e => e.IP == ip) with
  | some engine => (RUnlock cluster, some engine)
  | none => (RUnlock cluster, none)

/-- The Go method `Cluster.GetGroupEngines`, the lock counted. -/
def GetGroupEngines (cluster : Cluster) (groupid : String) : Cluster × Option (List Engine) :=
  let cluster := RLock cluster
  match cluster.groups.find? (fun g => g.ID == groupid) with
  | none => (RUnlock cluster, none)
  | some group =>
    (RUnlock cluster,
      some (removeDuplicatesEngines (group.Servers.filterMap (serverEngine cluster))))

/-- The Go method `Cluster.InGroupsContains`, the lock counted. -/
def InGroupsContains (cluster : Cluster) (ip name : String) : Cluster × Bool :=
  let cluster := RLock cluster
  if cluster.groups.any (fun group =>
      group.Servers.any (fun server => server.IP != "" && server.IP == ip)) then
    (RUnlock cluster, true)
  else if cluster.groups.any (fun group =>
      group.Servers.any (fun server => server.Name != "" && server.Name == name)) then
    (RUnlock cluster, true)
  else
    (RUnlock cluster, false)

/-- The Go method `Cluster.GetMetaDataEngines`, the lock counted. -/
def GetMetaDataEngines (cluster : Cluster) (metaid : String) :
    Cluster × Except Error (MetaData × List Engine) :=
  match ContainersConfigCache.GetMetaData cluster.configCache metaid with
  | none => (cluster, Except.error Error.ErrClusterMetaDataNotFound)
  | some metaData =>
    match GetGroupEngines cluster metaData.GroupID with
    | (cluster, none) => (cluster, Except.error Error.ErrClusterGroupNotFound)
    | (cluster, some engines) => (cluster, Except.ok (metaData, engines))

/-- The Go method `Cluster.GetGroupContainers`, the lock counted. -/
def GetGroupContainers (cluster : Cluster) (metaid : String) :
    Cluster × Option types.GroupContainer :=
  match GetMetaDataEngines cluster metaid with
  | (cluster, Except.error _) => (cluster, none)
  | (cluster, Except.ok (metaData, engines)) =>
    (cluster,
      some
        { MetaID := metaData.MetaID, Instances := metaData.Instances,
          WebHooks := metaData.WebHooks, Config := metaData.Config,
          Containers := metaData.BaseConfigs.filterMap (fun baseConfig =>
            engines.findSome? (fun engine =>
              if engine.IsHealthy then
                (engine.Container baseConfig.ID).map (fun container =>
                  { IP := engine.IP, HostName := engine.Name,
                    Container := container.Config.Container })
              else
                none)) })

/-- The loop of `GetGroupAllContainers` over the metas of the group. -/
def groupAllContainers :
    List MetaData → Cluster → types.GroupContainers → Cluster × types.GroupContainers
  | [], cluster, groupContainers => (cluster, groupContainers)
  | metaData :: rest, cluster, groupContainers =>
    match GetGroupContainers cluster metaData.MetaID with
    | (cluster, some groupContainer) =>
      groupAllContainers rest cluster (groupContainers ++ [groupContainer])
    | (cluster, none) => groupAllContainers rest cluster groupContainers

/-- The Go method `Cluster.GetGroupAllContainers`, the lock counted: the return for an
unknown group comes before `cluster.RUnlock()`. -/
def GetGroupAllContainers (cluster : Cluster) (groupid : String) :
    Cluster × Option types.GroupContainers :=
  let cluster := RLock cluster
  match cluster.groups.find? (fun g => g.ID == groupid) with
  | none => (cluster, none)
  | some _ =>
    let cluster := RUnlock cluster
    match groupAllContainers (ContainersConfigCache.GetGroupMetaData cluster.configCache groupid)
        cluster [] with
    | (cluster, groupContainers) => (cluster, some groupContainers)

end Locked

/-- A cluster with two groups and a marker of an operation in flight on the name `web` in
`group0001`; the only meta named `web` is one of `group0002`. -/
def pendingCluster : Cluster where
  groups :=
    [{ ID := "group0001", Servers := [{ Name := "node1", IP := "10.0.0.1" }] },
     { ID := "group0002", Servers := [{ Name := "node2", IP := "10.0.0.2" }] }]
  engines := [{ IP := "10.0.0.1", Name := "node1" }, { IP := "10.0.0.2", Name := "node2" }]
  configCache :=
    [{ GroupID := "group0002", MetaID := "meta0002", Instances := 1, Config := { Name := "web" } }]
  pendingContainers := [("web", { GroupID := "group0001", Name := "web", Config := { Name := "web" } })]

/-- The meta `meta0002` of `pendingCluster`. -/
def pendingMeta : MetaData :=
  { GroupID := "group0002", MetaID := "meta0002", Instances := 1, Config := { Name := "web" } }

/-- A template named `web`. -/
def webConfig : models.Container :=
  { Name := "web" }

/-! ## `cluster.go`: `NewCluster` -/

/-- The Go function `NewCluster`, as far as the options `overcommit` and `createretry` go:
`discovery` tells whether the discovery is non-nil, `overcommit` and `createretry` are what
`driverOpts.Float("overcommit", "")` and `driverOpts.Int("createretry", "")` yield (`none`
when the option is not set), and `cacheError` is the error of `NewContainersConfigCache`, if
any.  The result is `(*Cluster, error)`. -/
def NewCluster (discovery : Bool) (overcommit : Option float64) (createretry : Option Int)
    (cacheError : Option Error) : Option Cluster × Option Error :=
  if !discovery then
    (none, some Error.ErrClusterDiscoveryInvalid)
  else
    let overcommitratio := float64.num (1 / 20)
    let overcommitratio :=
      match overcommit with
      | some val =>
        if float64.le val (float64.num (-1)) then overcommitratio
        else if float64.lt val (float64.num 0) then val
        else val
      | none => overcommitratio
    let createretry : Int :=
      match createretry with
      | some val => if val < 0 then 0 else val
      | none => 0
    match cacheError with
    | some err => (none, some err)
    | none =>
      (some
        { overcommitRatio := overcommitratio, createRetry := createretry, nodeCache := [],
          pendingContainers := [], engines := [], groups := [] },
        none)

/-- The cluster after `cluster.configCache.SetMetaData(metaid, instances, webhooks)`. -/
def withMetaData (cluster : Cluster) (metaid : String) (instances : Int)
    (webhooks : types.WebHooks) : Cluster :=
  { cluster with
    configCache := ContainersConfigCache.SetMetaData cluster.configCache metaid instances webhooks }

/-! ## `cluster.go`: `SetGroup`

`compareRemoveServers` and `compareAddServers` are helpers of the cluster package that are
not at hand: `SetGroup` takes them as parameters.  The calls to `PendEngines`, whose source
is not at hand either, are appended to `Cluster.pendCalls`. -/

namespace NodeCache

/-- Modelled from the spec: `Get` of the `NodeCache`, the node known under an IP or a
name. -/
def Get (nodes : List NodeData) (ipOrName : String) : Option NodeData :=
  nodes.find? (fun node => node.IP == ipOrName || node.Name == ipOrName)

end NodeCache

/-- Modelled from the spec: the comparison of two servers for the diff of `SetGroup`, by
their identity under `selectIPOrName`; it stands for `compareRemoveServers` and for
`compareAddServers` where a concrete helper is needed. -/
def sameServer (_nodeCache : List NodeData) (originServer newServer : Server) : Bool :=
  selectIPOrName originServer.IP originServer.Name == selectIPOrName newServer.IP newServer.Name

/-- One turn of the loop over `removeServers` in `SetGroup`, lines 355 to 362. -/
def setGroupRemove (cluster : Cluster) (server : Server) : Cluster :=
  match NodeCache.Get cluster.nodeCache (selectIPOrName server.IP server.Name) with
  | some nodeData =>
    if !InGroupsContains cluster nodeData.IP nodeData.Name then
      { cluster with
        pendCalls := cluster.pendCalls ++ [PendCall.RemoveEngine server.IP server.Name] }
    else
      cluster
  | none => cluster

/-- One turn of the loop over `addServers` in `SetGroup`, lines 364 to 367. -/
def setGroupAdd (cluster : Cluster) (server : Server) : Cluster :=
  { cluster with pendCalls := cluster.pendCalls ++ [PendCall.AddEngine server.IP server.Name] }

/-- The Go method `Cluster.SetGroup`. -/
def SetGroup (compareRemoveServers compareAddServers : List NodeData → Server → Server → Bool)
    (cluster : Cluster) (group : Group) : Cluster :=
  let diff : Cluster × List Server × List Server :=
    match cluster.groups.find? (fun g => g.ID == group.ID) with
    | none =>
      ({ cluster with groups := cluster.groups ++ [group] },
        group.Servers.filter (fun server =>
          (NodeCache.Get cluster.nodeCache (selectIPOrName server.IP server.Name)).isSome),
        [])
    | some pGroup =>
      let origins := pGroup.Servers
      ({ cluster with
          groups := cluster.groups.map (fun g =>
            if g.ID == group.ID then { g with Servers := group.Servers } else g) },
        group.Servers.filter (fun newServer =>
          !(origins.any (fun originServer =>
            compareAddServers cluster.nodeCache originServer newServer))),
        origins.filter (fun originServer =>
          !(group.Servers.any (fun newServer =>
            compareRemoveServers cluster.nodeCache originServer newServer))))
  let cluster := diff.2.2.foldl setGroupRemove diff.1
  diff.2.1.foldl setGroupAdd cluster

/-- Whether `SetGroup` calls `RemoveEngine` for a server it found absent from the new list:
`NodeCache` knows the server, and no group of the cluster references the cached node by IP
or name. -/
def setGroupRemoves (cluster : Cluster) (server : Server) : Bool :=
  match NodeCache.Get cluster.nodeCache (selectIPOrName server.IP server.Name) with
  | some nodeData => !InGroupsContains cluster nodeData.IP nodeData.Name
  | none => false

/-- The cluster with the servers of the group `group.ID` replaced by those of `group`. -/
def withServers (cluster : Cluster) (group : Group) : Cluster :=
  { cluster with
    groups := cluster.groups.map (fun g =>
      if g.ID == group.ID then { g with Servers := group.Servers } else g) }

/-- A cluster whose group `group0001` has one server that `NodeCache` does not know. -/
def unknownServerCluster : Cluster where
  groups := [{ ID := "group0001", Servers := [{ Name := "node1", IP := "10.0.0.1" }] }]

/-- A cluster whose group `group0001` has a server named by its IP only; `NodeCache` knows
the node under its IP and its name. -/
def knownServerCluster : Cluster where
  groups := [{ ID := "group0001", Servers := [{ Name := "", IP := "10.0.0.1" }] }]
  nodeCache := [{ Key := "k1", IP := "10.0.0.1", Name := "node1" }]

/-! ## The create-partial scenario -/

/-- The scenario `create partial`: the group `groupid` has two servers, `10.0.0.1` and
`10.0.0.2`, the cluster has exactly the two healthy engines `a` and `b` under these IPs, and
`createRetry` is 0. -/
def partialScenario (groupid : String) (cluster : Cluster) (a b : Engine) : Prop :=
  (∃ group s1 s2, cluster.groups.find? (fun g => g.ID == groupid) = some group ∧
    group.Servers = [s1, s2] ∧ s1.IP = "10.0.0.1" ∧ s2.IP = "10.0.0.2") ∧
  cluster.engines = [a, b] ∧ a.IP = "10.0.0.1" ∧ b.IP = "10.0.0.2" ∧
  a.IsHealthy = true ∧ b.IsHealthy = true ∧ cluster.createRetry = 0

/-- The catalog holds the meta `metaid` with four instances asked for and at most `k`
`BaseConfigs`. -/
def partialMeta (cluster : Cluster) (metaid : String) (k : Nat) : Prop :=
  ∃ md, ContainersConfigCache.GetMetaData cluster.configCache metaid = some md ∧
    md.Instances = 4 ∧ md.BaseConfigs.length ≤ k

/-- An environment of the scenario: the agent of `10.0.0.2` refuses every create, the other
agents accept; the score of `10.0.0.1` is 1 and every other score is 0, and `Intn` always
yields 0. -/
def partialEnv : Env where
  agent := fun calls call =>
    match call with
    | AgentCall.create ip _ =>
      if ip == "10.0.0.2" then { err := some "refused" }
      else { err := none, id := "c" ++ toString calls.length, state := "running" }
    | _ => { err := none }
  score := fun e _ => if e.IP == "10.0.0.1" then 1 else 0
  intn := fun _ _ => 0
  newMetaID := "meta0009"

/-- The environment `partialEnv` with an `Intn` that always yields its bound less one. -/
def partialEnvLast : Env :=
  { partialEnv with intn := fun _ n => n - 1 }

/-- A cluster of the scenario: `group0001` on the two healthy engines `10.0.0.1` and
`10.0.0.2`, with an empty catalog. -/
def twoEngineCluster : Cluster where
  groups :=
    [{ ID := "group0001",
       Servers := [{ Name := "node1", IP := "10.0.0.1" }, { Name := "node2", IP := "10.0.0.2" }] }]
  engines := [{ IP := "10.0.0.1", Name := "node1" }, { IP := "10.0.0.2", Name := "node2" }]

/-- The agents and scores of the scenario `create partial`: every engine passes the weight
filter (its score is not negative), the agent of `10.0.0.1` accepts every create and the
agent of `10.0.0.2` refuses every create. -/
def partialAgents (env : Env) : Prop :=
  (∀ e cfg, 0 ≤ env.score e cfg) ∧
  (∀ calls cfg, (env.agent calls (AgentCall.create "10.0.0.1" cfg)).err = none) ∧
  (∀ calls cfg, (env.agent calls (AgentCall.create "10.0.0.2" cfg)).err ≠ none)

/-! ## The turns of `createContainers` -/

/-- The turns of the loop of `createContainers`, in order: for each turn, the instance index
that `MakeContainerIdleIndex` returned at its start (line 681 of `cluster.go`) and the calls
made to the agents during the turn. -/
def createContainersTrace (env : Env) (metaData : MetaData) (config : models.Container) :
    Nat → Cluster → List String → types.CreatedContainers → List (Int × List AgentCall)
  | 0, _, _, _ => []
  | instances + 1, cluster, ipList, created =>
    match createContainersTurn env metaData config cluster ipList created with
    | none => []
    | some (c1, ipList1, created1) =>
      (ContainersConfigCache.MakeContainerIdleIndex cluster.configCache metaData.MetaID,
        c1.calls.drop cluster.calls.length) ::
        createContainersTrace env metaData config instances c1 ipList1 created1

/-- The turns of a run of `createContainers`: the loop starts from the cluster with the
pending marker set, an empty avoid-IP list and an empty created list. -/
def createContainersTurns (env : Env) (cluster : Cluster) (metaData : MetaData)
    (instances : Int) (config : models.Container) : List (Int × List AgentCall) :=
  createContainersTrace env metaData config instances.toNat
    (setPendingContainer cluster config.Name
      { GroupID := metaData.GroupID, Name := config.Name, Config := config }) [] []

/-- The meta `meta0001` of `group0001`, named `web`, with two instances asked for. -/
def twinMeta : MetaData :=
  { GroupID := "group0001", MetaID := "meta0001", Instances := 2,
    Config := { Name := "web", Env := ["A=1"] } }

/-- A cluster with the group `group0001` on one healthy engine and the meta `twinMeta`, with
no container yet. -/
def twinCluster : Cluster where
  groups := [{ ID := "group0001", Servers := [{ Name := "node1", IP := "10.0.0.1" }] }]
  engines := [{ IP := "10.0.0.1", Name := "node1" }]
  configCache := [twinMeta]

/-- The config `createContainers` submits for the instance 1 of `twinMeta`. -/
def stampedWeb1 : models.Container :=
  { Name := "group000-web-1",
    Env := ["A=1", "HUMPBACK_CLUSTER_GROUPID=group0001", "HUMPBACK_CLUSTER_METAID=meta0001",
      "HUMPBACK_CLUSTER_CONTAINER_INDEX=1",
      "HUMPBACK_CLUSTER_CONTAINER_ORIGINALNAME=group000-web-1"] }

/-! ## Theorems -/

/-- C1, as stated, fails: with `meta0001` in the upgrade queue, `UpdateContainers` on it with
`instances = 0` returns `ErrClusterContainersInstancesInvalid`, not
`ErrClusterContainersUpgrading`. -/
theorem C1_counterexample :
    UpgradeContainersCache.Contains upgradingCluster.upgraderCache "meta0001" = true ∧
    UpdateContainers sampleEnv upgradingCluster "meta0001" 0 [] =
      some (upgradingCluster, none, some Error.ErrClusterContainersInstancesInvalid) ∧
    UpdateContainers sampleEnv upgradingCluster "meta0001" 0 [] ≠
      some (upgradingCluster, none, some Error.ErrClusterContainersUpgrading) := by
  refine ⟨by decide, by rfl, ?_⟩
  have h : UpdateContainers sampleEnv upgradingCluster "meta0001" 0 [] =
      some (upgradingCluster, none, some Error.ErrClusterContainersInstancesInvalid) := by rfl
  rw [h]
  simp

/-- C1 (amended): while the upgrade queue or the migrate queue contains the meta `m`,
`OperateContainers`, `UpgradeContainers` and `RemoveContainers` on `m`, and `UpdateContainers`
on `m` with `instances > 0`, return `ErrClusterContainersUpgrading` if the upgrade queue
contains `m` and `ErrClusterContainersMigrating` otherwise, with a nil result; the cluster
they return is the one they were given, so no agent is called and the catalog is as it
was. -/
theorem C1_queued_meta_rejected (env : Env) (cluster : Cluster) (m containerid action imagetag : String)
    (instances : Int) (webhooks : types.WebHooks)
    (hq : UpgradeContainersCache.Contains cluster.upgraderCache m = true ∨
      MigrateContainersCache.Contains cluster.migtatorCache m = true)
    (hi : 0 < instances) :
    UpdateContainers env cluster m instances webhooks =
      some (cluster, none,
        some (if UpgradeContainersCache.Contains cluster.upgraderCache m = true
          then Error.ErrClusterContainersUpgrading else Error.ErrClusterContainersMigrating)) ∧
    OperateContainers env cluster m containerid action =
      (cluster, none,
        some (if UpgradeContainersCache.Contains cluster.upgraderCache m = true
          then Error.ErrClusterContainersUpgrading else Error.ErrClusterContainersMigrating)) ∧
    UpgradeContainers cluster m imagetag =
      (cluster,
        some (if UpgradeContainersCache.Contains cluster.upgraderCache m = true
          then Error.ErrClusterContainersUpgrading else Error.ErrClusterContainersMigrating)) ∧
    RemoveContainers env cluster m containerid =
      (cluster, none,
        some (if UpgradeContainersCache.Contains cluster.upgraderCache m = true
          then Error.ErrClusterContainersUpgrading else Error.ErrClusterContainersMigrating)) := by
  have hv : validateMetaData cluster m =
      Except.error (if UpgradeContainersCache.Contains cluster.upgraderCache m = true
        then Error.ErrClusterContainersUpgrading else Error.ErrClusterContainersMigrating) := by
    unfold validateMetaData
    by_cases hu : UpgradeContainersCache.Contains cluster.upgraderCache m = true
    · simp [hu]
    · have hm : MigrateContainersCache.Contains cluster.migtatorCache m = true := by
        rcases hq with h | h
        · exact absurd h hu
        · exact h
      simp [hu, hm]
  have hn : ¬ instances ≤ 0 := not_le.mpr hi
  refine ⟨?_, ?_, ?_, ?_⟩
  · unfold UpdateContainers
    rw [if_neg hn, hv]
  · unfold OperateContainers
    rw [hv]
  · unfold UpgradeContainers
    rw [hv]
  · unfold RemoveContainers
    rw [hv]

/-- A witness of C1 (amended): `meta0001` is in the migrate queue only, `instances = 2`. -/
theorem C1_queued_meta_rejected_witness :
    (UpgradeContainersCache.Contains migratingCluster.upgraderCache "meta0001" = true ∨
      MigrateContainersCache.Contains migratingCluster.migtatorCache "meta0001" = true) ∧
    (0 : Int) < 2 ∧
    UpdateContainers sampleEnv migratingCluster "meta0001" 2 [] =
      some (migratingCluster, none, some Error.ErrClusterContainersMigrating) ∧
    RemoveContainers sampleEnv migratingCluster "meta0001" "" =
      (migratingCluster, none, some Error.ErrClusterContainersMigrating) := by
  have h := C1_queued_meta_rejected sampleEnv migratingCluster "meta0001" "" "stop" "v2" 2 []
    (Or.inr (by decide)) (by decide)
  have hu : ¬ (UpgradeContainersCache.Contains migratingCluster.upgraderCache "meta0001" = true) := by
    decide
  rw [if_neg hu] at h
  exact ⟨Or.inr (by decide), by decide, h.1, h.2.2.2⟩

/-- C4: for `instances <= 0`, `CreateContainers` and `UpdateContainers` return
`ErrClusterContainersInstancesInvalid` with a nil result (and an empty meta ID), whatever the
other arguments and the cluster are, and the cluster they return is the one they were
given: groups, engines, pending containers and catalog are as they were. -/
theorem C4_instances_invalid (env : Env) (cluster : Cluster) (groupid metaid : String)
    (instances : Int) (webhooks : types.WebHooks) (config : models.Container)
    (hi : instances ≤ 0) :
    CreateContainers env cluster groupid instances webhooks config =
      some (cluster, ⟨"", none, some Error.ErrClusterContainersInstancesInvalid⟩) ∧
    UpdateContainers env cluster metaid instances webhooks =
      some (cluster, none, some Error.ErrClusterContainersInstancesInvalid) := by
  constructor
  · unfold CreateContainers
    rw [if_pos hi]
  · unfold UpdateContainers
    rw [if_pos hi]

/-- A witness of C4: `instances = -3`, on a meta that is in the upgrade queue. -/
theorem C4_instances_invalid_witness :
    (-3 : Int) ≤ 0 ∧
    CreateContainers sampleEnv upgradingCluster "group0001" (-3) [] { Name := "web" } =
      some (upgradingCluster, ⟨"", none, some Error.ErrClusterContainersInstancesInvalid⟩) ∧
    UpdateContainers sampleEnv upgradingCluster "meta0001" (-3) [] =
      some (upgradingCluster, none, some Error.ErrClusterContainersInstancesInvalid) :=
  ⟨by decide,
    C4_instances_invalid sampleEnv upgradingCluster "group0001" "meta0001" (-3) []
      { Name := "web" } (by decide)⟩

/-- C6: `NewGroupCreateContainersResponse` sets `Created` to `created partial` if the
requested instances exceed the number of containers and to `created all` otherwise,
`NewGroupUpdateContainersResponse` sets `Updated` to `updated partial` or `updated all` by
the same comparison, and both pass the group ID, meta ID and containers through. -/
theorem C6_response_markers (groupid metaid : String) (n : Int) (c : types.CreatedContainers) :
    (response.NewGroupCreateContainersResponse groupid metaid n c).Created =
      (if n > (c.length : Int) then "created partial" else "created all") ∧
    (response.NewGroupUpdateContainersResponse metaid n c).Updated =
      (if n > (c.length : Int) then "updated partial" else "updated all") ∧
    ((response.NewGroupCreateContainersResponse groupid metaid n c).Created = "created partial" ∨
      (response.NewGroupCreateContainersResponse groupid metaid n c).Created = "created all") ∧
    ((response.NewGroupUpdateContainersResponse metaid n c).Updated = "updated partial" ∨
      (response.NewGroupUpdateContainersResponse metaid n c).Updated = "updated all") ∧
    (response.NewGroupCreateContainersResponse groupid metaid n c).GroupID = groupid ∧
    (response.NewGroupCreateContainersResponse groupid metaid n c).MetaID = metaid ∧
    (response.NewGroupCreateContainersResponse groupid metaid n c).Containers = c ∧
    (response.NewGroupUpdateContainersResponse metaid n c).MetaID = metaid ∧
    (response.NewGroupUpdateContainersResponse metaid n c).Containers = c := by
  unfold response.NewGroupCreateContainersResponse response.NewGroupUpdateContainersResponse
  by_cases h : n > (c.length : Int)
  · simp [h]
  · simp [h]

/-- C9, on the code: `RemoveGroup` on the group `group0001` of a cluster that holds it
returns false and the group is still in `cluster.groups`. -/
theorem C9_RemoveGroup_keeps_group :
    oneGroupCluster.groups.any (fun g => g.ID == "group0001") = true ∧
    (RemoveGroup oneGroupCluster "group0001").2 = false ∧
    (RemoveGroup oneGroupCluster "group0001").1.groups.any (fun g => g.ID == "group0001") = true := by
  refine ⟨by decide, rfl, by decide⟩

/-- C10: `InGroupsContains(ip, name)` is true if and only if some server of some group has a
non-empty IP equal to `ip` or a non-empty name equal to `name`; it is false for blank `ip`
and `name`.  It is a function of the cluster: it changes nothing. -/
theorem C10_InGroupsContains_iff (cluster : Cluster) (ip name : String) :
    (InGroupsContains cluster ip name = true ↔
      ∃ group ∈ cluster.groups, ∃ server ∈ group.Servers,
        (server.IP ≠ "" ∧ server.IP = ip) ∨ (server.Name ≠ "" ∧ server.Name = name)) ∧
    InGroupsContains cluster "" "" = false := by
  constructor
  · unfold InGroupsContains
    constructor
    · intro h
      split at h
      · rename_i h1
        simp only [List.any_eq_true, Bool.and_eq_true, bne_iff_ne, beq_iff_eq] at h1
        obtain ⟨g, hg, s, hs, hne, heq⟩ := h1
        exact ⟨g, hg, s, hs, Or.inl ⟨hne, heq⟩⟩
      · split at h
        · rename_i h2
          simp only [List.any_eq_true, Bool.and_eq_true, bne_iff_ne, beq_iff_eq] at h2
          obtain ⟨g, hg, s, hs, hne, heq⟩ := h2
          exact ⟨g, hg, s, hs, Or.inr ⟨hne, heq⟩⟩
        · exact absurd h (by simp)
    · rintro ⟨g, hg, s, hs, h⟩
      rcases h with ⟨hne, heq⟩ | ⟨hne, heq⟩
      · have h1 : cluster.groups.any (fun group =>
            group.Servers.any (fun server => server.IP != "" && server.IP == ip)) = true := by
          simp only [List.any_eq_true, Bool.and_eq_true, bne_iff_ne, beq_iff_eq]
          exact ⟨g, hg, s, hs, hne, heq⟩
        rw [if_pos h1]
      · have h2 : cluster.groups.any (fun group =>
            group.Servers.any (fun server => server.Name != "" && server.Name == name)) = true := by
          simp only [List.any_eq_true, Bool.and_eq_true, bne_iff_ne, beq_iff_eq]
          exact ⟨g, hg, s, hs, hne, heq⟩
        rw [if_pos h2]
        split <;> rfl
  · unfold InGroupsContains
    have h1 : cluster.groups.any (fun group =>
        group.Servers.any (fun server => server.IP != "" && server.IP == "")) = false := by
      rw [Bool.eq_false_iff]
      simp only [ne_eq, List.any_eq_true, Bool.and_eq_true, bne_iff_ne, beq_iff_eq, not_exists,
        not_and]
      intro g _ s _ hne heq
      exact hne heq
    have h2 : cluster.groups.any (fun group =>
        group.Servers.any (fun server => server.Name != "" && server.Name == "")) = false := by
      rw [Bool.eq_false_iff]
      simp only [ne_eq, List.any_eq_true, Bool.and_eq_true, bne_iff_ne, beq_iff_eq, not_exists,
        not_and]
      intro g _ s _ hne heq
      exact hne heq
    simp [h1, h2]

/-- The config `createContainers` submits, for a group ID of at least 8 bytes: the name is
`GroupID[:8]-Name-index`, and the environment is the template's followed by four entries,
the last of which carries the new name of the container. -/
theorem containerConfig_eq (metaData : MetaData) (config : models.Container) (index : Int)
    (h : 8 ≤ metaData.GroupID.length) :
    containerConfig metaData config index =
      some { config with
        Name := sliceTo metaData.GroupID 8 ++ "-" ++ config.Name ++ "-" ++ Itoa index
        Env := config.Env ++
          ["HUMPBACK_CLUSTER_GROUPID=" ++ metaData.GroupID,
           "HUMPBACK_CLUSTER_METAID=" ++ metaData.MetaID,
           "HUMPBACK_CLUSTER_CONTAINER_INDEX=" ++ Itoa index,
           "HUMPBACK_CLUSTER_CONTAINER_ORIGINALNAME=" ++
             (sliceTo metaData.GroupID 8 ++ "-" ++ config.Name ++ "-" ++ Itoa index)] } := by
  unfold containerConfig
  rw [if_neg (not_lt.mpr h)]
  simp

/-! ### What the steps of `createContainers` leave unchanged -/

theorem AppendBaseConfig_map_MetaID (cache : List MetaData) (metaid : String)
    (baseConfig : ContainerBaseConfig) :
    (ContainersConfigCache.AppendBaseConfig cache metaid baseConfig).map (fun m => m.MetaID) =
      cache.map (fun m => m.MetaID) := by
  unfold ContainersConfigCache.AppendBaseConfig
  rw [List.map_map]
  apply List.map_congr_left
  intro m _
  simp only [Function.comp]
  split <;> rfl

theorem selectEngines_frame (env : Env) (cluster : Cluster) (engines : List Engine)
    (ipList : List String) (config : models.Container) :
    (selectEngines env cluster engines ipList config).1.configCache = cluster.configCache ∧
    (selectEngines env cluster engines ipList config).1.engines = cluster.engines := by
  unfold selectEngines
  simp only []
  split_ifs <;> exact ⟨rfl, rfl⟩

theorem Engine.CreateContainer_frame (env : Env) (cluster : Cluster) (engine : Engine)
    (config : models.Container) :
    ((Engine.CreateContainer env cluster engine config).2.2 = none →
      (Engine.CreateContainer env cluster engine config).2.1.isSome = true) ∧
    ((Engine.CreateContainer env cluster engine config).2.2 ≠ none →
      (Engine.CreateContainer env cluster engine config).1.configCache = cluster.configCache ∧
      (Engine.CreateContainer env cluster engine config).1.engines = cluster.engines) ∧
    (Engine.CreateContainer env cluster engine config).1.configCache.map (fun m => m.MetaID) =
      cluster.configCache.map (fun m => m.MetaID) := by
  unfold Engine.CreateContainer callAgent
  simp only []
  cases h : (env.agent cluster.calls (AgentCall.create engine.IP config)).err with
  | some text => simp
  | none =>
    simp only [updateEngine]
    refine ⟨fun _ => rfl, fun hne => absurd rfl hne, ?_⟩
    exact AppendBaseConfig_map_MetaID _ _ _

/-- What a call of `createContainer` does to the catalog and the engines: with a nil error it
returns an engine and a container; with an error it leaves the catalog and the engines as
they were; it never changes the meta IDs of the catalog. -/
theorem createContainer_frame (env : Env) (cluster : Cluster) (metaData : MetaData)
    (ipList : List String) (config : models.Container) :
    ((createContainer env cluster metaData ipList config).2.err = none →
      (createContainer env cluster metaData ipList config).2.engine.isSome = true ∧
      (createContainer env cluster metaData ipList config).2.container.isSome = true) ∧
    ((createContainer env cluster metaData ipList config).2.err ≠ none →
      (createContainer env cluster metaData ipList config).1.configCache = cluster.configCache ∧
      (createContainer env cluster metaData ipList config).1.engines = cluster.engines) ∧
    (createContainer env cluster metaData ipList config).1.configCache.map (fun m => m.MetaID) =
      cluster.configCache.map (fun m => m.MetaID) := by
  unfold createContainer
  cases hG : GetGroupEngines cluster metaData.GroupID with
  | none => simp
  | some l =>
    cases l with
    | nil => simp
    | cons e es =>
      simp only []
      have hs := selectEngines_frame env cluster (e :: es) ipList config
      cases hsel : selectEngines env cluster (e :: es) ipList config with
      | mk c1 sel =>
        rw [hsel] at hs
        simp only [] at hs
        cases sel with
        | nil =>
          simp only [ne_eq, reduceCtorEq, not_false_eq_true, true_implies, false_implies, true_and]
          exact ⟨hs, by rw [hs.1]⟩
        | cons engine rest =>
          simp only []
          have hc := Engine.CreateContainer_frame env c1 engine config
          cases hcr : Engine.CreateContainer env c1 engine config with
          | mk c2 out =>
            obtain ⟨container, err⟩ := out
            rw [hcr] at hc
            simp only [] at hc
            cases err with
            | some e' =>
              simp only [ne_eq, reduceCtorEq, not_false_eq_true, true_implies, false_implies,
                true_and]
              have h2 := hc.2.1 (by simp)
              exact ⟨⟨h2.1.trans hs.1, h2.2.trans hs.2⟩, hc.2.2.trans (by rw [hs.1])⟩
            | none =>
              simp only [ne_eq, not_true_eq_false, false_implies, true_implies, true_and,
                Option.isSome_some]
              exact ⟨hc.1 rfl, hc.2.2.trans (by rw [hs.1])⟩

theorem createContainersRetry_of_none (env : Env) (metaData : MetaData) (config : models.Container)
    (fuel : Nat) (cluster : Cluster) (placed : Placement) (ipList : List String)
    (h : placed.err = none) :
    createContainersRetry env metaData config fuel cluster placed ipList =
      (cluster, placed, ipList) := by
  cases fuel with
  | zero => rfl
  | succ k => simp [createContainersRetry, h]

/-- What the retry loop does to the catalog and the engines. -/
theorem createContainersRetry_frame (env : Env) (metaData : MetaData) (config : models.Container) :
    ∀ (fuel : Nat) (cluster : Cluster) (placed : Placement) (ipList : List String),
    (placed.err = none → placed.engine.isSome = true ∧ placed.container.isSome = true) →
    ((createContainersRetry env metaData config fuel cluster placed ipList).2.1.err = none →
      (createContainersRetry env metaData config fuel cluster placed ipList).2.1.engine.isSome = true ∧
      (createContainersRetry env metaData config fuel cluster placed ipList).2.1.container.isSome
        = true) ∧
    ((createContainersRetry env metaData config fuel cluster placed ipList).2.1.err ≠ none →
      (createContainersRetry env metaData config fuel cluster placed ipList).1.configCache =
        cluster.configCache ∧
      (createContainersRetry env metaData config fuel cluster placed ipList).1.engines =
        cluster.engines) ∧
    (createContainersRetry env metaData config fuel cluster placed ipList).1.configCache.map
      (fun m => m.MetaID) = cluster.configCache.map (fun m => m.MetaID) := by
  intro fuel
  induction fuel with
  | zero =>
    intro cluster placed ipList hp
    exact ⟨hp, fun _ => ⟨rfl, rfl⟩, rfl⟩
  | succ k ih =>
    intro cluster placed ipList hp
    cases hpe : placed.err with
    | none =>
      rw [createContainersRetry_of_none env metaData config (k + 1) cluster placed ipList hpe]
      exact ⟨hp, fun _ => ⟨rfl, rfl⟩, rfl⟩
    | some e0 =>
      have hA := createContainer_frame env cluster metaData ipList config
      have hstep : createContainersRetry env metaData config (k + 1) cluster placed ipList =
          createContainersRetry env metaData config k
            (createContainer env cluster metaData ipList config).1
            (createContainer env cluster metaData ipList config).2
            (filterAppendIPList (createContainer env cluster metaData ipList config).2.engine
              ipList) := by
        simp [createContainersRetry, hpe]
      rw [hstep]
      have hI := ih (createContainer env cluster metaData ipList config).1
        (createContainer env cluster metaData ipList config).2
        (filterAppendIPList (createContainer env cluster metaData ipList config).2.engine ipList)
        hA.1
      refine ⟨hI.1, ?_, hI.2.2.trans hA.2.2⟩
      intro hne
      have h1 : (createContainer env cluster metaData ipList config).2.err ≠ none := by
        intro hnone
        rw [createContainersRetry_of_none env metaData config k _ _ _ hnone] at hne
        exact hne hnone
      have h2 := hA.2.1 h1
      have h3 := hI.2.1 hne
      exact ⟨h3.1.trans h2.1, h3.2.trans h2.2⟩

theorem createContainersPlaced_of_some (placed : Placement) (ipList : List String)
    (created : types.CreatedContainers)
    (h : placed.engine.isSome = true ∧ placed.container.isSome = true) :
    ∃ ipList1 pair, createContainersPlaced placed ipList created =
      some (ipList1, created ++ [pair]) := by
  obtain ⟨engine, he⟩ := Option.isSome_iff_exists.mp h.1
  obtain ⟨container, hc⟩ := Option.isSome_iff_exists.mp h.2
  exact ⟨filterAppendIPList (some engine) ipList, ⟨engine.IP, container.Config.Container⟩, by
    simp [createContainersPlaced, he, hc, types.SetCreatedPair]⟩

/-- What one turn of the loop of `createContainers` does, for a group ID of at least 8
bytes: it does not panic, the created list grows at its end, the catalog and the engines
change only if a pair joins the created list, and the meta IDs of the catalog stay. -/
theorem createContainersTurn_frame (env : Env) (metaData : MetaData) (config : models.Container)
    (hlen : 8 ≤ metaData.GroupID.length) (cluster : Cluster) (ipList : List String)
    (created : types.CreatedContainers) :
    ∃ c1 ipList1 extra,
      createContainersTurn env metaData config cluster ipList created =
        some (c1, ipList1, created ++ extra) ∧
      (extra = [] → c1.configCache = cluster.configCache ∧ c1.engines = cluster.engines) ∧
      c1.configCache.map (fun m => m.MetaID) = cluster.configCache.map (fun m => m.MetaID) := by
  unfold createContainersTurn
  simp only []
  by_cases hidx :
      ContainersConfigCache.MakeContainerIdleIndex cluster.configCache metaData.MetaID < 0
  · rw [if_pos hidx]
    exact ⟨cluster, ipList, [], by simp, fun _ => ⟨rfl, rfl⟩, rfl⟩
  · rw [if_neg hidx, containerConfig_eq _ _ _ hlen]
    simp only []
    generalize hcfg : ({ config with
        Name := sliceTo metaData.GroupID 8 ++ "-" ++ config.Name ++ "-" ++
          Itoa (ContainersConfigCache.MakeContainerIdleIndex cluster.configCache metaData.MetaID)
        Env := config.Env ++
          ["HUMPBACK_CLUSTER_GROUPID=" ++ metaData.GroupID,
           "HUMPBACK_CLUSTER_METAID=" ++ metaData.MetaID,
           "HUMPBACK_CLUSTER_CONTAINER_INDEX=" ++
             Itoa (ContainersConfigCache.MakeContainerIdleIndex cluster.configCache
               metaData.MetaID),
           "HUMPBACK_CLUSTER_CONTAINER_ORIGINALNAME=" ++
             (sliceTo metaData.GroupID 8 ++ "-" ++ config.Name ++ "-" ++
               Itoa (ContainersConfigCache.MakeContainerIdleIndex cluster.configCache
                 metaData.MetaID))] } : models.Container) = cc
    have hA := createContainer_frame env cluster metaData ipList cc
    cases hcc : createContainer env cluster metaData ipList cc with
    | mk c1 p1 =>
      rw [hcc] at hA
      simp only [] at hA ⊢
      cases hp : p1.err with
      | none =>
        simp only []
        obtain ⟨ipList1, pair, hpl⟩ := createContainersPlaced_of_some p1 ipList created (hA.1 hp)
        rw [hpl]
        exact ⟨c1, ipList1, [pair], rfl, by simp, hA.2.2⟩
      | some err =>
        simp only []
        have hne : p1.err ≠ none := by rw [hp]; simp
        have hfr := hA.2.1 hne
        by_cases hno : err = Error.ErrClusterNoEngineAvailable
        · rw [if_pos hno]
          exact ⟨c1, ipList, [], by simp, fun _ => hfr, hA.2.2⟩
        · rw [if_neg hno]
          have hB := createContainersRetry_frame env metaData cc c1.createRetry.toNat c1 p1
            (filterAppendIPList p1.engine ipList) hA.1
          cases hrr : createContainersRetry env metaData cc c1.createRetry.toNat c1 p1
              (filterAppendIPList p1.engine ipList) with
          | mk c2 out =>
            obtain ⟨p2, ipList2⟩ := out
            rw [hrr] at hB
            simp only [] at hB ⊢
            cases hp2 : p2.err with
            | some err2 =>
              simp only []
              have hne2 : p2.err ≠ none := by rw [hp2]; simp
              have hfr2 := hB.2.1 hne2
              exact ⟨c2, ipList2, [], by simp,
                fun _ => ⟨hfr2.1.trans hfr.1, hfr2.2.trans hfr.2⟩, hB.2.2.trans hA.2.2⟩
            | none =>
              simp only []
              obtain ⟨ipList3, pair, hpl⟩ :=
                createContainersPlaced_of_some p2 ipList2 created (hB.1 hp2)
              rw [hpl]
              exact ⟨c2, ipList3, [pair], rfl, by simp, hB.2.2.trans hA.2.2⟩

/-- What the loop of `createContainers` does, for a group ID of at least 8 bytes. -/
theorem createContainersLoop_frame (env : Env) (metaData : MetaData) (config : models.Container)
    (hlen : 8 ≤ metaData.GroupID.length) :
    ∀ (n : Nat) (cluster : Cluster) (ipList : List String) (created : types.CreatedContainers),
    ∃ c1 extra,
      createContainersLoop env metaData config n cluster ipList created =
        some (c1, created ++ extra) ∧
      (extra = [] → c1.configCache = cluster.configCache ∧ c1.engines = cluster.engines) ∧
      c1.configCache.map (fun m => m.MetaID) = cluster.configCache.map (fun m => m.MetaID) := by
  intro n
  induction n with
  | zero =>
    intro cluster ipList created
    exact ⟨cluster, [], by simp [createContainersLoop], fun _ => ⟨rfl, rfl⟩, rfl⟩
  | succ k ih =>
    intro cluster ipList created
    obtain ⟨c1, ipList1, extra1, ht, hfr1, hid1⟩ :=
      createContainersTurn_frame env metaData config hlen cluster ipList created
    obtain ⟨c2, extra2, hl, hfr2, hid2⟩ := ih c1 ipList1 (created ++ extra1)
    refine ⟨c2, extra1 ++ extra2, ?_, ?_, hid2.trans hid1⟩
    · rw [createContainersLoop, ht]
      simp only []
      rw [hl, List.append_assoc]
    · intro he
      have h1 : extra1 = [] := (List.append_eq_nil.mp he).1
      have h2 : extra2 = [] := (List.append_eq_nil.mp he).2
      have a := hfr1 h1
      have b := hfr2 h2
      exact ⟨b.1.trans a.1, b.2.trans a.2⟩

/-- What `createContainers` does, for a group ID of at least 8 bytes: it returns; if the
created list is empty, the catalog and the engines are as they were; the meta IDs of the
catalog stay. -/
theorem createContainers_frame (env : Env) (cluster : Cluster) (metaData : MetaData)
    (instances : Int) (config : models.Container) (hlen : 8 ≤ metaData.GroupID.length) :
    ∃ c1 created,
      createContainers env cluster metaData instances config = some (c1, created) ∧
      (created = [] → c1.configCache = cluster.configCache ∧ c1.engines = cluster.engines) ∧
      c1.configCache.map (fun m => m.MetaID) = cluster.configCache.map (fun m => m.MetaID) := by
  obtain ⟨c1, extra, hl, hfr, hid⟩ := createContainersLoop_frame env metaData config hlen
    instances.toNat (setPendingContainer cluster config.Name
      { GroupID := metaData.GroupID, Name := config.Name, Config := config }) [] []
  refine ⟨deletePendingContainer c1 config.Name, extra, ?_, ?_, ?_⟩
  · unfold createContainers
    simp only []
    rw [hl]
    simp
  · intro he
    exact hfr he
  · exact hid

/-- C2, on the code: `group0001` exists on one engine and the meta `meta0001` of the catalog
belongs to it and is named `web`, and so is a meta of `group0002`, which the catalog yields
first for the name; `CreateContainers("group0001", 1, _, {Name: "web"})` returns no error,
creates the meta `meta0009` and submits a container to the engine `10.0.0.1`.  When the
catalog yields the meta of `group0001` first, the same happens for `group0002`. -/
theorem C2_name_conflict_missed :
    (GetGroupEngines conflictCluster "group0001").map (fun l => l.length) = some 1 ∧
    conflictCluster.configCache.any
      (fun m => m.GroupID == "group0001" && m.Config.Name == "web") = true ∧
    (CreateContainers sampleEnv conflictCluster "group0001" 1 [] { Name := "web" }).map
      (fun r => r.2) = some ⟨"meta0009", some [⟨"10.0.0.1", conflictWeb⟩], none⟩ ∧
    (CreateContainers sampleEnv conflictCluster "group0001" 1 [] { Name := "web" }).map
      (fun r => r.1.configCache.map (fun m => (m.MetaID, m.GroupID, m.Config.Name))) =
      some [("meta0002", "group0002", "web"), ("meta0001", "group0001", "web"),
        ("meta0009", "group0001", "web")] ∧
    (CreateContainers sampleEnv conflictCluster "group0001" 1 [] { Name := "web" }).map
      (fun r => r.1.calls) = some [AgentCall.create "10.0.0.1" conflictWeb] ∧
    conflictClusterSwapped.configCache.any
      (fun m => m.GroupID == "group0002" && m.Config.Name == "web") = true ∧
    (CreateContainers sampleEnv conflictClusterSwapped "group0002" 1 [] { Name := "web" }).map
      (fun r => (r.2.metaid, r.2.err)) = some ("meta0009", none) := by
  refine ⟨by decide, by decide, by decide, by decide, by decide, by decide, by decide⟩

theorem RemoveMetaData_CreateMetaData (env : Env) (cache : List MetaData) (groupid : String)
    (instances : Int) (webhooks : types.WebHooks) (config : models.Container)
    (hfresh : ∀ m ∈ cache, m.MetaID ≠ env.newMetaID) :
    ContainersConfigCache.RemoveMetaData
      (ContainersConfigCache.CreateMetaData env cache groupid instances webhooks config).1
      env.newMetaID = cache := by
  unfold ContainersConfigCache.RemoveMetaData ContainersConfigCache.CreateMetaData
  simp only [List.filter_append]
  have h1 : cache.filter (fun m => !(m.MetaID == env.newMetaID)) = cache := by
    rw [List.filter_eq_self]
    intro m hm
    simp [hfresh m hm]
  rw [h1]
  simp

theorem GetMetaData_isSome_of_map (cache cache1 : List MetaData) (metaid : String)
    (h : cache1.map (fun m => m.MetaID) = cache.map (fun m => m.MetaID))
    (hm : metaid ∈ cache.map (fun m => m.MetaID)) :
    (ContainersConfigCache.GetMetaData cache1 metaid).isSome = true := by
  unfold ContainersConfigCache.GetMetaData
  rw [List.find?_isSome]
  rw [← h] at hm
  obtain ⟨m, hm1, hm2⟩ := List.mem_map.mp hm
  exact ⟨m, hm1, by simp [hm2]⟩

/-- C3, as stated, fails: the group `g1` exists on one engine and the name `web` is free, so
the call passes its admission checks, but `CreateContainers` panics at
`metaData.GroupID[:8]` and returns neither an error nor a meta ID. -/
theorem C3_counterexample :
    (0 : Int) < 1 ∧
    (GetGroupEngines shortCluster "g1").map (fun l => l.length) = some 1 ∧
    cehckContainerNameUniqueness shortCluster "g1" "web" = true ∧
    CreateContainers sampleEnv shortCluster "g1" 1 [] { Name := "web" } = none := by
  refine ⟨by decide, by decide, by decide, by decide⟩

/-- C3 (amended): for every `CreateContainers` call that passes its admission checks
(`instances > 0`, the group exists with at least one engine, the name is free) on a group
whose ID has at least 8 bytes, with a meta ID from the catalog that is fresh: the call
returns; if `createContainers` creates none of the instances, the result is
`ErrClusterCreateContainerFailure` with an empty meta ID and a nil list, and the catalog
and the engines are as before the call; if it creates at least one, the result is the new
meta ID, the created list and no error, and the meta is in the catalog. -/
theorem C3_create_outcome (env : Env) (cluster : Cluster) (groupid : String) (instances : Int)
    (webhooks : types.WebHooks) (config : models.Container)
    (hi : 0 < instances)
    (hg : ∃ e es, GetGroupEngines cluster groupid = some (e :: es))
    (hu : cehckContainerNameUniqueness cluster groupid config.Name = true)
    (hfresh : ∀ m ∈ cluster.configCache, m.MetaID ≠ env.newMetaID)
    (hlen : 8 ≤ groupid.length) :
    ∃ mid created final result,
      createContainers env
        { cluster with
          configCache := (ContainersConfigCache.CreateMetaData env cluster.configCache groupid
            instances webhooks config).1 }
        (ContainersConfigCache.CreateMetaData env cluster.configCache groupid instances webhooks
          config).2 instances config = some (mid, created) ∧
      CreateContainers env cluster groupid instances webhooks config = some (final, result) ∧
      (created = [] →
        result = ⟨"", none, some Error.ErrClusterCreateContainerFailure⟩ ∧
        final.configCache = cluster.configCache ∧ final.engines = cluster.engines) ∧
      (created ≠ [] →
        result = ⟨env.newMetaID, some created, none⟩ ∧ final = mid ∧
        (GetMetaData final env.newMetaID).isSome = true) := by
  obtain ⟨e, es, hge⟩ := hg
  have hlen1 : 8 ≤ (ContainersConfigCache.CreateMetaData env cluster.configCache groupid
      instances webhooks config).2.GroupID.length := hlen
  obtain ⟨mid, created, hcc, hfr, hid⟩ := createContainers_frame env
    { cluster with
      configCache := (ContainersConfigCache.CreateMetaData env cluster.configCache groupid
        instances webhooks config).1 }
    (ContainersConfigCache.CreateMetaData env cluster.configCache groupid instances webhooks
      config).2 instances config hlen1
  have hrun : CreateContainers env cluster groupid instances webhooks config =
      if created.length == 0 then
        some ({ mid with
                configCache :=
                  ContainersConfigCache.RemoveMetaData mid.configCache env.newMetaID },
              ⟨"", none, some Error.ErrClusterCreateContainerFailure⟩)
      else
        some (mid, ⟨env.newMetaID, some created, none⟩) := by
    unfold CreateContainers
    rw [if_neg (not_le.mpr hi), hge]
    simp only [List.length_cons, hu]
    have hz : (es.length + 1 == 0) = false := by simp
    rw [hz]
    simp only [Bool.false_eq_true, if_false, Bool.not_true]
    rw [hcc]
    rfl
  cases hcr : created with
  | nil =>
    rw [hcr] at hcc hrun
    have hfr1 := hfr hcr
    simp only [] at hfr1
    refine ⟨mid, [], _, _, hcc, by rw [hrun]; rfl, ?_, ?_⟩
    · intro _
      refine ⟨rfl, ?_, hfr1.2⟩
      show ContainersConfigCache.RemoveMetaData mid.configCache env.newMetaID = cluster.configCache
      rw [hfr1.1]
      exact RemoveMetaData_CreateMetaData env cluster.configCache groupid instances webhooks
        config hfresh
    · intro h
      exact absurd rfl h
  | cons pair rest =>
    rw [hcr] at hcc hrun
    refine ⟨mid, pair :: rest, mid, _, hcc, by rw [hrun]; rfl, ?_, ?_⟩
    · intro h
      exact absurd h (by simp)
    · intro _
      refine ⟨rfl, rfl, ?_⟩
      unfold GetMetaData
      apply GetMetaData_isSome_of_map _ _ _ hid
      simp [ContainersConfigCache.CreateMetaData]

/-- A witness of C3 (amended): two instances of a template `api` on `group0001`, whose
engine refuses every create: the call fails with `ErrClusterCreateContainerFailure` and the
catalog is as before. -/
theorem C3_create_outcome_witness :
    ((0 : Int) < 2 ∧
      (∃ e es, GetGroupEngines webCluster "group0001" = some (e :: es)) ∧
      cehckContainerNameUniqueness webCluster "group0001" apiConfig.Name = true ∧
      (∀ m ∈ webCluster.configCache, m.MetaID ≠ refusingEnv.newMetaID) ∧
      8 ≤ "group0001".length) ∧
    (∃ mid created final result,
      createContainers refusingEnv
        { webCluster with
          configCache := (ContainersConfigCache.CreateMetaData refusingEnv webCluster.configCache
            "group0001" 2 [] apiConfig).1 }
        (ContainersConfigCache.CreateMetaData refusingEnv webCluster.configCache "group0001" 2 []
          apiConfig).2 2 apiConfig = some (mid, created) ∧
      CreateContainers refusingEnv webCluster "group0001" 2 [] apiConfig = some (final, result) ∧
      (created = [] →
        result = ⟨"", none, some Error.ErrClusterCreateContainerFailure⟩ ∧
        final.configCache = webCluster.configCache ∧ final.engines = webCluster.engines) ∧
      (created ≠ [] →
        result = ⟨refusingEnv.newMetaID, some created, none⟩ ∧ final = mid ∧
        (GetMetaData final refusingEnv.newMetaID).isSome = true)) ∧
    (CreateContainers refusingEnv webCluster "group0001" 2 [] apiConfig).map (fun r => r.2) =
      some ⟨"", none, some Error.ErrClusterCreateContainerFailure⟩ :=
  ⟨⟨by decide, ⟨{ IP := "10.0.0.1", Name := "node1" }, [], by decide⟩, by decide, by decide,
      by decide⟩,
    C3_create_outcome refusingEnv webCluster "group0001" 2 [] apiConfig (by decide)
      ⟨{ IP := "10.0.0.1", Name := "node1" }, [], by decide⟩ (by decide) (by decide) (by decide),
    by decide⟩

/-! ### The configs `createContainers` submits -/

theorem selectEngines_calls (env : Env) (cluster : Cluster) (engines : List Engine)
    (ipList : List String) (config : models.Container) :
    (selectEngines env cluster engines ipList config).1.calls = cluster.calls := by
  unfold selectEngines
  simp only []
  split_ifs <;> rfl

theorem Engine.CreateContainer_calls (env : Env) (cluster : Cluster) (engine : Engine)
    (config : models.Container) :
    (Engine.CreateContainer env cluster engine config).1.calls =
      cluster.calls ++ [AgentCall.create engine.IP config] := by
  unfold Engine.CreateContainer callAgent
  simp only []
  cases h : (env.agent cluster.calls (AgentCall.create engine.IP config)).err with
  | some text => rfl
  | none => simp [updateEngine]

/-- The calls of `createContainer`: none, or one create of the config it was given. -/
theorem createContainer_calls (env : Env) (cluster : Cluster) (metaData : MetaData)
    (ipList : List String) (config : models.Container) :
    ∃ extra, (createContainer env cluster metaData ipList config).1.calls = cluster.calls ++ extra ∧
      ∀ call ∈ extra, ∃ ip, call = AgentCall.create ip config := by
  unfold createContainer
  cases hG : GetGroupEngines cluster metaData.GroupID with
  | none => exact ⟨[], by simp, by simp⟩
  | some l =>
    cases l with
    | nil => exact ⟨[], by simp, by simp⟩
    | cons e es =>
      simp only []
      have hs := selectEngines_calls env cluster (e :: es) ipList config
      cases hsel : selectEngines env cluster (e :: es) ipList config with
      | mk c1 sel =>
        rw [hsel] at hs
        simp only [] at hs
        cases sel with
        | nil => exact ⟨[], by simp [hs], by simp⟩
        | cons engine rest =>
          simp only []
          have hc := Engine.CreateContainer_calls env c1 engine config
          cases hcr : Engine.CreateContainer env c1 engine config with
          | mk c2 out =>
            obtain ⟨container, err⟩ := out
            rw [hcr] at hc
            simp only [] at hc
            refine ⟨[AgentCall.create engine.IP config], ?_, ?_⟩
            · cases err with
              | some e' => simp only []; rw [hc, hs]
              | none => simp only []; rw [hc, hs]
            · intro call hcall
              exact ⟨engine.IP, by simpa using hcall⟩

/-- The calls of the retry loop: creates of the config it was given. -/
theorem createContainersRetry_calls (env : Env) (metaData : MetaData) (config : models.Container) :
    ∀ (fuel : Nat) (cluster : Cluster) (placed : Placement) (ipList : List String),
    ∃ extra,
      (createContainersRetry env metaData config fuel cluster placed ipList).1.calls =
        cluster.calls ++ extra ∧
      ∀ call ∈ extra, ∃ ip, call = AgentCall.create ip config := by
  intro fuel
  induction fuel with
  | zero =>
    intro cluster placed ipList
    exact ⟨[], by simp [createContainersRetry], by simp⟩
  | succ k ih =>
    intro cluster placed ipList
    cases hpe : placed.err with
    | none =>
      rw [createContainersRetry_of_none env metaData config (k + 1) cluster placed ipList hpe]
      exact ⟨[], by simp, by simp⟩
    | some e0 =>
      have hstep : createContainersRetry env metaData config (k + 1) cluster placed ipList =
          createContainersRetry env metaData config k
            (createContainer env cluster metaData ipList config).1
            (createContainer env cluster metaData ipList config).2
            (filterAppendIPList (createContainer env cluster metaData ipList config).2.engine
              ipList) := by
        simp [createContainersRetry, hpe]
      rw [hstep]
      obtain ⟨x1, h1, q1⟩ := createContainer_calls env cluster metaData ipList config
      obtain ⟨x2, h2, q2⟩ := ih (createContainer env cluster metaData ipList config).1
        (createContainer env cluster metaData ipList config).2
        (filterAppendIPList (createContainer env cluster metaData ipList config).2.engine ipList)
      refine ⟨x1 ++ x2, by rw [h2, h1, List.append_assoc], ?_⟩
      intro call hcall
      rcases List.mem_append.mp hcall with h | h
      · exact q1 call h
      · exact q2 call h

/-- The calls of one turn of the loop of `createContainers`: creates of a config that
`containerConfig` built from the template. -/
theorem createContainersTurn_calls (env : Env) (metaData : MetaData) (config : models.Container)
    (cluster : Cluster) (ipList : List String) (created : types.CreatedContainers)
    (c1 : Cluster) (ipList1 : List String) (created1 : types.CreatedContainers)
    (h : createContainersTurn env metaData config cluster ipList created =
      some (c1, ipList1, created1)) :
    ∃ extra, c1.calls = cluster.calls ++ extra ∧
      ∀ call ∈ extra, ∃ ip index cc,
        containerConfig metaData config index = some cc ∧ call = AgentCall.create ip cc := by
  unfold createContainersTurn at h
  simp only [] at h
  split at h
  · simp only [Option.some.injEq, Prod.mk.injEq] at h
    exact ⟨[], by rw [← h.1]; simp, by simp⟩
  · cases hcfg : containerConfig metaData config
        (ContainersConfigCache.MakeContainerIdleIndex cluster.configCache metaData.MetaID) with
    | none => rw [hcfg] at h; exact absurd h (by simp)
    | some cc =>
      rw [hcfg] at h
      simp only [] at h
      obtain ⟨x1, h1, q1⟩ := createContainer_calls env cluster metaData ipList cc
      have lift : ∀ (x : List AgentCall), (∀ call ∈ x, ∃ ip, call = AgentCall.create ip cc) →
          ∀ call ∈ x, ∃ ip index cc,
            containerConfig metaData config index = some cc ∧ call = AgentCall.create ip cc := by
        intro x hx call hcall
        obtain ⟨ip, hip⟩ := hx call hcall
        exact ⟨ip, _, cc, hcfg, hip⟩
      cases hcc : createContainer env cluster metaData ipList cc with
      | mk c2 p1 =>
        rw [hcc] at h h1
        simp only [] at h h1
        cases hp : p1.err with
        | none =>
          rw [hp] at h
          simp only [] at h
          cases hpl : createContainersPlaced p1 ipList created with
          | none => rw [hpl] at h; exact absurd h (by simp)
          | some r =>
            rw [hpl] at h
            simp only [Option.some.injEq, Prod.mk.injEq] at h
            exact ⟨x1, by rw [← h.1]; exact h1, lift x1 q1⟩
        | some err =>
          rw [hp] at h
          simp only [] at h
          split at h
          · simp only [Option.some.injEq, Prod.mk.injEq] at h
            exact ⟨x1, by rw [← h.1]; exact h1, lift x1 q1⟩
          · obtain ⟨x2, h2, q2⟩ := createContainersRetry_calls env metaData cc
              c2.createRetry.toNat c2 p1 (filterAppendIPList p1.engine ipList)
            have q12 : ∀ call ∈ x1 ++ x2, ∃ ip, call = AgentCall.create ip cc := by
              intro call hcall
              rcases List.mem_append.mp hcall with h' | h'
              · exact q1 call h'
              · exact q2 call h'
            cases hrr : createContainersRetry env metaData cc c2.createRetry.toNat c2 p1
                (filterAppendIPList p1.engine ipList) with
            | mk c3 out =>
              obtain ⟨p2, ipList2⟩ := out
              rw [hrr] at h h2
              simp only [] at h h2
              have hc3 : c3.calls = cluster.calls ++ (x1 ++ x2) := by
                rw [h2, h1, List.append_assoc]
              cases hp2 : p2.err with
              | some err2 =>
                rw [hp2] at h
                simp only [Option.some.injEq, Prod.mk.injEq] at h
                exact ⟨x1 ++ x2, by rw [← h.1]; exact hc3, lift _ q12⟩
              | none =>
                rw [hp2] at h
                simp only [] at h
                cases hpl : createContainersPlaced p2 ipList2 created with
                | none => rw [hpl] at h; exact absurd h (by simp)
                | some r =>
                  rw [hpl] at h
                  simp only [Option.some.injEq, Prod.mk.injEq] at h
                  exact ⟨x1 ++ x2, by rw [← h.1]; exact hc3, lift _ q12⟩

/-- The calls of the loop of `createContainers`. -/
theorem createContainersLoop_calls (env : Env) (metaData : MetaData) (config : models.Container) :
    ∀ (n : Nat) (cluster : Cluster) (ipList : List String) (created : types.CreatedContainers)
      (c1 : Cluster) (created1 : types.CreatedContainers),
    createContainersLoop env metaData config n cluster ipList created = some (c1, created1) →
    ∃ extra, c1.calls = cluster.calls ++ extra ∧
      ∀ call ∈ extra, ∃ ip index cc,
        containerConfig metaData config index = some cc ∧ call = AgentCall.create ip cc := by
  intro n
  induction n with
  | zero =>
    intro cluster ipList created c1 created1 h
    simp only [createContainersLoop, Option.some.injEq, Prod.mk.injEq] at h
    exact ⟨[], by rw [← h.1]; simp, by simp⟩
  | succ k ih =>
    intro cluster ipList created c1 created1 h
    rw [createContainersLoop] at h
    cases ht : createContainersTurn env metaData config cluster ipList created with
    | none => rw [ht] at h; exact absurd h (by simp)
    | some r =>
      obtain ⟨c2, ipList2, created2⟩ := r
      rw [ht] at h
      simp only [] at h
      obtain ⟨x1, h1, q1⟩ := createContainersTurn_calls env metaData config cluster ipList created
        c2 ipList2 created2 ht
      obtain ⟨x2, h2, q2⟩ := ih c2 ipList2 created2 c1 created1 h
      refine ⟨x1 ++ x2, by rw [h2, h1, List.append_assoc], ?_⟩
      intro call hcall
      rcases List.mem_append.mp hcall with h' | h'
      · exact q1 call h'
      · exact q2 call h'

/-- C5, as stated, fails: for the meta `meta0001` of `group0001` with the template `web` and
the instance index 0, the config submitted to the engine has the name `group000-web-0`, and
its last environment entry is `HUMPBACK_CLUSTER_CONTAINER_ORIGINALNAME=group000-web-0`: the
new name, not the template's name `web`. -/
theorem C5_counterexample :
    8 ≤ webMeta.GroupID.length ∧
    containerConfig webMeta webMeta.Config 0 = some stampedWeb ∧
    (createContainers sampleEnv webCluster webMeta 1 webMeta.Config).map (fun r => r.1.calls) =
      some [AgentCall.create "10.0.0.1" stampedWeb] ∧
    stampedWeb.Name = "group000-web-0" ∧
    stampedWeb.Env = webMeta.Config.Env ++
      ["HUMPBACK_CLUSTER_GROUPID=group0001", "HUMPBACK_CLUSTER_METAID=meta0001",
       "HUMPBACK_CLUSTER_CONTAINER_INDEX=0",
       "HUMPBACK_CLUSTER_CONTAINER_ORIGINALNAME=group000-web-0"] ∧
    stampedWeb.Env ≠ webMeta.Config.Env ++
      ["HUMPBACK_CLUSTER_GROUPID=group0001", "HUMPBACK_CLUSTER_METAID=meta0001",
       "HUMPBACK_CLUSTER_CONTAINER_INDEX=0",
       "HUMPBACK_CLUSTER_CONTAINER_ORIGINALNAME=web"] := by
  refine ⟨by decide, by decide, by decide, by decide, by decide, by decide⟩

/-- The calls of one turn of the loop of `createContainers`: creates of the config that
`containerConfig` built from the template and the index `MakeContainerIdleIndex` returned
at the start of the turn, which is then not negative. -/
theorem createContainersTurn_stamped (env : Env) (metaData : MetaData)
    (config : models.Container) (cluster : Cluster) (ipList : List String)
    (created : types.CreatedContainers) (c1 : Cluster) (ipList1 : List String)
    (created1 : types.CreatedContainers)
    (h : createContainersTurn env metaData config cluster ipList created =
      some (c1, ipList1, created1)) :
    ∃ extra, c1.calls = cluster.calls ++ extra ∧
      ∀ call ∈ extra,
        0 ≤ ContainersConfigCache.MakeContainerIdleIndex cluster.configCache metaData.MetaID ∧
        ∃ ip cc,
          containerConfig metaData config
            (ContainersConfigCache.MakeContainerIdleIndex cluster.configCache
              metaData.MetaID) = some cc ∧
          call = AgentCall.create ip cc := by
  unfold createContainersTurn at h
  simp only [] at h
  by_cases hidx :
      ContainersConfigCache.MakeContainerIdleIndex cluster.configCache metaData.MetaID < 0
  · rw [if_pos hidx] at h
    simp only [Option.some.injEq, Prod.mk.injEq] at h
    exact ⟨[], by rw [← h.1]; simp, by simp⟩
  · rw [if_neg hidx] at h
    cases hcfg : containerConfig metaData config
        (ContainersConfigCache.MakeContainerIdleIndex cluster.configCache metaData.MetaID) with
    | none => rw [hcfg] at h; exact absurd h (by simp)
    | some cc =>
      rw [hcfg] at h
      simp only [] at h
      obtain ⟨x1, h1, q1⟩ := createContainer_calls env cluster metaData ipList cc
      have lift : ∀ (x : List AgentCall), (∀ call ∈ x, ∃ ip, call = AgentCall.create ip cc) →
          ∀ call ∈ x,
            0 ≤ ContainersConfigCache.MakeContainerIdleIndex cluster.configCache
              metaData.MetaID ∧
            ∃ ip cc1, some cc = some cc1 ∧ call = AgentCall.create ip cc1 := by
        intro x hx call hcall
        obtain ⟨ip, hip⟩ := hx call hcall
        exact ⟨not_lt.mp hidx, ip, cc, rfl, hip⟩
      cases hcc : createContainer env cluster metaData ipList cc with
      | mk c2 p1 =>
        rw [hcc] at h h1
        simp only [] at h h1
        cases hp : p1.err with
        | none =>
          rw [hp] at h
          simp only [] at h
          cases hpl : createContainersPlaced p1 ipList created with
          | none => rw [hpl] at h; exact absurd h (by simp)
          | some r =>
            rw [hpl] at h
            simp only [Option.some.injEq, Prod.mk.injEq] at h
            exact ⟨x1, by rw [← h.1]; exact h1, lift x1 q1⟩
        | some err =>
          rw [hp] at h
          simp only [] at h
          split at h
          · simp only [Option.some.injEq, Prod.mk.injEq] at h
            exact ⟨x1, by rw [← h.1]; exact h1, lift x1 q1⟩
          · obtain ⟨x2, h2, q2⟩ := createContainersRetry_calls env metaData cc
              c2.createRetry.toNat c2 p1 (filterAppendIPList p1.engine ipList)
            have q12 : ∀ call ∈ x1 ++ x2, ∃ ip, call = AgentCall.create ip cc := by
              intro call hcall
              rcases List.mem_append.mp hcall with h' | h'
              · exact q1 call h'
              · exact q2 call h'
            cases hrr : createContainersRetry env metaData cc c2.createRetry.toNat c2 p1
                (filterAppendIPList p1.engine ipList) with
            | mk c3 out =>
              obtain ⟨p2, ipList2⟩ := out
              rw [hrr] at h h2
              simp only [] at h h2
              have hc3 : c3.calls = cluster.calls ++ (x1 ++ x2) := by
                rw [h2, h1, List.append_assoc]
              cases hp2 : p2.err with
              | some err2 =>
                rw [hp2] at h
                simp only [Option.some.injEq, Prod.mk.injEq] at h
                exact ⟨x1 ++ x2, by rw [← h.1]; exact hc3, lift _ q12⟩
              | none =>
                rw [hp2] at h
                simp only [] at h
                cases hpl : createContainersPlaced p2 ipList2 created with
                | none => rw [hpl] at h; exact absurd h (by simp)
                | some r =>
                  rw [hpl] at h
                  simp only [Option.some.injEq, Prod.mk.injEq] at h
                  exact ⟨x1 ++ x2, by rw [← h.1]; exact hc3, lift _ q12⟩

/-- The trace of the loop of `createContainers`: one entry a turn, the calls of the loop are
the calls of its turns in order, and the calls of a turn are creates of the config built from
the index allocated at the start of that turn. -/
theorem createContainersTrace_spec (env : Env) (metaData : MetaData)
    (config : models.Container) :
    ∀ (n : Nat) (cluster : Cluster) (ipList : List String) (created : types.CreatedContainers)
      (c1 : Cluster) (created1 : types.CreatedContainers),
    createContainersLoop env metaData config n cluster ipList created = some (c1, created1) →
    (createContainersTrace env metaData config n cluster ipList created).length = n ∧
    c1.calls = cluster.calls ++
      ((createContainersTrace env metaData config n cluster ipList created).map
        (fun turn => turn.2)).flatten ∧
    ∀ turn ∈ createContainersTrace env metaData config n cluster ipList created,
      ∀ call ∈ turn.2, 0 ≤ turn.1 ∧
        ∃ ip cc, containerConfig metaData config turn.1 = some cc ∧
          call = AgentCall.create ip cc := by
  intro n
  induction n with
  | zero =>
    intro cluster ipList created c1 created1 h
    simp only [createContainersLoop, Option.some.injEq, Prod.mk.injEq] at h
    refine ⟨rfl, ?_, ?_⟩
    · rw [← h.1]
      simp [createContainersTrace]
    · intro turn hturn
      simp [createContainersTrace] at hturn
  | succ k ih =>
    intro cluster ipList created c1 created1 h
    rw [createContainersLoop] at h
    cases ht : createContainersTurn env metaData config cluster ipList created with
    | none => rw [ht] at h; exact absurd h (by simp)
    | some r =>
      obtain ⟨c2, ipList2, created2⟩ := r
      rw [ht] at h
      simp only [] at h
      obtain ⟨x1, h1, q1⟩ := createContainersTurn_stamped env metaData config cluster ipList
        created c2 ipList2 created2 ht
      obtain ⟨hlen2, h2, q2⟩ := ih c2 ipList2 created2 c1 created1 h
      have hdrop : c2.calls.drop cluster.calls.length = x1 := by
        rw [h1, List.drop_left]
      have htrace : createContainersTrace env metaData config (k + 1) cluster ipList created =
          (ContainersConfigCache.MakeContainerIdleIndex cluster.configCache metaData.MetaID,
            x1) :: createContainersTrace env metaData config k c2 ipList2 created2 := by
        rw [createContainersTrace, ht]
        simp only []
        rw [hdrop]
      rw [htrace]
      refine ⟨by rw [List.length_cons, hlen2], ?_, ?_⟩
      · rw [List.map_cons, List.flatten_cons, h2, h1, List.append_assoc]
      · intro turn hturn
        rcases List.mem_cons.mp hturn with h' | h'
        · rw [h']
          exact q1
        · exact q2 turn h'

/-- C5 (amended): for every meta whose group ID has at least 8 bytes and every template
config, `createContainers` returns; it runs one turn for each instance asked for, and its
calls to the agents are the calls of its turns, in order; every call of a turn is a create,
made only when the instance index `i` that `MakeContainerIdleIndex` allocated at the start of
that turn is not negative, of a config whose name is `GroupID[:8]-Name-i` and whose
environment is the template's followed by exactly four entries:
`HUMPBACK_CLUSTER_GROUPID=GroupID`, `HUMPBACK_CLUSTER_METAID=MetaID`,
`HUMPBACK_CLUSTER_CONTAINER_INDEX=i` and `HUMPBACK_CLUSTER_CONTAINER_ORIGINALNAME=` followed
by the new name `GroupID[:8]-Name-i`. -/
theorem C5_submitted_config (env : Env) (cluster : Cluster) (metaData : MetaData)
    (instances : Int) (config : models.Container) (hlen : 8 ≤ metaData.GroupID.length) :
    ∃ c1 created,
      createContainers env cluster metaData instances config = some (c1, created) ∧
      (createContainersTurns env cluster metaData instances config).length = instances.toNat ∧
      c1.calls = cluster.calls ++
        ((createContainersTurns env cluster metaData instances config).map
          (fun turn => turn.2)).flatten ∧
      ∀ turn ∈ createContainersTurns env cluster metaData instances config,
        ∀ call ∈ turn.2, 0 ≤ turn.1 ∧
          ∃ ip cc,
            call = AgentCall.create ip cc ∧
            cc.Name = sliceTo metaData.GroupID 8 ++ "-" ++ config.Name ++ "-" ++ Itoa turn.1 ∧
            cc.Env = config.Env ++
              ["HUMPBACK_CLUSTER_GROUPID=" ++ metaData.GroupID,
               "HUMPBACK_CLUSTER_METAID=" ++ metaData.MetaID,
               "HUMPBACK_CLUSTER_CONTAINER_INDEX=" ++ Itoa turn.1,
               "HUMPBACK_CLUSTER_CONTAINER_ORIGINALNAME=" ++
                 (sliceTo metaData.GroupID 8 ++ "-" ++ config.Name ++ "-" ++ Itoa turn.1)] ∧
            cc.Image = config.Image ∧ cc.Memory = config.Memory := by
  obtain ⟨c1, extra0, hl, _, _⟩ := createContainersLoop_frame env metaData config hlen
    instances.toNat (setPendingContainer cluster config.Name
      { GroupID := metaData.GroupID, Name := config.Name, Config := config }) [] []
  obtain ⟨hn, hx, hq⟩ := createContainersTrace_spec env metaData config instances.toNat _ _ _
    c1 _ hl
  refine ⟨deletePendingContainer c1 config.Name, [] ++ extra0, ?_, hn, hx, ?_⟩
  · unfold createContainers
    simp only []
    rw [hl]
  · intro turn hturn call hcall
    obtain ⟨hidx, ip, cc, hcfg, hcall1⟩ := hq turn hturn call hcall
    rw [containerConfig_eq metaData config turn.1 hlen] at hcfg
    simp only [Option.some.injEq] at hcfg
    refine ⟨hidx, ip, cc, hcall1, ?_, ?_, ?_, ?_⟩ <;> rw [← hcfg]

/-- A witness of C5 (amended): two instances of `web` for `meta0001` on `twinCluster`; the
first turn allocates the index 0 and submits `group000-web-0`, the second allocates the
index 1 and submits `group000-web-1`. -/
theorem C5_submitted_config_witness :
    8 ≤ twinMeta.GroupID.length ∧
    createContainersTurns sampleEnv twinCluster twinMeta 2 twinMeta.Config =
      [(0, [AgentCall.create "10.0.0.1" stampedWeb]),
       (1, [AgentCall.create "10.0.0.1" stampedWeb1])] ∧
    (∃ c1 created,
      createContainers sampleEnv twinCluster twinMeta 2 twinMeta.Config = some (c1, created) ∧
      (createContainersTurns sampleEnv twinCluster twinMeta 2 twinMeta.Config).length =
        (2 : Int).toNat ∧
      c1.calls = twinCluster.calls ++
        ((createContainersTurns sampleEnv twinCluster twinMeta 2 twinMeta.Config).map
          (fun turn => turn.2)).flatten ∧
      ∀ turn ∈ createContainersTurns sampleEnv twinCluster twinMeta 2 twinMeta.Config,
        ∀ call ∈ turn.2, 0 ≤ turn.1 ∧
          ∃ ip cc,
            call = AgentCall.create ip cc ∧
            cc.Name = sliceTo twinMeta.GroupID 8 ++ "-" ++ twinMeta.Config.Name ++ "-" ++
              Itoa turn.1 ∧
            cc.Env = twinMeta.Config.Env ++
              ["HUMPBACK_CLUSTER_GROUPID=" ++ twinMeta.GroupID,
               "HUMPBACK_CLUSTER_METAID=" ++ twinMeta.MetaID,
               "HUMPBACK_CLUSTER_CONTAINER_INDEX=" ++ Itoa turn.1,
               "HUMPBACK_CLUSTER_CONTAINER_ORIGINALNAME=" ++
                 (sliceTo twinMeta.GroupID 8 ++ "-" ++ twinMeta.Config.Name ++ "-" ++
                   Itoa turn.1)] ∧
            cc.Image = twinMeta.Config.Image ∧ cc.Memory = twinMeta.Config.Memory) :=
  ⟨by decide, by decide,
    C5_submitted_config sampleEnv twinCluster twinMeta 2 twinMeta.Config (by decide)⟩

/-! ### The loops of `OperateContainers` -/

theorem Engine.OperateContainer_calls (env : Env) (cluster : Cluster) (engine : Engine)
    (action containerid : String) :
    (Engine.OperateContainer env cluster engine action containerid).1.calls =
      cluster.calls ++ [AgentCall.operate engine.IP action containerid] ∧
    (Engine.OperateContainer env cluster engine action containerid).2 =
      (env.agent cluster.calls (AgentCall.operate engine.IP action containerid)).err.map
        Error.errorf := by
  unfold Engine.OperateContainer callAgent
  simp only []
  cases h : (env.agent cluster.calls (AgentCall.operate engine.IP action containerid)).err with
  | some text => simp
  | none => simp [updateEngine]

theorem operateCalls_append (action : String) (l1 l2 : List (Engine × Container)) :
    operateCalls action (l1 ++ l2) = operateCalls action l1 ++ operateCalls action l2 := by
  simp [operateCalls]

theorem operatedEntries_append (env : Env) (action : String) :
    ∀ (l1 l2 : List (Engine × Container)) (calls : List AgentCall),
    operatedEntries env action calls (l1 ++ l2) =
      operatedEntries env action calls l1 ++
        operatedEntries env action (calls ++ operateCalls action l1) l2 := by
  intro l1
  induction l1 with
  | nil =>
    intro l2 calls
    simp [operatedEntries, operateCalls]
  | cons p rest ih =>
    intro l2 calls
    have hc : operateCalls action (p :: rest) =
        operateCalls action [p] ++ operateCalls action rest := by
      rw [← operateCalls_append]; rfl
    rw [List.cons_append]
    simp only [operatedEntries]
    rw [ih, hc, List.append_assoc]
    simp

theorem operatedEntries_length (env : Env) (action : String) :
    ∀ (l : List (Engine × Container)) (calls : List AgentCall),
    (operatedEntries env action calls l).length = l.length := by
  intro l
  induction l with
  | nil => intro calls; rfl
  | cons p rest ih => intro calls; simp [operatedEntries, ih]

theorem operatedEntries_get (env : Env) (action : String) :
    ∀ (l : List (Engine × Container)) (calls : List AgentCall) (i : Nat) (p : Engine × Container),
    l.get? i = some p →
    (operatedEntries env action calls l).get? i =
      some (operatedEntry env action (calls ++ operateCalls action (l.take i)) p) := by
  intro l
  induction l with
  | nil => intro calls i p h; simp at h
  | cons q rest ih =>
    intro calls i p h
    cases i with
    | zero =>
      simp only [List.get?_cons_zero, Option.some.injEq] at h
      subst h
      simp [operatedEntries, operateCalls]
    | succ k =>
      simp only [List.get?_cons_succ] at h
      have hc : operateCalls action (q :: List.take k rest) =
          operateCalls action [q] ++ operateCalls action (List.take k rest) := by
        rw [← operateCalls_append]; rfl
      simp only [operatedEntries, List.get?_cons_succ, List.take_succ_cons, hc]
      rw [ih (calls ++ operateCalls action [q]) k p h, List.append_assoc]

/-- The inner loop of `OperateContainers` with a blank container ID, over containers with
non-blank IDs: every container gets its entry, and `foundContainer` stays false. -/
theorem operateEngineContainers_all (env : Env) (engine : Engine) (action : String) :
    ∀ (containers : List Container) (cluster : Cluster) (operated : types.OperatedContainers),
    (∀ c ∈ containers, c.Info.ID ≠ "") →
    (operateEngineContainers env engine "" action containers cluster operated).2.2 = false ∧
    (operateEngineContainers env engine "" action containers cluster operated).2.1 =
      operated ++ operatedEntries env action cluster.calls (containers.map (fun c => (engine, c))) ∧
    (operateEngineContainers env engine "" action containers cluster operated).1.calls =
      cluster.calls ++ operateCalls action (containers.map (fun c => (engine, c))) := by
  intro containers
  induction containers with
  | nil =>
    intro cluster operated _
    simp [operateEngineContainers, operatedEntries, operateCalls]
  | cons c rest ih =>
    intro cluster operated hid
    have hc : c.Info.ID ≠ "" := hid c (List.mem_cons_self _ _)
    have hrest : ∀ d ∈ rest, d.Info.ID ≠ "" := fun d hd => hid d (List.mem_cons_of_mem _ hd)
    have hbeq : (c.Info.ID == "") = false := by simp [hc]
    have hcalls : operateCalls action ((engine, c) :: List.map (fun c => (engine, c)) rest) =
        operateCalls action [(engine, c)] ++
          operateCalls action (List.map (fun c => (engine, c)) rest) := by
      rw [← operateCalls_append]; rfl
    by_cases hh : engine.IsHealthy = true
    · have hO := Engine.OperateContainer_calls env cluster engine action c.Info.ID
      have hI := ih (Engine.OperateContainer env cluster engine action c.Info.ID).1
        (types.SetOperatedPair operated engine.IP c.Info.ID action
          (Engine.OperateContainer env cluster engine action c.Info.ID).2) hrest
      have hstep : operateEngineContainers env engine "" action (c :: rest) cluster operated =
          operateEngineContainers env engine "" action rest
            (Engine.OperateContainer env cluster engine action c.Info.ID).1
            (types.SetOperatedPair operated engine.IP c.Info.ID action
              (Engine.OperateContainer env cluster engine action c.Info.ID).2) := by
        simp [operateEngineContainers, hbeq, hh]
      have h1 : operateCalls action [(engine, c)] =
          [AgentCall.operate engine.IP action c.Info.ID] := by
        simp [operateCalls, hh, operateCall]
      rw [hstep, List.map_cons, hcalls, h1]
      refine ⟨hI.1, ?_, ?_⟩
      · rw [hI.2.1, hO.1, hO.2]
        simp [operatedEntries, operatedEntry, types.SetOperatedPair, hh, operateCall, h1]
      · rw [hI.2.2, hO.1, List.append_assoc]
    · have hI := ih cluster
        (types.SetOperatedPair operated engine.IP c.Info.ID action
          (some (Error.errorf ("engine state is " ++ engine.State)))) hrest
      have hstep : operateEngineContainers env engine "" action (c :: rest) cluster operated =
          operateEngineContainers env engine "" action rest cluster
            (types.SetOperatedPair operated engine.IP c.Info.ID action
              (some (Error.errorf ("engine state is " ++ engine.State)))) := by
        simp [operateEngineContainers, hbeq, hh]
      have h1 : operateCalls action [(engine, c)] = [] := by
        simp [operateCalls, hh]
      rw [hstep, List.map_cons, hcalls, h1]
      refine ⟨hI.1, ?_, ?_⟩
      · rw [hI.2.1]
        simp [operatedEntries, operatedEntry, types.SetOperatedPair, hh, h1]
      · rw [hI.2.2]
        simp

/-- The outer loop of `OperateContainers` with a blank container ID. -/
theorem operateEngines_all (env : Env) (metaid action : String) :
    ∀ (engines : List Engine) (cluster : Cluster) (operated : types.OperatedContainers),
    (∀ p ∈ groupContainers metaid engines, p.2.Info.ID ≠ "") →
    (operateEngines env metaid "" action engines cluster operated).2 =
      operated ++ operatedEntries env action cluster.calls (groupContainers metaid engines) ∧
    (operateEngines env metaid "" action engines cluster operated).1.calls =
      cluster.calls ++ operateCalls action (groupContainers metaid engines) := by
  intro engines
  induction engines with
  | nil =>
    intro cluster operated _
    simp [operateEngines, groupContainers, operatedEntries, operateCalls]
  | cons engine rest ih =>
    intro cluster operated hid
    have hid1 : ∀ c ∈ engine.Containers metaid, c.Info.ID ≠ "" := by
      intro c hc
      exact hid (engine, c) (by
        simp only [groupContainers, List.mem_append, List.mem_map]
        exact Or.inl ⟨c, hc, rfl⟩)
    have hid2 : ∀ p ∈ groupContainers metaid rest, p.2.Info.ID ≠ "" := by
      intro p hp
      exact hid p (by
        simp only [groupContainers, List.mem_append]
        exact Or.inr hp)
    have hin := operateEngineContainers_all env engine action (engine.Containers metaid)
      cluster operated hid1
    cases hr : operateEngineContainers env engine "" action (engine.Containers metaid)
        cluster operated with
    | mk c1 out =>
      obtain ⟨operated1, found⟩ := out
      rw [hr] at hin
      simp only [] at hin
      obtain ⟨hf, ho, hcl⟩ := hin
      subst hf
      have hI := ih c1 operated1 hid2
      have hstep : operateEngines env metaid "" action (engine :: rest) cluster operated =
          operateEngines env metaid "" action rest c1 operated1 := by
        simp [operateEngines, hr]
      rw [hstep, hI.1, hI.2, ho, hcl]
      constructor
      · simp only [groupContainers, operatedEntries_append, List.append_assoc]
      · simp only [groupContainers, operateCalls_append, List.append_assoc]

/-- C7: for a meta `m` that passes `validateMetaData`, whose containers on the group's engines
have non-blank IDs, `OperateContainers(m, "", action)` returns a nil error and a result with
one entry per container of `m` on the engines, in order, whatever the agents reply: the entry
of a container on a healthy engine carries the error of the agent's reply to the call (or
none), the entry of a container on an engine that is not healthy carries the error
`engine state is ` followed by the engine's state, and the calls made are exactly those for
the containers on healthy engines. -/
theorem C7_operate_all (env : Env) (cluster : Cluster) (m action : String) (metaData : MetaData)
    (engines : List Engine)
    (hv : validateMetaData cluster m = Except.ok (metaData, engines))
    (hid : ∀ p ∈ groupContainers metaData.MetaID engines, p.2.Info.ID ≠ "") :
    ∃ operated,
      (OperateContainers env cluster m "" action).2 = (some operated, none) ∧
      operated.length = (groupContainers metaData.MetaID engines).length ∧
      (∀ i p, (groupContainers metaData.MetaID engines).get? i = some p →
        operated.get? i = some (operatedEntry env action
          (cluster.calls ++ operateCalls action ((groupContainers metaData.MetaID engines).take i))
          p)) ∧
      (∀ i p, (groupContainers metaData.MetaID engines).get? i = some p →
        p.1.IsHealthy = false →
        ∃ entry, operated.get? i = some entry ∧ entry.IP = p.1.IP ∧ entry.ID = p.2.Info.ID ∧
          entry.Error = some (Error.errorf ("engine state is " ++ p.1.State))) ∧
      (OperateContainers env cluster m "" action).1.calls =
        cluster.calls ++ operateCalls action (groupContainers metaData.MetaID engines) := by
  have hL := operateEngines_all env metaData.MetaID action engines cluster [] hid
  have hrun : OperateContainers env cluster m "" action =
      ((operateEngines env metaData.MetaID "" action engines cluster []).1,
        some (operateEngines env metaData.MetaID "" action engines cluster []).2, none) := by
    unfold OperateContainers
    rw [hv]
  rw [hrun]
  refine ⟨(operateEngines env metaData.MetaID "" action engines cluster []).2, rfl, ?_, ?_, ?_, ?_⟩
  · rw [hL.1, List.nil_append, operatedEntries_length]
  · intro i p hp
    rw [hL.1, List.nil_append]
    exact operatedEntries_get env action _ cluster.calls i p hp
  · intro i p hp hh
    refine ⟨operatedEntry env action
      (cluster.calls ++ operateCalls action ((groupContainers metaData.MetaID engines).take i)) p,
      ?_, rfl, rfl, ?_⟩
    · rw [hL.1, List.nil_append]
      exact operatedEntries_get env action _ cluster.calls i p hp
    · simp [operatedEntry, hh]
  · exact hL.2

/-- A witness of C7: `stop` on `meta0001`, with one container on a healthy engine and one on
an unhealthy engine. -/
theorem C7_operate_all_witness :
    (validateMetaData runningCluster "meta0001" = Except.ok (runningMeta, runningEngines) ∧
      (∀ p ∈ groupContainers runningMeta.MetaID runningEngines, p.2.Info.ID ≠ "")) ∧
    (∃ operated,
      (OperateContainers refusingEnv runningCluster "meta0001" "" "stop").2 = (some operated, none) ∧
      operated.length = (groupContainers runningMeta.MetaID runningEngines).length ∧
      (∀ i p, (groupContainers runningMeta.MetaID runningEngines).get? i = some p →
        operated.get? i = some (operatedEntry refusingEnv "stop"
          (runningCluster.calls ++
            operateCalls "stop" ((groupContainers runningMeta.MetaID runningEngines).take i))
          p)) ∧
      (∀ i p, (groupContainers runningMeta.MetaID runningEngines).get? i = some p →
        p.1.IsHealthy = false →
        ∃ entry, operated.get? i = some entry ∧ entry.IP = p.1.IP ∧ entry.ID = p.2.Info.ID ∧
          entry.Error = some (Error.errorf ("engine state is " ++ p.1.State))) ∧
      (OperateContainers refusingEnv runningCluster "meta0001" "" "stop").1.calls =
        runningCluster.calls ++
          operateCalls "stop" (groupContainers runningMeta.MetaID runningEngines)) ∧
    (OperateContainers refusingEnv runningCluster "meta0001" "" "stop").2 =
      (some [⟨"10.0.0.1", "c1", "stop", some (Error.errorf "refused")⟩,
          ⟨"10.0.0.2", "c2", "stop", some (Error.errorf "engine state is Unhealthy")⟩], none) ∧
    (OperateContainers refusingEnv runningCluster "meta0001" "" "stop").1.calls =
      [AgentCall.operate "10.0.0.1" "stop" "c1"] :=
  ⟨⟨by rfl, by decide⟩,
    C7_operate_all refusingEnv runningCluster "meta0001" "stop" runningMeta runningEngines
      (by rfl) (by decide),
    by decide, by decide⟩

/-! ### The loops of `RemoveContainers` -/

theorem RemoveBaseConfigByID_map_MetaID (cache : List MetaData) (containerid : String) :
    (ContainersConfigCache.RemoveBaseConfigByID cache containerid).map (fun m => m.MetaID) =
      cache.map (fun m => m.MetaID) := by
  unfold ContainersConfigCache.RemoveBaseConfigByID
  rw [List.map_map]
  apply List.map_congr_left
  intro m _
  rfl

theorem Engine.RemoveContainer_frame (env : Env) (cluster : Cluster) (engine : Engine)
    (containerid : String) :
    (Engine.RemoveContainer env cluster engine containerid).1.calls =
      cluster.calls ++ [AgentCall.remove engine.IP containerid] ∧
    (Engine.RemoveContainer env cluster engine containerid).1.configCache.map (fun m => m.MetaID) =
      cluster.configCache.map (fun m => m.MetaID) := by
  unfold Engine.RemoveContainer callAgent
  simp only []
  cases h : (env.agent cluster.calls (AgentCall.remove engine.IP containerid)).err with
  | some text => simp
  | none =>
    refine ⟨?_, ?_⟩
    · simp [updateEngine]
    · simp only [updateEngine]
      exact RemoveBaseConfigByID_map_MetaID _ _

theorem removeTargets_append (containerid : String) :
    ∀ (l1 l2 : List (Engine × Container)),
    removeTargets containerid (l1 ++ l2) =
      if l1.any (fun p => p.2.Info.ID == containerid) then removeTargets containerid l1
      else removeTargets containerid l1 ++ removeTargets containerid l2 := by
  intro l1
  induction l1 with
  | nil => intro l2; simp [removeTargets]
  | cons p rest ih =>
    intro l2
    rw [List.cons_append]
    by_cases h1 : (p.2.Info.ID == containerid) = true
    · simp [removeTargets, h1]
    · by_cases h2 : (containerid == "") = true
      · simp only [removeTargets, h1, h2, ih, List.any_cons, Bool.false_or, if_true,
          Bool.false_eq_true, if_false]
        split <;> simp
      · simp only [removeTargets, h1, h2, ih, List.any_cons, Bool.false_or,
          Bool.false_eq_true, if_false]

/-- The inner loop of `RemoveContainers`: the entries it adds are those of the containers it
sets out to remove, the flag tells whether the container asked for is on the engine, the
calls are those for the targets on a healthy engine, and the meta IDs of the catalog stay. -/
theorem removeEngineContainers_spec (env : Env) (engine : Engine) (containerid : String) :
    ∀ (containers : List Container) (cluster : Cluster) (removed : types.RemovedContainers),
    (removeEngineContainers env engine containerid containers cluster removed).2.2 =
      containers.any (fun c => c.Info.ID == containerid) ∧
    (removeEngineContainers env engine containerid containers cluster removed).2.1.map
        (fun r => (r.IP, r.ID)) =
      removed.map (fun r => (r.IP, r.ID)) ++
        (removeTargets containerid (containers.map (fun c => (engine, c)))).map
          (fun p => (p.1.IP, p.2.Info.ID)) ∧
    (removeEngineContainers env engine containerid containers cluster removed).1.calls =
      cluster.calls ++
        ((removeTargets containerid (containers.map (fun c => (engine, c)))).filter
          (fun p => p.1.IsHealthy)).map removeCall ∧
    (removeEngineContainers env engine containerid containers cluster removed).1.configCache.map
        (fun m => m.MetaID) = cluster.configCache.map (fun m => m.MetaID) := by
  intro containers
  induction containers with
  | nil =>
    intro cluster removed
    simp [removeEngineContainers, removeTargets]
  | cons c rest ih =>
    intro cluster removed
    have hR := Engine.RemoveContainer_frame env cluster engine c.Info.ID
    by_cases h1 : (c.Info.ID == containerid) = true
    · by_cases hh : engine.IsHealthy = true
      · simp only [removeEngineContainers, h1, hh, Bool.or_true, if_true, List.any_cons,
          Bool.true_or, List.map_cons, removeTargets, types.SetRemovedPair, List.map_append,
          List.map_nil, List.filter_cons, List.filter_nil, removeCall]
        exact ⟨trivial, trivial, hR.1, hR.2⟩
      · simp only [removeEngineContainers, h1, hh, Bool.or_true, if_true, List.any_cons,
          Bool.true_or, List.map_cons, removeTargets, types.SetRemovedPair, List.map_append,
          List.map_nil, List.filter_cons, List.filter_nil, removeCall, Bool.false_eq_true,
          if_false, List.append_nil]
        exact ⟨trivial, trivial, trivial, trivial⟩
    · by_cases h2 : (containerid == "") = true
      · by_cases hh : engine.IsHealthy = true
        · have hI := ih (Engine.RemoveContainer env cluster engine c.Info.ID).1
            (types.SetRemovedPair removed engine.IP c.Info.ID
              (Engine.RemoveContainer env cluster engine c.Info.ID).2)
          simp only [removeEngineContainers, h1, h2, hh, Bool.or_false, if_true, List.any_cons,
            Bool.false_or, List.map_cons, removeTargets, Bool.false_eq_true, if_false,
            List.filter_cons]
          refine ⟨hI.1, ?_, ?_, hI.2.2.2.trans hR.2⟩
          · rw [hI.2.1]
            simp [types.SetRemovedPair]
          · rw [hI.2.2.1, hR.1]
            simp [removeCall]
        · have hI := ih cluster
            (types.SetRemovedPair removed engine.IP c.Info.ID
              (some (Error.errorf ("engine state is " ++ engine.State))))
          simp only [removeEngineContainers, h1, h2, hh, Bool.or_false, if_true, List.any_cons,
            Bool.false_or, List.map_cons, removeTargets, Bool.false_eq_true, if_false,
            List.filter_cons]
          refine ⟨hI.1, ?_, hI.2.2.1, hI.2.2.2⟩
          rw [hI.2.1]
          simp [types.SetRemovedPair]
      · have hI := ih cluster removed
        simp only [removeEngineContainers, h1, h2, Bool.or_false, List.any_cons,
          Bool.false_or, List.map_cons, removeTargets, Bool.false_eq_true, if_false]
        exact hI

/-- The outer loop of `RemoveContainers`. -/
theorem removeEngines_spec (env : Env) (metaid containerid : String) :
    ∀ (engines : List Engine) (cluster : Cluster) (removed : types.RemovedContainers),
    (removeEngines env metaid containerid engines cluster removed).2.map (fun r => (r.IP, r.ID)) =
      removed.map (fun r => (r.IP, r.ID)) ++
        (removeTargets containerid (groupContainers metaid engines)).map
          (fun p => (p.1.IP, p.2.Info.ID)) ∧
    (removeEngines env metaid containerid engines cluster removed).1.calls =
      cluster.calls ++
        ((removeTargets containerid (groupContainers metaid engines)).filter
          (fun p => p.1.IsHealthy)).map removeCall ∧
    (removeEngines env metaid containerid engines cluster removed).1.configCache.map
        (fun m => m.MetaID) = cluster.configCache.map (fun m => m.MetaID) := by
  intro engines
  induction engines with
  | nil =>
    intro cluster removed
    simp [removeEngines, groupContainers, removeTargets]
  | cons engine rest ih =>
    intro cluster removed
    have hin := removeEngineContainers_spec env engine containerid (engine.Containers metaid)
      cluster removed
    have hany : ((engine.Containers metaid).map (fun c => (engine, c))).any
        (fun p => p.2.Info.ID == containerid) =
        (engine.Containers metaid).any (fun c => c.Info.ID == containerid) := by
      induction engine.Containers metaid with
      | nil => rfl
      | cons c cs ihc => simp only [List.map_cons, List.any_cons, ihc]
    cases hr : removeEngineContainers env engine containerid (engine.Containers metaid)
        cluster removed with
    | mk c1 out =>
      obtain ⟨removed1, found⟩ := out
      rw [hr] at hin
      simp only [] at hin
      obtain ⟨hf, ho, hcl, hid⟩ := hin
      cases found with
      | true =>
        have hstep : removeEngines env metaid containerid (engine :: rest) cluster removed =
            (c1, removed1) := by
          simp [removeEngines, hr]
        rw [hstep]
        simp only [groupContainers]
        rw [removeTargets_append, hany, ← hf]
        simp only [if_true]
        exact ⟨ho, hcl, hid⟩
      | false =>
        have hI := ih c1 removed1
        have hstep : removeEngines env metaid containerid (engine :: rest) cluster removed =
            removeEngines env metaid containerid rest c1 removed1 := by
          simp [removeEngines, hr]
        rw [hstep]
        simp only [groupContainers]
        rw [removeTargets_append, hany, ← hf]
        simp only [Bool.false_eq_true, if_false]
        refine ⟨?_, ?_, hI.2.2.trans hid⟩
        · rw [hI.1, ho]
          simp
        · rw [hI.2.1, hcl]
          simp

theorem GetMetaData_some (cache : List MetaData) (metaid : String) (metaData : MetaData)
    (h : ContainersConfigCache.GetMetaData cache metaid = some metaData) :
    metaData.MetaID = metaid ∧ metaid ∈ cache.map (fun m => m.MetaID) := by
  unfold ContainersConfigCache.GetMetaData at h
  have h1 := List.find?_some h
  have h2 := List.mem_of_find?_eq_some h
  have h3 : metaData.MetaID = metaid := by simpa using h1
  exact ⟨h3, List.mem_map.mpr ⟨metaData, h2, h3⟩⟩

theorem GetMetaData_RemoveMetaData (cache : List MetaData) (metaid : String) :
    ContainersConfigCache.GetMetaData (ContainersConfigCache.RemoveMetaData cache metaid) metaid =
      none := by
  unfold ContainersConfigCache.GetMetaData ContainersConfigCache.RemoveMetaData
  rw [List.find?_eq_none]
  intro m hm
  have := (List.mem_filter.mp hm).2
  simpa using this

theorem validateMetaData_ok (cluster : Cluster) (m : String) (metaData : MetaData)
    (engines : List Engine) (hv : validateMetaData cluster m = Except.ok (metaData, engines)) :
    ContainersConfigCache.GetMetaData cluster.configCache m = some metaData := by
  unfold validateMetaData at hv
  split at hv
  · exact absurd hv (by simp)
  · split at hv
    · exact absurd hv (by simp)
    · unfold GetMetaDataEngines GetMetaData at hv
      cases hg : ContainersConfigCache.GetMetaData cluster.configCache m with
      | none => rw [hg] at hv; exact absurd hv (by simp)
      | some md =>
        rw [hg] at hv
        simp only [] at hv
        cases hge : GetGroupEngines cluster md.GroupID with
        | none => rw [hge] at hv; exact absurd hv (by simp)
        | some es =>
          rw [hge] at hv
          simp only [Except.ok.injEq, Prod.mk.injEq] at hv
          rw [hv.1]

/-- C8: for a meta `m` that passes `validateMetaData`, `RemoveContainers(m, id)` returns a nil
error and one entry per container it set out to remove; the catalog still holds a record of
`m` when the removals are done, and the call leaves `m` out of the catalog if that record
has no `BaseConfigs` left and keeps the record if it has at least one; so a record of `m`
in the catalog after the call has at least one `BaseConfig`. -/
theorem C8_remove_outcome (env : Env) (cluster : Cluster) (m containerid : String)
    (metaData : MetaData) (engines : List Engine)
    (hv : validateMetaData cluster m = Except.ok (metaData, engines)) :
    ∃ removed record,
      (RemoveContainers env cluster m containerid).2 = (some removed, none) ∧
      removed.map (fun r => (r.IP, r.ID)) =
        (removeTargets containerid (groupContainers metaData.MetaID engines)).map
          (fun p => (p.1.IP, p.2.Info.ID)) ∧
      (RemoveContainers env cluster m containerid).1.calls =
        cluster.calls ++
          ((removeTargets containerid (groupContainers metaData.MetaID engines)).filter
            (fun p => p.1.IsHealthy)).map removeCall ∧
      GetMetaData (removeEngines env metaData.MetaID containerid engines cluster []).1 m =
        some record ∧
      (record.BaseConfigs = [] → GetMetaData (RemoveContainers env cluster m containerid).1 m = none) ∧
      (record.BaseConfigs ≠ [] →
        GetMetaData (RemoveContainers env cluster m containerid).1 m = some record) ∧
      (∀ md, GetMetaData (RemoveContainers env cluster m containerid).1 m = some md →
        md.BaseConfigs ≠ []) := by
  have hget := validateMetaData_ok cluster m metaData engines hv
  obtain ⟨hmid, hmem⟩ := GetMetaData_some cluster.configCache m metaData hget
  have hL := removeEngines_spec env metaData.MetaID containerid engines cluster []
  have hrun : RemoveContainers env cluster m containerid =
      (removeEmptyMetaData (removeEngines env metaData.MetaID containerid engines cluster []).1
          metaData.MetaID,
        some (removeEngines env metaData.MetaID containerid engines cluster []).2, none) := by
    unfold RemoveContainers
    rw [hv]
  generalize hmidc : (removeEngines env metaData.MetaID containerid engines cluster []).1 = mid
    at hL hrun
  have hsome := GetMetaData_isSome_of_map cluster.configCache mid.configCache m hL.2.2 hmem
  obtain ⟨record, hrec⟩ := Option.isSome_iff_exists.mp hsome
  obtain ⟨hrid, _⟩ := GetMetaData_some mid.configCache m record hrec
  have hcalls : (removeEmptyMetaData mid metaData.MetaID).calls = mid.calls := by
    unfold removeEmptyMetaData
    split
    · split <;> rfl
    · rfl
  have hempty : record.BaseConfigs = [] →
      GetMetaData (removeEmptyMetaData mid metaData.MetaID) m = none := by
    intro hb
    unfold removeEmptyMetaData
    rw [hmid, hrec]
    simp only [hb, List.length_nil, beq_self_eq_true, if_true, GetMetaData, hrid]
    exact GetMetaData_RemoveMetaData mid.configCache m
  have hkeep : record.BaseConfigs ≠ [] →
      GetMetaData (removeEmptyMetaData mid metaData.MetaID) m = some record := by
    intro hb
    unfold removeEmptyMetaData
    rw [hmid, hrec]
    have hl : (record.BaseConfigs.length == 0) = false := by
      cases hbc : record.BaseConfigs with
      | nil => exact absurd hbc hb
      | cons b bs => simp
    simp only [hl, Bool.false_eq_true, if_false, GetMetaData]
    exact hrec
  rw [hrun]
  refine ⟨(removeEngines env metaData.MetaID containerid engines cluster []).2, record, rfl, ?_,
    ?_, hrec, hempty, hkeep, ?_⟩
  · simpa using hL.1
  · show (removeEmptyMetaData mid metaData.MetaID).calls = _
    rw [hcalls]
    exact hL.2.1
  · intro md hmd hb
    by_cases hr : record.BaseConfigs = []
    · have := hempty hr
      simp only [] at hmd
      rw [this] at hmd
      exact absurd hmd (by simp)
    · have := hkeep hr
      simp only [] at hmd
      rw [this] at hmd
      have he : record = md := by simpa using hmd
      rw [he] at hr
      exact hr hb

/-- With a blank ID, the containers `RemoveContainers` sets out to remove are all the
containers of the meta, when their IDs are not blank. -/
theorem removeTargets_blank :
    ∀ (l : List (Engine × Container)), (∀ p ∈ l, p.2.Info.ID ≠ "") → removeTargets "" l = l := by
  intro l
  induction l with
  | nil => intro _; rfl
  | cons p rest ih =>
    intro h
    have hp : (p.2.Info.ID == "") = false := by simp [h p (List.mem_cons_self _ _)]
    have hr := ih (fun q hq => h q (List.mem_cons_of_mem _ hq))
    simp [removeTargets, hp, hr]

/-- With a non-blank ID, `RemoveContainers` sets out to remove the first container with that
ID, if there is one. -/
theorem removeTargets_id (containerid : String) (hne : containerid ≠ "") :
    ∀ (l : List (Engine × Container)),
    removeTargets containerid l = (l.find? (fun p => p.2.Info.ID == containerid)).toList := by
  intro l
  induction l with
  | nil => rfl
  | cons p rest ih =>
    have hc : (containerid == "") = false := by simp [hne]
    by_cases h1 : (p.2.Info.ID == containerid) = true
    · simp [removeTargets, h1]
    · simp [removeTargets, h1, hc, ih]

/-- A witness of C8: removing all containers of `meta0001`, one of which is on an unhealthy
engine: two entries, one call, and the meta stays with the `BaseConfig` of the container
that is left; on `singleCluster`, where the only container is removed, the meta leaves the
catalog. -/
theorem C8_remove_outcome_witness :
    validateMetaData runningCluster "meta0001" = Except.ok (runningMeta, runningEngines) ∧
    (∃ removed record,
      (RemoveContainers sampleEnv runningCluster "meta0001" "").2 = (some removed, none) ∧
      removed.map (fun r => (r.IP, r.ID)) =
        (removeTargets "" (groupContainers runningMeta.MetaID runningEngines)).map
          (fun p => (p.1.IP, p.2.Info.ID)) ∧
      (RemoveContainers sampleEnv runningCluster "meta0001" "").1.calls =
        runningCluster.calls ++
          ((removeTargets "" (groupContainers runningMeta.MetaID runningEngines)).filter
            (fun p => p.1.IsHealthy)).map removeCall ∧
      GetMetaData (removeEngines sampleEnv runningMeta.MetaID "" runningEngines runningCluster []).1
        "meta0001" = some record ∧
      (record.BaseConfigs = [] →
        GetMetaData (RemoveContainers sampleEnv runningCluster "meta0001" "").1 "meta0001" = none) ∧
      (record.BaseConfigs ≠ [] →
        GetMetaData (RemoveContainers sampleEnv runningCluster "meta0001" "").1 "meta0001" =
          some record) ∧
      (∀ md, GetMetaData (RemoveContainers sampleEnv runningCluster "meta0001" "").1 "meta0001" =
        some md → md.BaseConfigs ≠ [])) ∧
    (RemoveContainers sampleEnv runningCluster "meta0001" "").2 =
      (some [⟨"10.0.0.1", "c1", none⟩,
          ⟨"10.0.0.2", "c2", some (Error.errorf "engine state is Unhealthy")⟩], none) ∧
    (GetMetaData (RemoveContainers sampleEnv runningCluster "meta0001" "").1 "meta0001").map
      (fun md => md.BaseConfigs) = some [{ Index := 1, ID := "c2", Name := "group000-web-1" }] ∧
    (RemoveContainers sampleEnv singleCluster "meta0001" "").2 =
      (some [⟨"10.0.0.1", "c1", none⟩], none) ∧
    GetMetaData (RemoveContainers sampleEnv singleCluster "meta0001" "").1 "meta0001" = none :=
  ⟨by rfl,
    C8_remove_outcome sampleEnv runningCluster "meta0001" "" runningMeta runningEngines (by rfl),
    by decide, by decide, by decide, by decide⟩

/-! ### `GetGroupEngines` -/

theorem removeDuplicatesEngines_subset :
    ∀ (l : List Engine), ∀ e ∈ removeDuplicatesEngines l, e ∈ l := by
  intro l
  induction l with
  | nil => intro e he; simp [removeDuplicatesEngines] at he
  | cons x rest ih =>
    intro e he
    simp only [removeDuplicatesEngines, List.mem_cons, List.mem_filter] at he
    rcases he with h | h
    · exact h ▸ List.mem_cons_self _ _
    · exact List.mem_cons_of_mem _ (ih e h.1)

theorem removeDuplicatesEngines_covers :
    ∀ (l : List Engine), ∀ e0 ∈ l, ∃ e ∈ removeDuplicatesEngines l,
      selectIPOrName e.IP e.Name = selectIPOrName e0.IP e0.Name := by
  intro l
  induction l with
  | nil => intro e0 h; simp at h
  | cons x rest ih =>
    intro e0 h0
    rcases List.mem_cons.mp h0 with h | h
    · exact ⟨x, by simp [removeDuplicatesEngines], by rw [h]⟩
    · obtain ⟨e, he, hk⟩ := ih e0 h
      by_cases hx : selectIPOrName e.IP e.Name = selectIPOrName x.IP x.Name
      · exact ⟨x, by simp [removeDuplicatesEngines], by rw [← hx, hk]⟩
      · refine ⟨e, ?_, hk⟩
        simp only [removeDuplicatesEngines, List.mem_cons, List.mem_filter]
        exact Or.inr ⟨he, by simp [hx]⟩

theorem eq_of_mem_of_IP_eq :
    ∀ (l : List Engine), (l.map (fun e => e.IP)).Nodup →
    ∀ a ∈ l, ∀ b ∈ l, a.IP = b.IP → a = b := by
  intro l hn a ha b hb hab
  exact List.inj_on_of_nodup_map hn ha hb hab

/-- C11, as stated, fails: the server of `group0001` has the IP `10.0.0.9`, which no engine
has, and the name `node1` of the engine `10.0.0.1`; `GetGroupEngines` returns an empty list,
so the server contributes no engine. -/
theorem C11_counterexample :
    fallbackCluster.groups.map (fun g => (g.ID, g.Servers)) =
      [("group0001", [{ Name := "node1", IP := "10.0.0.9" }])] ∧
    fallbackCluster.engines.any (fun e => e.IP == "10.0.0.9") = false ∧
    fallbackCluster.engines.any (fun e => e.Name == "node1") = true ∧
    GetGroupEngines fallbackCluster "group0001" = some [] := by
  refine ⟨by decide, by decide, by decide, by decide⟩

/-- C11 (amended): in a cluster whose engines are registered under distinct non-blank IPs,
for every existing group the result of `GetGroupEngines` is a non-nil list of registered
engines, and for every server `s` of the group: if `s.IP` is not blank, the list holds an
engine with the IP `s.IP` whenever a registered engine has it, and `s` contributes no engine
otherwise, whatever its name; if `s.IP` is blank and `s.Name` is not, the list holds an
engine with the name `s.Name` whenever a registered engine has it.  For a group ID that does
not exist the result is nil. -/
theorem C11_group_engines (cluster : Cluster) (groupid : String)
    (hip : ∀ e ∈ cluster.engines, e.IP ≠ "")
    (hnodup : (cluster.engines.map (fun e => e.IP)).Nodup) :
    (cluster.groups.find? (fun g => g.ID == groupid) = none →
      GetGroupEngines cluster groupid = none) ∧
    (∀ group, cluster.groups.find? (fun g => g.ID == groupid) = some group →
      ∃ l, GetGroupEngines cluster groupid = some l ∧
        (∀ e ∈ l, e ∈ cluster.engines) ∧
        ∀ s ∈ group.Servers,
          (s.IP ≠ "" → (∃ e0 ∈ cluster.engines, e0.IP = s.IP) → ∃ e ∈ l, e.IP = s.IP) ∧
          (s.IP ≠ "" → (∀ e0 ∈ cluster.engines, e0.IP ≠ s.IP) → serverEngine cluster s = none) ∧
          (s.IP = "" → s.Name ≠ "" → (∃ e0 ∈ cluster.engines, e0.Name = s.Name) →
            ∃ e ∈ l, e.Name = s.Name)) := by
  have hkey : ∀ e ∈ cluster.engines, selectIPOrName e.IP e.Name = e.IP := by
    intro e he
    simp [selectIPOrName, hip e he]
  constructor
  · intro h
    simp [GetGroupEngines, h]
  · intro group hg
    have hsub : ∀ e ∈ group.Servers.filterMap (serverEngine cluster), e ∈ cluster.engines := by
      intro e he
      obtain ⟨s, _, hs⟩ := List.mem_filterMap.mp he
      unfold serverEngine at hs
      split at hs
      · exact List.mem_of_find?_eq_some hs
      · split at hs
        · exact List.mem_of_find?_eq_some hs
        · exact absurd hs (by simp)
    have hres : ∀ e ∈ removeDuplicatesEngines (group.Servers.filterMap (serverEngine cluster)),
        e ∈ cluster.engines :=
      fun e he => hsub e (removeDuplicatesEngines_subset _ e he)
    have hcover : ∀ s ∈ group.Servers, ∀ e0, serverEngine cluster s = some e0 →
        e0 ∈ removeDuplicatesEngines (group.Servers.filterMap (serverEngine cluster)) := by
      intro s hs e0 h0
      have hmem : e0 ∈ group.Servers.filterMap (serverEngine cluster) :=
        List.mem_filterMap.mpr ⟨s, hs, h0⟩
      obtain ⟨e, he, hk⟩ := removeDuplicatesEngines_covers _ e0 hmem
      have he1 := hres e he
      have he0 := hsub e0 hmem
      rw [hkey e he1, hkey e0 he0] at hk
      have : e = e0 := eq_of_mem_of_IP_eq cluster.engines hnodup e he1 e0 he0 hk
      exact this ▸ he
    refine ⟨removeDuplicatesEngines (group.Servers.filterMap (serverEngine cluster)),
      by simp [GetGroupEngines, hg], hres, ?_⟩
    intro s hs
    refine ⟨?_, ?_, ?_⟩
    · intro hne hex
      obtain ⟨e0, he0, hip0⟩ := hex
      have hfind : (cluster.engines.find? (fun engine => s.IP == engine.IP)).isSome = true := by
        rw [List.find?_isSome]
        exact ⟨e0, he0, by simp [hip0]⟩
      obtain ⟨e1, he1⟩ := Option.isSome_iff_exists.mp hfind
      have hse : serverEngine cluster s = some e1 := by
        simp [serverEngine, hne, he1]
      have hp := List.find?_some he1
      exact ⟨e1, hcover s hs e1 hse, (by simpa using hp : _ = _).symm⟩
    · intro hne hall
      have hfind : cluster.engines.find? (fun engine => s.IP == engine.IP) = none := by
        rw [List.find?_eq_none]
        intro e he
        simpa using fun h => hall e he h.symm
      simp [serverEngine, hne, hfind]
    · intro hblank hname hex
      obtain ⟨e0, he0, hn0⟩ := hex
      have hfind : (cluster.engines.find? (fun engine => s.Name == engine.Name)).isSome = true := by
        rw [List.find?_isSome]
        exact ⟨e0, he0, by simp [hn0]⟩
      obtain ⟨e1, he1⟩ := Option.isSome_iff_exists.mp hfind
      have hse : serverEngine cluster s = some e1 := by
        simp [serverEngine, hblank, hname, he1]
      have hp := List.find?_some he1
      exact ⟨e1, hcover s hs e1 hse, (by simpa using hp : _ = _).symm⟩

/-- A witness of C11 (amended): the group of `runningCluster`, whose two servers name the
two engines by IP. -/
theorem C11_group_engines_witness :
    ((∀ e ∈ runningCluster.engines, e.IP ≠ "") ∧
      (runningCluster.engines.map (fun e => e.IP)).Nodup) ∧
    ((runningCluster.groups.find? (fun g => g.ID == "group0001") = none →
      GetGroupEngines runningCluster "group0001" = none) ∧
    (∀ group, runningCluster.groups.find? (fun g => g.ID == "group0001") = some group →
      ∃ l, GetGroupEngines runningCluster "group0001" = some l ∧
        (∀ e ∈ l, e ∈ runningCluster.engines) ∧
        ∀ s ∈ group.Servers,
          (s.IP ≠ "" → (∃ e0 ∈ runningCluster.engines, e0.IP = s.IP) → ∃ e ∈ l, e.IP = s.IP) ∧
          (s.IP ≠ "" → (∀ e0 ∈ runningCluster.engines, e0.IP ≠ s.IP) →
            serverEngine runningCluster s = none) ∧
          (s.IP = "" → s.Name ≠ "" → (∃ e0 ∈ runningCluster.engines, e0.Name = s.Name) →
            ∃ e ∈ l, e.Name = s.Name))) ∧
    GetGroupEngines runningCluster "group0001" = some runningEngines :=
  ⟨⟨by decide, by decide⟩,
    C11_group_engines runningCluster "group0001" (by decide) (by decide),
    by decide⟩

/-! ### The scheduler -/

theorem swapAt_perm (l : List Engine) (i j : Nat) : (swapAt l i j).Perm l := by
  unfold swapAt
  cases hi : l.get? i with
  | none => exact List.Perm.refl _
  | some a =>
    cases hj : l.get? j with
    | none => exact List.Perm.refl _
    | some b =>
      simp only []
      rw [List.get?_eq_getElem?, List.getElem?_eq_some] at hi hj
      obtain ⟨hil, hia⟩ := hi
      obtain ⟨hjl, hjb⟩ := hj
      rw [List.perm_iff_count]
      intro x
      have hjl1 : j < (l.set i b).length := by simpa using hjl
      rw [List.count_set _ _ _ _ hjl1, List.count_set _ _ _ _ hil]
      have hget : (l.set i b)[j] = b := by
        rw [List.getElem_set]
        split
        · rfl
        · exact hjb
      rw [hget, hia]
      have hle : (if (a == x) = true then 1 else 0) ≤ l.count x := by
        split
        · rename_i hax
          have hax1 : a = x := by simpa using hax
          have hmem : x ∈ l := by
            rw [← hax1, ← hia]
            exact List.getElem_mem _
          exact List.count_pos_iff.mpr hmem
        · exact Nat.zero_le _
      omega

theorem shuffleEngines_perm (env : Env) :
    ∀ (i k : Nat) (l : List Engine), (shuffleEngines env i k l).2.Perm l := by
  intro i
  induction i with
  | zero => intro k l; exact List.Perm.refl _
  | succ n ih =>
    intro k l
    simp only [shuffleEngines]
    exact (ih _ _).trans (swapAt_perm _ _ _)

/-- The result of `selectEngines` in terms of the ranked candidates. -/
theorem selectEngines_eq (env : Env) (cluster : Cluster) (engines : List Engine)
    (ipList : List String) (config : models.Container) :
    (selectEngines env cluster engines ipList config).2 =
      if (rankedEngines env engines config).length > 0 ∧ ipList.length > 0 then
        if (filterIPList (rankedEngines env engines config) ipList).length > 0 then
          filterIPList (rankedEngines env engines config) ipList
        else
          (shuffleEngines env ((rankedEngines env engines config).length - 1) cluster.randCalls
            (rankedEngines env engines config)).2
      else
        rankedEngines env engines config := by
  unfold selectEngines rankedEngines
  simp only []
  by_cases h0 : ((engines.filter (fun engine => engine.IsHealthy)).length == 0) = true
  · have hnil : engines.filter (fun engine => engine.IsHealthy) = [] := by
      simpa using h0
    simp [hnil]
  · simp only [h0, Bool.false_eq_true, if_false, Bool.and_eq_true, decide_eq_true_eq]
    split_ifs <;> rfl

theorem rankedEngines_subset (env : Env) (engines : List Engine) (config : models.Container) :
    ∀ e ∈ rankedEngines env engines config, e ∈ engines ∧ e.IsHealthy = true := by
  intro e he
  unfold rankedEngines at he
  simp only [] at he
  have hfil : ∀ x ∈ engines.filter (fun engine => engine.IsHealthy),
      x ∈ engines ∧ x.IsHealthy = true := by
    intro x hx
    exact List.mem_filter.mp hx
  split at he
  · exact hfil e he
  · split at he
    · obtain ⟨p, hp, hpe⟩ := List.mem_map.mp he
      have hp1 : p ∈ selectWeightdEngines env (engines.filter (fun engine => engine.IsHealthy))
          config := (List.perm_insertionSort _ _).subset hp
      unfold selectWeightdEngines at hp1
      obtain ⟨hp2, _⟩ := List.mem_filter.mp hp1
      obtain ⟨x, hx, hxp⟩ := List.mem_map.mp hp2
      rw [← hpe, ← hxp]
      exact hfil x hx
    · exact hfil e he

theorem selectEngines_subset_ranked (env : Env) (cluster : Cluster) (engines : List Engine)
    (ipList : List String) (config : models.Container) :
    ∀ e ∈ (selectEngines env cluster engines ipList config).2,
      e ∈ rankedEngines env engines config := by
  intro e he
  rw [selectEngines_eq] at he
  split at he
  · split at he
    · exact (List.mem_filter.mp he).1
    · exact (shuffleEngines_perm env _ _ _).subset he
  · exact he

/-- With a healthy candidate, `selectEngines` returns at least one engine. -/
theorem selectEngines_ne_nil (env : Env) (cluster : Cluster) (engines : List Engine)
    (ipList : List String) (config : models.Container)
    (h : engines.filter (fun engine => engine.IsHealthy) ≠ []) :
    (selectEngines env cluster engines ipList config).2 ≠ [] := by
  have hr : rankedEngines env engines config ≠ [] := by
    unfold rankedEngines
    simp only []
    have h0 : ((engines.filter (fun engine => engine.IsHealthy)).length == 0) = false := by
      cases hl : engines.filter (fun engine => engine.IsHealthy) with
      | nil => exact absurd hl h
      | cons a b => simp
    rw [h0]
    simp only [Bool.false_eq_true, if_false]
    split
    · rename_i hw
      intro hnil
      have hlen := congrArg List.length hnil
      simp only [List.length_map, List.length_insertionSort, List.length_nil] at hlen
      omega
    · exact h
  rw [selectEngines_eq]
  split
  · split
    · rename_i hf
      intro hnil
      rw [hnil] at hf
      simp at hf
    · intro hnil
      have hp := shuffleEngines_perm env ((rankedEngines env engines config).length - 1)
        cluster.randCalls (rankedEngines env engines config)
      rw [hnil] at hp
      exact hr (List.Perm.nil_eq hp).symm
  · exact hr

theorem selectEngines_of_no_healthy (env : Env) (cluster : Cluster) (engines : List Engine)
    (ipList : List String) (config : models.Container)
    (h : ∀ e ∈ engines, e.IsHealthy = false) :
    selectEngines env cluster engines ipList config = (cluster, []) := by
  have hnil : engines.filter (fun engine => engine.IsHealthy) = [] := by
    rw [List.filter_eq_nil_iff]
    intro e he
    simp [h e he]
  unfold selectEngines
  simp [hnil]

/-- C12: every engine in the list `selectEngines` returns is one of the candidates and is
healthy; if no candidate is healthy the list is empty, and `createContainer` on a group
whose engines are all not healthy returns `ErrClusterNoEngineAvailable` and the cluster it
was given, so that no agent is called. -/
theorem C12_selected_healthy_candidates (env : Env) (cluster : Cluster) (engines : List Engine)
    (ipList : List String) (config : models.Container) (metaData : MetaData) :
    (∀ e ∈ (selectEngines env cluster engines ipList config).2,
      e ∈ engines ∧ e.IsHealthy = true) ∧
    ((∀ e ∈ engines, e.IsHealthy = false) →
      selectEngines env cluster engines ipList config = (cluster, [])) ∧
    ((∀ l, GetGroupEngines cluster metaData.GroupID = some l → ∀ e ∈ l, e.IsHealthy = false) →
      createContainer env cluster metaData ipList config =
        (cluster, ⟨none, none, some Error.ErrClusterNoEngineAvailable⟩)) := by
  refine ⟨?_, selectEngines_of_no_healthy env cluster engines ipList config, ?_⟩
  · intro e he
    exact rankedEngines_subset env engines config e
      (selectEngines_subset_ranked env cluster engines ipList config e he)
  · intro h
    unfold createContainer
    cases hG : GetGroupEngines cluster metaData.GroupID with
    | none => rfl
    | some l =>
      cases l with
      | nil => rfl
      | cons e es =>
        simp only []
        rw [selectEngines_of_no_healthy env cluster (e :: es) ipList config (h (e :: es) hG)]

/-- C13, as stated, fails: the only healthy candidate has the score -1, so the weighted
selection drops it, but `selectEngines` returns it and `createContainer` submits the
container to it instead of returning `ErrClusterNoEngineAvailable`. -/
theorem C13_counterexample :
    webCluster.engines.map (fun e => negativeEnv.score e stampedWeb) = [-1] ∧
    selectWeightdEngines negativeEnv webCluster.engines stampedWeb = [] ∧
    (selectEngines negativeEnv webCluster webCluster.engines [] stampedWeb).2 =
      webCluster.engines ∧
    (createContainer negativeEnv webCluster webMeta [] stampedWeb).2.err = none ∧
    (createContainer negativeEnv webCluster webMeta [] stampedWeb).1.calls =
      [AgentCall.create "10.0.0.1" stampedWeb] := by
  refine ⟨by decide, by decide, by decide, by decide, by decide⟩

/-- C13 (amended): when the weighted selection keeps at least one healthy candidate, no
engine with a negative score is in the list `selectEngines` returns; when it drops every
healthy candidate and there is one, `selectEngines` falls back on the healthy candidates:
the list is not empty and holds healthy candidates only, all with a negative score; and
`createContainer` on a group with a healthy engine never returns
`ErrClusterNoEngineAvailable`: it submits the container to an engine. -/
theorem C13_weighted_selection (env : Env) (cluster : Cluster) (engines : List Engine)
    (ipList : List String) (config : models.Container) (metaData : MetaData) :
    (selectWeightdEngines env (engines.filter (fun e => e.IsHealthy)) config ≠ [] →
      ∀ e ∈ (selectEngines env cluster engines ipList config).2, 0 ≤ env.score e config) ∧
    (selectWeightdEngines env (engines.filter (fun e => e.IsHealthy)) config = [] →
      engines.filter (fun e => e.IsHealthy) ≠ [] →
      (selectEngines env cluster engines ipList config).2 ≠ [] ∧
      ∀ e ∈ (selectEngines env cluster engines ipList config).2,
        e ∈ engines ∧ e.IsHealthy = true ∧ env.score e config < 0) ∧
    (GetGroupEngines cluster metaData.GroupID = some engines →
      engines.filter (fun e => e.IsHealthy) ≠ [] →
      (createContainer env cluster metaData ipList config).2.err ≠
        some Error.ErrClusterNoEngineAvailable ∧
      ∃ ip, (createContainer env cluster metaData ipList config).1.calls =
        cluster.calls ++ [AgentCall.create ip config]) := by
  refine ⟨?_, ?_, ?_⟩
  · intro hw e he
    have hr := selectEngines_subset_ranked env cluster engines ipList config e he
    unfold rankedEngines at hr
    simp only [] at hr
    split at hr
    · rename_i h0
      have hnil : engines.filter (fun engine => engine.IsHealthy) = [] := by simpa using h0
      rw [hnil] at hw
      exact absurd rfl hw
    · split at hr
      · obtain ⟨p, hp, hpe⟩ := List.mem_map.mp hr
        have hp1 := (List.perm_insertionSort _ _).subset hp
        unfold selectWeightdEngines at hp1
        obtain ⟨hp2, hp3⟩ := List.mem_filter.mp hp1
        obtain ⟨x, _, hxp⟩ := List.mem_map.mp hp2
        rw [← hpe, ← hxp]
        rw [← hxp] at hp3
        simpa using hp3
      · rename_i hlen
        have : (selectWeightdEngines env (engines.filter (fun engine => engine.IsHealthy))
            config).length > 0 := List.length_pos.mpr hw
        exact absurd this hlen
  · intro hw hh
    refine ⟨selectEngines_ne_nil env cluster engines ipList config hh, ?_⟩
    intro e he
    have hr := selectEngines_subset_ranked env cluster engines ipList config e he
    have hs := rankedEngines_subset env engines config e hr
    refine ⟨hs.1, hs.2, ?_⟩
    have hmem : e ∈ engines.filter (fun e => e.IsHealthy) := List.mem_filter.mpr hs
    unfold selectWeightdEngines at hw
    rw [List.filter_eq_nil_iff] at hw
    have := hw (e, env.score e config) (List.mem_map.mpr ⟨e, hmem, rfl⟩)
    simpa using this
  · intro hG hh
    have hne := selectEngines_ne_nil env cluster engines ipList config hh
    have hs := selectEngines_calls env cluster engines ipList config
    unfold createContainer
    rw [hG]
    cases engines with
    | nil => exact absurd rfl hh
    | cons e es =>
      simp only []
      cases hsel : selectEngines env cluster (e :: es) ipList config with
      | mk c1 sel =>
        rw [hsel] at hne hs
        simp only [] at hne hs
        cases sel with
        | nil => exact absurd rfl hne
        | cons engine rest =>
          simp only []
          have hc := Engine.CreateContainer_calls env c1 engine config
          have herr : (Engine.CreateContainer env c1 engine config).2.2 ≠
              some Error.ErrClusterNoEngineAvailable := by
            unfold Engine.CreateContainer callAgent
            simp only []
            cases (env.agent c1.calls (AgentCall.create engine.IP config)).err with
            | some text => simp
            | none => simp
          cases hcr : Engine.CreateContainer env c1 engine config with
          | mk c2 out =>
            obtain ⟨container, err⟩ := out
            rw [hcr] at hc herr
            simp only [] at hc herr
            cases err with
            | some e1 =>
              simp only []
              exact ⟨herr, engine.IP, by rw [hc, hs]⟩
            | none =>
              simp only []
              exact ⟨by simp, engine.IP, by rw [hc, hs]⟩

/-- C14: with `L` the ranked candidates, `selectEngines` returns `L` when the avoid-IP list
is empty; when it is not empty and some engine of `L` has an IP that is not in it, exactly
the engines of `L` whose IP is not in the list, in the order of `L`; and otherwise a
permutation of `L`, whatever the PRNG yields. -/
theorem C14_affinity_spread (env : Env) (cluster : Cluster) (engines : List Engine)
    (ipList : List String) (config : models.Container) :
    (ipList = [] →
      (selectEngines env cluster engines ipList config).2 = rankedEngines env engines config) ∧
    (ipList ≠ [] → (∃ e ∈ rankedEngines env engines config, e.IP ∉ ipList) →
      (selectEngines env cluster engines ipList config).2 =
        (rankedEngines env engines config).filter (fun e => decide (e.IP ∉ ipList))) ∧
    (ipList ≠ [] → (∀ e ∈ rankedEngines env engines config, e.IP ∈ ipList) →
      ((selectEngines env cluster engines ipList config).2).Perm
        (rankedEngines env engines config)) := by
  have hfilter : filterIPList (rankedEngines env engines config) ipList =
      (rankedEngines env engines config).filter (fun e => decide (e.IP ∉ ipList)) := by
    unfold filterIPList
    apply List.filter_congr
    intro e _
    simp
  refine ⟨?_, ?_, ?_⟩
  · intro h
    rw [selectEngines_eq, h]
    simp
  · intro hne hex
    obtain ⟨e, he, hip⟩ := hex
    have hl : (rankedEngines env engines config).length > 0 :=
      List.length_pos.mpr (List.ne_nil_of_mem he)
    have hi : ipList.length > 0 := List.length_pos.mpr hne
    have hf : (filterIPList (rankedEngines env engines config) ipList).length > 0 := by
      apply List.length_pos.mpr
      apply List.ne_nil_of_mem (a := e)
      unfold filterIPList
      rw [List.mem_filter]
      exact ⟨he, by simpa using hip⟩
    rw [selectEngines_eq, if_pos ⟨hl, hi⟩, if_pos hf, hfilter]
  · intro hne hall
    rw [selectEngines_eq]
    split
    · have hf : ¬ (filterIPList (rankedEngines env engines config) ipList).length > 0 := by
        intro hpos
        obtain ⟨e, he⟩ := List.exists_mem_of_length_pos hpos
        unfold filterIPList at he
        obtain ⟨he1, he2⟩ := List.mem_filter.mp he
        have := hall e he1
        simp [this] at he2
      rw [if_neg hf]
      exact shuffleEngines_perm env _ _ _
    · exact List.Perm.refl _

/-! ### Pending markers and the read lock -/

/-- C19, on the code: a marker for (`group0001`, `web`) is in place, so `CreateContainers` for
`web` in `group0001` returns `ErrClusterCreateContainerNameConflict`; recording the marker
for (`group0002`, `web`) replaces it, and removing that one leaves none: after
`createContainers` or `reduceContainers` on the meta `web` of `group0002`,
`containsPendingContainers("group0001", "web")` is false and `CreateContainers` for `web` in
`group0001` goes through. -/
theorem C19_marker_lost :
    containsPendingContainers pendingCluster "group0001" "web" = true ∧
    (CreateContainers sampleEnv pendingCluster "group0001" 1 [] webConfig).map (fun r => r.2) =
      some ⟨"", none, some Error.ErrClusterCreateContainerNameConflict⟩ ∧
    containsPendingContainers
      (setPendingContainer pendingCluster "web"
        { GroupID := "group0002", Name := "web", Config := webConfig }) "group0001" "web" = false ∧
    containsPendingContainers
      (deletePendingContainer
        (setPendingContainer pendingCluster "web"
          { GroupID := "group0002", Name := "web", Config := webConfig }) "web")
      "group0001" "web" = false ∧
    (createContainers sampleEnv pendingCluster pendingMeta 1 webConfig).map
      (fun r => containsPendingContainers r.1 "group0001" "web") = some false ∧
    containsPendingContainers (reduceContainers sampleEnv pendingCluster pendingMeta 1)
      "group0001" "web" = false ∧
    (CreateContainers sampleEnv (reduceContainers sampleEnv pendingCluster pendingMeta 1)
      "group0001" 1 [] webConfig).map (fun r => (r.2.metaid, r.2.err)) =
      some ("meta0009", none) := by
  refine ⟨by decide, by decide, by decide, by decide, by decide, by decide, by decide⟩

theorem Locked.RUnlock_RLock (cluster : Cluster) :
    Locked.RUnlock (Locked.RLock cluster) = cluster := by
  simp [Locked.RUnlock, Locked.RLock]

theorem Locked.GetGroupEngines_cluster (cluster : Cluster) (groupid : String) :
    (Locked.GetGroupEngines cluster groupid).1 = cluster := by
  unfold Locked.GetGroupEngines
  simp only []
  split <;> exact Locked.RUnlock_RLock cluster

theorem Locked.GetGroupContainers_cluster (cluster : Cluster) (metaid : String) :
    (Locked.GetGroupContainers cluster metaid).1 = cluster := by
  have hm : (Locked.GetMetaDataEngines cluster metaid).1 = cluster := by
    unfold Locked.GetMetaDataEngines
    cases ContainersConfigCache.GetMetaData cluster.configCache metaid with
    | none => rfl
    | some metaData =>
      simp only []
      have hg := Locked.GetGroupEngines_cluster cluster metaData.GroupID
      cases hr : Locked.GetGroupEngines cluster metaData.GroupID with
      | mk c1 out =>
        rw [hr] at hg
        cases out with
        | none => exact hg
        | some engines => exact hg
  unfold Locked.GetGroupContainers
  cases hr : Locked.GetMetaDataEngines cluster metaid with
  | mk c1 out =>
    rw [hr] at hm
    cases out with
    | error e => exact hm
    | ok p => exact hm

theorem Locked.groupAllContainers_cluster :
    ∀ (metas : List MetaData) (cluster : Cluster) (acc : types.GroupContainers),
    (Locked.groupAllContainers metas cluster acc).1 = cluster := by
  intro metas
  induction metas with
  | nil => intro cluster acc; rfl
  | cons metaData rest ih =>
    intro cluster acc
    have hg := Locked.GetGroupContainers_cluster cluster metaData.MetaID
    unfold Locked.groupAllContainers
    cases hr : Locked.GetGroupContainers cluster metaData.MetaID with
    | mk c1 out =>
      rw [hr] at hg
      simp only [] at hg
      cases out with
      | none => simp only []; rw [ih, hg]
      | some gc => simp only []; rw [ih, hg]

/-- C20, on the code: `GetEngine`, `GetGroupEngines` and `InGroupsContains` return with as
many readers as they were called with, and so does `GetGroupAllContainers` for a group that
exists; for a group that does not exist `GetGroupAllContainers` returns nil with one reader
more: the read lock it took is still held.  On `oneGroupCluster`, with no reader, the call
for the unknown group `group0002` leaves one reader. -/
theorem C20_read_lock_kept (cluster : Cluster) (groupid ip name : String) :
    (Locked.GetEngine cluster ip).1.readers = cluster.readers ∧
    (Locked.GetGroupEngines cluster groupid).1.readers = cluster.readers ∧
    (Locked.InGroupsContains cluster ip name).1.readers = cluster.readers ∧
    (cluster.groups.find? (fun g => g.ID == groupid) ≠ none →
      (Locked.GetGroupAllContainers cluster groupid).1.readers = cluster.readers) ∧
    (cluster.groups.find? (fun g => g.ID == groupid) = none →
      Locked.GetGroupAllContainers cluster groupid = (Locked.RLock cluster, none) ∧
      (Locked.GetGroupAllContainers cluster groupid).1.readers = cluster.readers + 1) ∧
    oneGroupCluster.readers = 0 ∧
    (Locked.GetGroupAllContainers oneGroupCluster "group0002").2 = none ∧
    (Locked.GetGroupAllContainers oneGroupCluster "group0002").1.readers = 1 := by
  refine ⟨?_, ?_, ?_, ?_, ?_, by decide, by decide, by decide⟩
  · unfold Locked.GetEngine
    simp only []
    split <;> rw [Locked.RUnlock_RLock]
  · rw [Locked.GetGroupEngines_cluster]
  · unfold Locked.InGroupsContains
    simp only []
    split_ifs <;> rw [Locked.RUnlock_RLock]
  · intro h
    unfold Locked.GetGroupAllContainers
    simp only []
    cases hf : cluster.groups.find? (fun g => g.ID == groupid) with
    | none => exact absurd hf h
    | some group =>
      have hf1 : (Locked.RLock cluster).groups.find? (fun g => g.ID == groupid) = some group := hf
      rw [hf1]
      simp only [Locked.RUnlock_RLock]
      rw [Locked.groupAllContainers_cluster]
  · intro h
    have hf1 : (Locked.RLock cluster).groups.find? (fun g => g.ID == groupid) = none := h
    have hrun : Locked.GetGroupAllContainers cluster groupid = (Locked.RLock cluster, none) := by
      unfold Locked.GetGroupAllContainers
      simp only []
      rw [hf1]
    rw [hrun]
    exact ⟨rfl, rfl⟩

/-! ### `NewCluster` -/

/-- C18, on the code: `NewCluster` keeps the default 0.05 for a configured overcommit
`v <= -1` and when none is configured, adopts a `v` with `-1 < v < 0` or `0 <= v`, keeps
`createRetry` at 0 for a configured `createretry < 0` and adopts one that is `>= 0`, so that
`createRetry >= 0`; the overcommit ratio is greater than -1 whenever the configured value is
not NaN.  A configured NaN is neither `<= -1` nor `< 0`: it is adopted, and the overcommit
ratio of the cluster is then NaN, which is not greater than -1. -/
theorem C18_overcommit_NaN_adopted (overcommit : Option float64) (createretry : Option Int) :
    (∃ c, NewCluster true overcommit createretry none = (some c, none) ∧
      (overcommit = none → c.overcommitRatio = float64.num (1 / 20)) ∧
      (∀ v, overcommit = some v → float64.le v (float64.num (-1)) = true →
        c.overcommitRatio = float64.num (1 / 20)) ∧
      (∀ v, overcommit = some v → float64.lt (float64.num (-1)) v = true →
        c.overcommitRatio = v) ∧
      (overcommit ≠ some float64.NaN →
        float64.lt (float64.num (-1)) c.overcommitRatio = true) ∧
      (createretry = none → c.createRetry = 0) ∧
      (∀ r, createretry = some r → r < 0 → c.createRetry = 0) ∧
      (∀ r, createretry = some r → 0 ≤ r → c.createRetry = r) ∧
      0 ≤ c.createRetry) ∧
    (NewCluster true (some float64.NaN) createretry none).1.map (fun c => c.overcommitRatio) =
      some float64.NaN ∧
    float64.lt (float64.num (-1)) float64.NaN = false := by
  have hdef : float64.lt (float64.num (-1)) (float64.num (1 / 20)) = true := by
    simp only [float64.lt, decide_eq_true_eq]
    norm_num
  refine ⟨?_, ?_, rfl⟩
  · unfold NewCluster
    simp only [Bool.not_true, Bool.false_eq_true, if_false]
    refine ⟨_, rfl, ?_, ?_, ?_, ?_, ?_, ?_, ?_, ?_⟩
    · intro h
      rw [h]
    · intro v h hle
      rw [h]
      simp only [hle, if_true]
    · intro v h hlt
      rw [h]
      have hle : float64.le v (float64.num (-1)) = false := by
        cases v with
        | NaN => rfl
        | negInf => simp [float64.lt] at hlt
        | posInf => rfl
        | num q =>
          simp only [float64.lt, decide_eq_true_eq] at hlt
          simp only [float64.le, decide_eq_false_iff_not, not_le]
          exact hlt
      simp only [hle, Bool.false_eq_true, if_false]
      split <;> rfl
    · intro hnan
      cases overcommit with
      | none => exact hdef
      | some v =>
        cases v with
        | NaN => exact absurd rfl hnan
        | negInf => simpa [float64.le] using hdef
        | posInf => simp [float64.le, float64.lt]
        | num q =>
          by_cases hq : q ≤ -1
          · have hle : float64.le (float64.num q) (float64.num (-1)) = true := by
              simp [float64.le, hq]
            simp only [hle, if_true]
            exact hdef
          · have hle : float64.le (float64.num q) (float64.num (-1)) = false := by
              simp [float64.le, hq]
            simp only [hle, Bool.false_eq_true, if_false]
            have hlt : float64.lt (float64.num (-1)) (float64.num q) = true := by
              simp only [float64.lt, decide_eq_true_eq]
              exact not_le.mp hq
            split <;> exact hlt
    · intro h
      rw [h]
    · intro r h hr
      rw [h]
      simp [hr]
    · intro r h hr
      rw [h]
      simp [not_lt.mpr hr]
    · cases createretry with
      | none => exact le_refl _
      | some r =>
        simp only []
        split
        · exact le_refl _
        · rename_i hr
          exact not_lt.mp hr
  · unfold NewCluster
    simp [float64.le, float64.lt]

/-! ### `UpdateContainers` -/

theorem GetMetaData_SetMetaData (cache : List MetaData) (m : String) (n : Int)
    (webhooks : types.WebHooks) :
    ContainersConfigCache.GetMetaData (ContainersConfigCache.SetMetaData cache m n webhooks) m =
      (ContainersConfigCache.GetMetaData cache m).map
        (fun md => { md with Instances := n, WebHooks := webhooks }) := by
  unfold ContainersConfigCache.GetMetaData ContainersConfigCache.SetMetaData
  induction cache with
  | nil => rfl
  | cons x rest ih =>
    by_cases hx : (x.MetaID == m) = true
    · simp [List.find?, hx]
    · simp only [List.map_cons, hx, Bool.false_eq_true, if_false, List.find?, ih]

theorem Instances_of_heads (metaid : String) :
    ∀ (l1 l2 : List MetaData),
    l1.map (fun m => (m.MetaID, m.Instances)) = l2.map (fun m => (m.MetaID, m.Instances)) →
    (ContainersConfigCache.GetMetaData l1 metaid).map (fun m => m.Instances) =
      (ContainersConfigCache.GetMetaData l2 metaid).map (fun m => m.Instances) := by
  intro l1
  induction l1 with
  | nil =>
    intro l2 h
    cases l2 with
    | nil => rfl
    | cons y ys => simp at h
  | cons x xs ih =>
    intro l2 h
    cases l2 with
    | nil => simp at h
    | cons y ys =>
      simp only [List.map_cons, List.cons.injEq, Prod.mk.injEq] at h
      obtain ⟨⟨hid, hin⟩, hrest⟩ := h
      have hI := ih ys hrest
      unfold ContainersConfigCache.GetMetaData at hI ⊢
      by_cases hx : (x.MetaID == metaid) = true
      · have hy : (y.MetaID == metaid) = true := by rw [← hid]; exact hx
        simp [List.find?, hx, hy, hin]
      · have hy : ¬ (y.MetaID == metaid) = true := by rw [← hid]; exact hx
        simp only [List.find?, hx, hy]
        exact hI

theorem AppendBaseConfig_heads (cache : List MetaData) (metaid : String)
    (baseConfig : ContainerBaseConfig) :
    (ContainersConfigCache.AppendBaseConfig cache metaid baseConfig).map
        (fun m => (m.MetaID, m.Instances)) = cache.map (fun m => (m.MetaID, m.Instances)) := by
  unfold ContainersConfigCache.AppendBaseConfig
  rw [List.map_map]
  apply List.map_congr_left
  intro m _
  simp only [Function.comp]
  split <;> rfl

theorem RemoveBaseConfigByID_heads (cache : List MetaData) (containerid : String) :
    (ContainersConfigCache.RemoveBaseConfigByID cache containerid).map
        (fun m => (m.MetaID, m.Instances)) = cache.map (fun m => (m.MetaID, m.Instances)) := by
  unfold ContainersConfigCache.RemoveBaseConfigByID
  rw [List.map_map]
  apply List.map_congr_left
  intro m _
  rfl

theorem Engine.CreateContainer_heads (env : Env) (cluster : Cluster) (engine : Engine)
    (config : models.Container) :
    (Engine.CreateContainer env cluster engine config).1.configCache.map
        (fun m => (m.MetaID, m.Instances)) =
      cluster.configCache.map (fun m => (m.MetaID, m.Instances)) := by
  unfold Engine.CreateContainer callAgent
  simp only []
  cases h : (env.agent cluster.calls (AgentCall.create engine.IP config)).err with
  | some text => rfl
  | none =>
    simp only [updateEngine]
    exact AppendBaseConfig_heads _ _ _

theorem Engine.RemoveContainer_heads (env : Env) (cluster : Cluster) (engine : Engine)
    (containerid : String) :
    (Engine.RemoveContainer env cluster engine containerid).1.configCache.map
        (fun m => (m.MetaID, m.Instances)) =
      cluster.configCache.map (fun m => (m.MetaID, m.Instances)) := by
  unfold Engine.RemoveContainer callAgent
  simp only []
  cases h : (env.agent cluster.calls (AgentCall.remove engine.IP containerid)).err with
  | some text => rfl
  | none =>
    simp only [updateEngine]
    exact RemoveBaseConfigByID_heads _ _

theorem createContainer_heads (env : Env) (cluster : Cluster) (metaData : MetaData)
    (ipList : List String) (config : models.Container) :
    (createContainer env cluster metaData ipList config).1.configCache.map
        (fun m => (m.MetaID, m.Instances)) =
      cluster.configCache.map (fun m => (m.MetaID, m.Instances)) := by
  unfold createContainer
  cases hG : GetGroupEngines cluster metaData.GroupID with
  | none => rfl
  | some l =>
    cases l with
    | nil => rfl
    | cons e es =>
      simp only []
      have hs := selectEngines_frame env cluster (e :: es) ipList config
      cases hsel : selectEngines env cluster (e :: es) ipList config with
      | mk c1 sel =>
        rw [hsel] at hs
        simp only [] at hs
        cases sel with
        | nil => simp only []; rw [hs.1]
        | cons engine rest =>
          simp only []
          have hc := Engine.CreateContainer_heads env c1 engine config
          cases hcr : Engine.CreateContainer env c1 engine config with
          | mk c2 out =>
            obtain ⟨container, err⟩ := out
            rw [hcr] at hc
            simp only [] at hc
            cases err with
            | some e1 => simp only []; rw [hc, hs.1]
            | none => simp only []; rw [hc, hs.1]

theorem createContainersRetry_heads (env : Env) (metaData : MetaData) (config : models.Container) :
    ∀ (fuel : Nat) (cluster : Cluster) (placed : Placement) (ipList : List String),
    (createContainersRetry env metaData config fuel cluster placed ipList).1.configCache.map
        (fun m => (m.MetaID, m.Instances)) =
      cluster.configCache.map (fun m => (m.MetaID, m.Instances)) := by
  intro fuel
  induction fuel with
  | zero => intro cluster placed ipList; rfl
  | succ k ih =>
    intro cluster placed ipList
    cases hpe : placed.err with
    | none =>
      rw [createContainersRetry_of_none env metaData config (k + 1) cluster placed ipList hpe]
    | some e0 =>
      have hstep : createContainersRetry env metaData config (k + 1) cluster placed ipList =
          createContainersRetry env metaData config k
            (createContainer env cluster metaData ipList config).1
            (createContainer env cluster metaData ipList config).2
            (filterAppendIPList (createContainer env cluster metaData ipList config).2.engine
              ipList) := by
        simp [createContainersRetry, hpe]
      rw [hstep, ih, createContainer_heads]

theorem createContainersTurn_heads (env : Env) (metaData : MetaData) (config : models.Container)
    (cluster : Cluster) (ipList : List String) (created : types.CreatedContainers)
    (c1 : Cluster) (ipList1 : List String) (created1 : types.CreatedContainers)
    (h : createContainersTurn env metaData config cluster ipList created =
      some (c1, ipList1, created1)) :
    c1.configCache.map (fun m => (m.MetaID, m.Instances)) =
      cluster.configCache.map (fun m => (m.MetaID, m.Instances)) ∧
    created1.length ≤ created.length + 1 := by
  unfold createContainersTurn at h
  simp only [] at h
  split at h
  · simp only [Option.some.injEq, Prod.mk.injEq] at h
    rw [← h.1, ← h.2.2]
    exact ⟨rfl, Nat.le_succ _⟩
  · cases hcfg : containerConfig metaData config
        (ContainersConfigCache.MakeContainerIdleIndex cluster.configCache metaData.MetaID) with
    | none => rw [hcfg] at h; exact absurd h (by simp)
    | some cc =>
      rw [hcfg] at h
      simp only [] at h
      have h1 := createContainer_heads env cluster metaData ipList cc
      have hplaced : ∀ (p : Placement) (ips ips1 : List String)
          (cr1 : types.CreatedContainers),
          createContainersPlaced p ips created = some (ips1, cr1) →
          cr1.length ≤ created.length + 1 := by
        intro p ips ips1 cr1 hp
        unfold createContainersPlaced at hp
        split at hp
        · simp only [Option.some.injEq, Prod.mk.injEq] at hp
          rw [← hp.2]
          simp [types.SetCreatedPair]
        · exact absurd hp (by simp)
      cases hcc : createContainer env cluster metaData ipList cc with
      | mk c2 p1 =>
        rw [hcc] at h h1
        simp only [] at h h1
        cases hp : p1.err with
        | none =>
          rw [hp] at h
          simp only [] at h
          cases hpl : createContainersPlaced p1 ipList created with
          | none => rw [hpl] at h; exact absurd h (by simp)
          | some r =>
            obtain ⟨ips1, cr1⟩ := r
            rw [hpl] at h
            simp only [Option.some.injEq, Prod.mk.injEq] at h
            rw [← h.1, ← h.2.2]
            exact ⟨h1, hplaced p1 ipList ips1 cr1 hpl⟩
        | some err =>
          rw [hp] at h
          simp only [] at h
          split at h
          · simp only [Option.some.injEq, Prod.mk.injEq] at h
            rw [← h.1, ← h.2.2]
            exact ⟨h1, Nat.le_succ _⟩
          · have h2 := createContainersRetry_heads env metaData cc c2.createRetry.toNat c2 p1
              (filterAppendIPList p1.engine ipList)
            cases hrr : createContainersRetry env metaData cc c2.createRetry.toNat c2 p1
                (filterAppendIPList p1.engine ipList) with
            | mk c3 out =>
              obtain ⟨p2, ipList2⟩ := out
              rw [hrr] at h h2
              simp only [] at h h2
              cases hp2 : p2.err with
              | some err2 =>
                rw [hp2] at h
                simp only [Option.some.injEq, Prod.mk.injEq] at h
                rw [← h.1, ← h.2.2]
                exact ⟨h2.trans h1, Nat.le_succ _⟩
              | none =>
                rw [hp2] at h
                simp only [] at h
                cases hpl : createContainersPlaced p2 ipList2 created with
                | none => rw [hpl] at h; exact absurd h (by simp)
                | some r =>
                  obtain ⟨ips1, cr1⟩ := r
                  rw [hpl] at h
                  simp only [Option.some.injEq, Prod.mk.injEq] at h
                  rw [← h.1, ← h.2.2]
                  exact ⟨h2.trans h1, hplaced p2 ipList2 ips1 cr1 hpl⟩

theorem createContainersLoop_heads (env : Env) (metaData : MetaData) (config : models.Container) :
    ∀ (n : Nat) (cluster : Cluster) (ipList : List String) (created : types.CreatedContainers)
      (c1 : Cluster) (created1 : types.CreatedContainers),
    createContainersLoop env metaData config n cluster ipList created = some (c1, created1) →
    c1.configCache.map (fun m => (m.MetaID, m.Instances)) =
      cluster.configCache.map (fun m => (m.MetaID, m.Instances)) ∧
    created1.length ≤ created.length + n := by
  intro n
  induction n with
  | zero =>
    intro cluster ipList created c1 created1 h
    simp only [createContainersLoop, Option.some.injEq, Prod.mk.injEq] at h
    rw [← h.1, ← h.2]
    exact ⟨rfl, le_refl _⟩
  | succ k ih =>
    intro cluster ipList created c1 created1 h
    rw [createContainersLoop] at h
    cases ht : createContainersTurn env metaData config cluster ipList created with
    | none => rw [ht] at h; exact absurd h (by simp)
    | some r =>
      obtain ⟨c2, ipList2, created2⟩ := r
      rw [ht] at h
      simp only [] at h
      have h1 := createContainersTurn_heads env metaData config cluster ipList created
        c2 ipList2 created2 ht
      have h2 := ih c2 ipList2 created2 c1 created1 h
      exact ⟨h2.1.trans h1.1, by omega⟩

/-- What `createContainers` does when it returns: its calls are creates, the created list
has at most `instances` entries, and the meta IDs and instance counts of the catalog stay. -/
theorem createContainers_effect (env : Env) (cluster : Cluster) (metaData : MetaData)
    (instances : Int) (config : models.Container) (c1 : Cluster)
    (created : types.CreatedContainers)
    (h : createContainers env cluster metaData instances config = some (c1, created)) :
    (∃ extra, c1.calls = cluster.calls ++ extra ∧
      ∀ call ∈ extra, ∃ ip cc, call = AgentCall.create ip cc) ∧
    created.length ≤ instances.toNat ∧
    c1.configCache.map (fun m => (m.MetaID, m.Instances)) =
      cluster.configCache.map (fun m => (m.MetaID, m.Instances)) := by
  unfold createContainers at h
  simp only [] at h
  cases hl : createContainersLoop env metaData config instances.toNat
      (setPendingContainer cluster config.Name
        { GroupID := metaData.GroupID, Name := config.Name, Config := config }) [] [] with
  | none => rw [hl] at h; exact absurd h (by simp)
  | some r =>
    obtain ⟨c2, created2⟩ := r
    rw [hl] at h
    simp only [Option.some.injEq, Prod.mk.injEq] at h
    obtain ⟨extra, hx, hq⟩ := createContainersLoop_calls env metaData config instances.toNat
      _ _ _ c2 created2 hl
    have hh := createContainersLoop_heads env metaData config instances.toNat _ _ _ c2 created2 hl
    rw [← h.1, ← h.2]
    refine ⟨⟨extra, hx, ?_⟩, by simpa using hh.2, hh.1⟩
    intro call hcall
    obtain ⟨ip, _, cc, _, hc⟩ := hq call hcall
    exact ⟨ip, cc, hc⟩

theorem reduceContainer_effect (env : Env) (cluster : Cluster) (metaData : MetaData) :
    (∃ extra, (reduceContainer env cluster metaData).1.calls = cluster.calls ++ extra ∧
      extra.length ≤ 1 ∧ ∀ call ∈ extra, ∃ ip id, call = AgentCall.remove ip id) ∧
    (reduceContainer env cluster metaData).1.configCache.map (fun m => (m.MetaID, m.Instances)) =
      cluster.configCache.map (fun m => (m.MetaID, m.Instances)) := by
  unfold reduceContainer
  cases hG : GetGroupEngines cluster metaData.GroupID with
  | none => exact ⟨⟨[], by simp, by simp, by simp⟩, rfl⟩
  | some l =>
    cases l with
    | nil => exact ⟨⟨[], by simp, by simp, by simp⟩, rfl⟩
    | cons e es =>
      simp only []
      cases hs : (selectReduceEngines metaData.MetaID (e :: es)).insertionSort reduceLess with
      | nil => exact ⟨⟨[], by simp, by simp, by simp⟩, rfl⟩
      | cons reduceEngine rest =>
        simp only []
        cases hr : ReduceContainer reduceEngine.2 with
        | none => exact ⟨⟨[], by simp, by simp, by simp⟩, rfl⟩
        | some container =>
          simp only []
          have hc := Engine.RemoveContainer_frame env cluster reduceEngine.1 container.Info.ID
          have hh := Engine.RemoveContainer_heads env cluster reduceEngine.1 container.Info.ID
          cases hrm : Engine.RemoveContainer env cluster reduceEngine.1 container.Info.ID with
          | mk c2 err =>
            rw [hrm] at hc hh
            simp only [] at hc hh
            have hx : ∃ extra, c2.calls = cluster.calls ++ extra ∧ extra.length ≤ 1 ∧
                ∀ call ∈ extra, ∃ ip id, call = AgentCall.remove ip id :=
              ⟨[AgentCall.remove reduceEngine.1.IP container.Info.ID], hc.1, by simp,
                fun call hcall => ⟨_, _, by simpa using hcall⟩⟩
            cases err with
            | some e1 => exact ⟨hx, hh⟩
            | none => exact ⟨hx, hh⟩

theorem reduceContainersLoop_effect (env : Env) (metaData : MetaData) :
    ∀ (n : Nat) (cluster : Cluster),
    (∃ extra, (reduceContainersLoop env metaData n cluster).calls = cluster.calls ++ extra ∧
      extra.length ≤ n ∧ ∀ call ∈ extra, ∃ ip id, call = AgentCall.remove ip id) ∧
    (reduceContainersLoop env metaData n cluster).configCache.map
        (fun m => (m.MetaID, m.Instances)) =
      cluster.configCache.map (fun m => (m.MetaID, m.Instances)) := by
  intro n
  induction n with
  | zero =>
    intro cluster
    exact ⟨⟨[], by simp [reduceContainersLoop], by simp, by simp⟩, rfl⟩
  | succ k ih =>
    intro cluster
    obtain ⟨⟨x1, h1, l1, q1⟩, hh1⟩ := reduceContainer_effect env cluster metaData
    obtain ⟨⟨x2, h2, l2, q2⟩, hh2⟩ := ih (reduceContainer env cluster metaData).1
    simp only [reduceContainersLoop]
    refine ⟨⟨x1 ++ x2, by rw [h2, h1, List.append_assoc], by simp; omega, ?_⟩, hh2.trans hh1⟩
    intro call hcall
    rcases List.mem_append.mp hcall with h | h
    · exact q1 call h
    · exact q2 call h

/-- C17: for a meta `m` that passes `validateMetaData` and is not pending, with `k`
`BaseConfigs` and a requested `n > 0`, `UpdateContainers(m, n, hooks)` sets the meta's
`Instances` to `n`; when the group has no engine it does nothing else; when it has one and
`n > k`, it runs `createContainers` for `n - k` instances on the updated catalog: the calls are
creates only, at most `n - k` containers are created, and `Instances` stays `n`; when
`n <= k` it runs `reduceContainers` for `k - n`: the calls are removes only, at most `k - n`
of them, and `Instances` stays `n`; when `n = k` there is no call at all and the engines and
the updated catalog are as they were. -/
theorem C17_update_delta (env : Env) (cluster : Cluster) (m : String) (n : Int)
    (webhooks : types.WebHooks) (metaData : MetaData) (engines : List Engine)
    (hv : validateMetaData cluster m = Except.ok (metaData, engines))
    (hp : containsPendingContainers cluster metaData.GroupID metaData.Config.Name = false)
    (hn : 0 < n) :
    (GetMetaData (withMetaData cluster m n webhooks) m).map (fun md => md.Instances) = some n ∧
    (engines = [] →
      UpdateContainers env cluster m n webhooks =
        some (withMetaData cluster m n webhooks, some [], none)) ∧
    (engines ≠ [] → (metaData.BaseConfigs.length : Int) < n →
      UpdateContainers env cluster m n webhooks =
        (createContainers env (withMetaData cluster m n webhooks) metaData
          (n - metaData.BaseConfigs.length) metaData.Config).map
          (fun r => (r.1, some (updatedContainers r.1 metaData.MetaID engines), none)) ∧
      ∀ c1 created,
        createContainers env (withMetaData cluster m n webhooks) metaData
          (n - metaData.BaseConfigs.length) metaData.Config = some (c1, created) →
        (∃ extra, c1.calls = cluster.calls ++ extra ∧
          ∀ call ∈ extra, ∃ ip cc, call = AgentCall.create ip cc) ∧
        created.length ≤ (n - metaData.BaseConfigs.length).toNat ∧
        (GetMetaData c1 m).map (fun md => md.Instances) = some n) ∧
    (engines ≠ [] → n ≤ (metaData.BaseConfigs.length : Int) →
      UpdateContainers env cluster m n webhooks =
        some (reduceContainers env (withMetaData cluster m n webhooks) metaData
            (metaData.BaseConfigs.length - n),
          some (updatedContainers
            (reduceContainers env (withMetaData cluster m n webhooks) metaData
              (metaData.BaseConfigs.length - n)) metaData.MetaID engines), none) ∧
      (∃ extra,
        (reduceContainers env (withMetaData cluster m n webhooks) metaData
          (metaData.BaseConfigs.length - n)).calls = cluster.calls ++ extra ∧
        extra.length ≤ (metaData.BaseConfigs.length - n).toNat ∧
        ∀ call ∈ extra, ∃ ip id, call = AgentCall.remove ip id) ∧
      (GetMetaData (reduceContainers env (withMetaData cluster m n webhooks) metaData
        (metaData.BaseConfigs.length - n)) m).map (fun md => md.Instances) = some n) ∧
    (n = (metaData.BaseConfigs.length : Int) →
      (reduceContainers env (withMetaData cluster m n webhooks) metaData
        (metaData.BaseConfigs.length - n)).calls = cluster.calls ∧
      (reduceContainers env (withMetaData cluster m n webhooks) metaData
        (metaData.BaseConfigs.length - n)).engines = cluster.engines ∧
      (reduceContainers env (withMetaData cluster m n webhooks) metaData
        (metaData.BaseConfigs.length - n)).configCache =
        (withMetaData cluster m n webhooks).configCache) := by
  have hget := validateMetaData_ok cluster m metaData engines hv
  have hinst : (GetMetaData (withMetaData cluster m n webhooks) m).map (fun md => md.Instances) =
      some n := by
    unfold GetMetaData withMetaData
    simp only []
    rw [GetMetaData_SetMetaData, hget]
    rfl
  have hrun : UpdateContainers env cluster m n webhooks =
      match (if engines.length > 0 then
          if (metaData.BaseConfigs.length : Int) < n then
            (createContainers env (withMetaData cluster m n webhooks) metaData
              (n - metaData.BaseConfigs.length) metaData.Config).map (fun r => r.1)
          else
            some (reduceContainers env (withMetaData cluster m n webhooks) metaData
              (metaData.BaseConfigs.length - n))
        else some (withMetaData cluster m n webhooks) : Option Cluster) with
      | none => none
      | some c => some (c, some (updatedContainers c metaData.MetaID engines), none) := by
    unfold UpdateContainers
    rw [if_neg (not_le.mpr hn), hv]
    simp only [hp, Bool.false_eq_true, if_false]
    rfl
  have hreduce : ∀ (i : Int),
      (∃ extra, (reduceContainers env (withMetaData cluster m n webhooks) metaData i).calls =
          cluster.calls ++ extra ∧ extra.length ≤ i.toNat ∧
          ∀ call ∈ extra, ∃ ip id, call = AgentCall.remove ip id) ∧
      (reduceContainers env (withMetaData cluster m n webhooks) metaData i).configCache.map
          (fun md => (md.MetaID, md.Instances)) =
        (withMetaData cluster m n webhooks).configCache.map
          (fun md => (md.MetaID, md.Instances)) := by
    intro i
    have h := reduceContainersLoop_effect env metaData i.toNat
      (setPendingContainer (withMetaData cluster m n webhooks) metaData.Config.Name
        { GroupID := metaData.GroupID, Name := metaData.Config.Name, Config := metaData.Config })
    exact h
  refine ⟨hinst, ?_, ?_, ?_, ?_⟩
  · intro he
    rw [hrun, he]
    rfl
  · intro he hlt
    have hpos : engines.length > 0 := List.length_pos.mpr he
    refine ⟨?_, ?_⟩
    · rw [hrun, if_pos hpos, if_pos hlt]
      cases createContainers env (withMetaData cluster m n webhooks) metaData
          (n - metaData.BaseConfigs.length) metaData.Config with
      | none => rfl
      | some r => rfl
    · intro c1 created hc
      obtain ⟨hcalls, hlen, hheads⟩ := createContainers_effect env _ metaData _ _ c1 created hc
      refine ⟨hcalls, hlen, ?_⟩
      unfold GetMetaData
      rw [Instances_of_heads m _ _ hheads]
      exact hinst
  · intro he hle
    have hpos : engines.length > 0 := List.length_pos.mpr he
    obtain ⟨hcalls, hheads⟩ := hreduce (metaData.BaseConfigs.length - n)
    refine ⟨?_, hcalls, ?_⟩
    · rw [hrun, if_pos hpos, if_neg (not_lt.mpr hle)]
    · unfold GetMetaData
      rw [Instances_of_heads m _ _ hheads]
      exact hinst
  · intro heq
    have hz : ((metaData.BaseConfigs.length : Int) - n).toNat = 0 := by
      rw [heq]
      simp
    unfold reduceContainers
    simp only [hz, reduceContainersLoop]
    exact ⟨rfl, rfl, rfl⟩

/-- A witness of C17: the meta `meta0001` of `runningCluster` holds two `BaseConfigs` and is
asked for three instances. -/
theorem C17_update_delta_witness :
    (validateMetaData runningCluster "meta0001" = Except.ok (runningMeta, runningEngines) ∧
      containsPendingContainers runningCluster runningMeta.GroupID runningMeta.Config.Name
        = false ∧
      (0 : Int) < 3) ∧
    (GetMetaData (withMetaData runningCluster "meta0001" 3 []) "meta0001").map
      (fun md => md.Instances) = some 3 ∧
    (UpdateContainers sampleEnv runningCluster "meta0001" 3 []).map (fun r => r.1.calls) =
      some [AgentCall.create "10.0.0.1"
        { Name := "group000-web-2",
          Env := ["HUMPBACK_CLUSTER_GROUPID=group0001", "HUMPBACK_CLUSTER_METAID=meta0001",
            "HUMPBACK_CLUSTER_CONTAINER_INDEX=2",
            "HUMPBACK_CLUSTER_CONTAINER_ORIGINALNAME=group000-web-2"] }] ∧
    (UpdateContainers sampleEnv runningCluster "meta0001" 1 []).map (fun r => r.1.calls) =
      some [AgentCall.remove "10.0.0.1" "c1"] :=
  ⟨⟨by rfl, by decide, by decide⟩,
    (C17_update_delta sampleEnv runningCluster "meta0001" 3 [] runningMeta runningEngines
      (by rfl) (by decide) (by decide)).1,
    by decide, by decide⟩

/-! ### `SetGroup` -/

theorem InGroupsContains_of_groups (c1 c2 : Cluster) (ip name : String)
    (h : c1.groups = c2.groups) : InGroupsContains c1 ip name = InGroupsContains c2 ip name := by
  unfold InGroupsContains
  rw [h]

theorem setGroupRemoves_of_eq (c1 c2 : Cluster) (server : Server)
    (hg : c1.groups = c2.groups) (hn : c1.nodeCache = c2.nodeCache) :
    setGroupRemoves c1 server = setGroupRemoves c2 server := by
  unfold setGroupRemoves
  rw [hn]
  cases NodeCache.Get c2.nodeCache (selectIPOrName server.IP server.Name) with
  | none => rfl
  | some nodeData =>
    simp only []
    rw [InGroupsContains_of_groups c1 c2 _ _ hg]

theorem setGroupRemove_foldl :
    ∀ (servers : List Server) (cluster : Cluster),
    (servers.foldl setGroupRemove cluster).pendCalls =
      cluster.pendCalls ++
        (servers.filter (setGroupRemoves cluster)).map
          (fun s => PendCall.RemoveEngine s.IP s.Name) ∧
    (servers.foldl setGroupRemove cluster).groups = cluster.groups ∧
    (servers.foldl setGroupRemove cluster).nodeCache = cluster.nodeCache := by
  intro servers
  induction servers with
  | nil => intro cluster; simp
  | cons s rest ih =>
    intro cluster
    have hstep : (setGroupRemove cluster s).groups = cluster.groups ∧
        (setGroupRemove cluster s).nodeCache = cluster.nodeCache ∧
        (setGroupRemove cluster s).pendCalls =
          cluster.pendCalls ++
            (if setGroupRemoves cluster s then [PendCall.RemoveEngine s.IP s.Name] else []) := by
      unfold setGroupRemove setGroupRemoves
      cases NodeCache.Get cluster.nodeCache (selectIPOrName s.IP s.Name) with
      | none => simp
      | some nodeData =>
        simp only []
        split <;> simp_all
    obtain ⟨hg, hn, hc⟩ := hstep
    obtain ⟨h1, h2, h3⟩ := ih (setGroupRemove cluster s)
    simp only [List.foldl_cons]
    refine ⟨?_, h2.trans hg, h3.trans hn⟩
    rw [h1, hc]
    have hcongr : rest.filter (setGroupRemoves (setGroupRemove cluster s)) =
        rest.filter (setGroupRemoves cluster) := by
      apply List.filter_congr
      intro x _
      exact setGroupRemoves_of_eq _ _ x hg hn
    rw [hcongr, List.filter_cons]
    split <;> simp

theorem setGroupAdd_foldl :
    ∀ (servers : List Server) (cluster : Cluster),
    (servers.foldl setGroupAdd cluster).pendCalls =
      cluster.pendCalls ++ servers.map (fun s => PendCall.AddEngine s.IP s.Name) ∧
    (servers.foldl setGroupAdd cluster).groups = cluster.groups := by
  intro servers
  induction servers with
  | nil => intro cluster; simp
  | cons s rest ih =>
    intro cluster
    obtain ⟨h1, h2⟩ := ih (setGroupAdd cluster s)
    simp only [List.foldl_cons]
    refine ⟨?_, h2⟩
    rw [h1]
    simp [setGroupAdd]

/-- C16, as stated, fails.  The server of `group0001` is left out of the new list and no
group references it, but `NodeCache` does not know it: `SetGroup` makes no call to
`RemoveEngine`.  With the servers compared by identity: a new server that `NodeCache` does
not know is passed to `AddEngine`; and a server named by IP that the new list names by its
name is not passed to `RemoveEngine`, the group itself referencing the cached node. -/
theorem C16_counterexample :
    (SetGroup sameServer sameServer unknownServerCluster
      { ID := "group0001", Servers := [] }).groups = [{ ID := "group0001", Servers := [] }] ∧
    (SetGroup sameServer sameServer unknownServerCluster
      { ID := "group0001", Servers := [] }).pendCalls = [] ∧
    NodeCache.Get unknownServerCluster.nodeCache "10.0.0.2" = none ∧
    (SetGroup sameServer sameServer unknownServerCluster
      { ID := "group0001",
        Servers := [{ Name := "node1", IP := "10.0.0.1" }, { Name := "node2", IP := "10.0.0.2" }]
      }).pendCalls = [PendCall.AddEngine "10.0.0.2" "node2"] ∧
    (SetGroup sameServer sameServer knownServerCluster
      { ID := "group0001", Servers := [{ Name := "node1", IP := "" }] }).pendCalls =
      [PendCall.AddEngine "" "node1"] := by
  refine ⟨by decide, by decide, by decide, by decide, by decide⟩

/-- C16 (amended): for a group that exists, `SetGroup` replaces its servers by the new list;
it then calls `RemoveEngine` for exactly the servers of the old list that
`compareRemoveServers` finds in no server of the new list, that `NodeCache` knows, and whose
cached node no group references by IP or name, the group itself with its new servers
included; and after that `AddEngine` for exactly the servers of the new list that
`compareAddServers` finds in no server of the old list.  For a group ID that is not yet
present it stores the group and calls `AddEngine` for exactly its servers that `NodeCache`
knows, and `RemoveEngine` for none. -/
theorem C16_set_group (compareRemoveServers compareAddServers :
      List NodeData → Server → Server → Bool) (cluster : Cluster) (group : Group) :
    (∀ old, cluster.groups.find? (fun g => g.ID == group.ID) = some old →
      (SetGroup compareRemoveServers compareAddServers cluster group).groups =
        (withServers cluster group).groups ∧
      ((SetGroup compareRemoveServers compareAddServers cluster group).groups.find?
        (fun g => g.ID == group.ID)).map (fun g => g.Servers) = some group.Servers ∧
      (SetGroup compareRemoveServers compareAddServers cluster group).pendCalls =
        cluster.pendCalls ++
          ((old.Servers.filter (fun originServer =>
              !(group.Servers.any (fun newServer =>
                compareRemoveServers cluster.nodeCache originServer newServer)))).filter
            (setGroupRemoves (withServers cluster group))).map
            (fun s => PendCall.RemoveEngine s.IP s.Name) ++
          (group.Servers.filter (fun newServer =>
              !(old.Servers.any (fun originServer =>
                compareAddServers cluster.nodeCache originServer newServer)))).map
            (fun s => PendCall.AddEngine s.IP s.Name)) ∧
    (cluster.groups.find? (fun g => g.ID == group.ID) = none →
      (SetGroup compareRemoveServers compareAddServers cluster group).groups =
        cluster.groups ++ [group] ∧
      (SetGroup compareRemoveServers compareAddServers cluster group).pendCalls =
        cluster.pendCalls ++
          (group.Servers.filter (fun server =>
            (NodeCache.Get cluster.nodeCache
              (selectIPOrName server.IP server.Name)).isSome)).map
            (fun s => PendCall.AddEngine s.IP s.Name)) := by
  constructor
  · intro old hold
    have hrun : SetGroup compareRemoveServers compareAddServers cluster group =
        (group.Servers.filter (fun newServer =>
            !(old.Servers.any (fun originServer =>
              compareAddServers cluster.nodeCache originServer newServer)))).foldl setGroupAdd
          ((old.Servers.filter (fun originServer =>
              !(group.Servers.any (fun newServer =>
                compareRemoveServers cluster.nodeCache originServer newServer)))).foldl
            setGroupRemove (withServers cluster group)) := by
      unfold SetGroup
      simp only [hold]
      rfl
    rw [hrun]
    obtain ⟨hr1, hr2, _⟩ := setGroupRemove_foldl
      (old.Servers.filter (fun originServer =>
        !(group.Servers.any (fun newServer =>
          compareRemoveServers cluster.nodeCache originServer newServer))))
      (withServers cluster group)
    obtain ⟨ha1, ha2⟩ := setGroupAdd_foldl
      (group.Servers.filter (fun newServer =>
        !(old.Servers.any (fun originServer =>
          compareAddServers cluster.nodeCache originServer newServer))))
      ((old.Servers.filter (fun originServer =>
          !(group.Servers.any (fun newServer =>
            compareRemoveServers cluster.nodeCache originServer newServer)))).foldl
        setGroupRemove (withServers cluster group))
    refine ⟨ha2.trans hr2, ?_, ?_⟩
    · rw [ha2, hr2]
      unfold withServers
      simp only []
      have hfind : ∀ (l : List Group) (o : Group),
          l.find? (fun g => g.ID == group.ID) = some o →
          ((l.map (fun g => if g.ID == group.ID then { g with Servers := group.Servers }
            else g)).find? (fun g => g.ID == group.ID)).map (fun g => g.Servers) =
            some group.Servers := by
        intro l
        induction l with
        | nil => intro o h; simp at h
        | cons x xs ih =>
          intro o h
          by_cases hx : (x.ID == group.ID) = true
          · simp [List.find?, hx]
          · have hx1 : (x.ID == group.ID) = false := by simpa using hx
            simp only [List.find?, hx1] at h
            simp only [List.map_cons, hx1, Bool.false_eq_true, if_false, List.find?]
            exact ih o h
      exact hfind cluster.groups old hold
    · rw [ha1, hr1]
      rfl
  · intro hnone
    have hrun : SetGroup compareRemoveServers compareAddServers cluster group =
        (group.Servers.filter (fun server =>
            (NodeCache.Get cluster.nodeCache
              (selectIPOrName server.IP server.Name)).isSome)).foldl setGroupAdd
          { cluster with groups := cluster.groups ++ [group] } := by
      unfold SetGroup
      simp only [hnone]
      rfl
    rw [hrun]
    obtain ⟨ha1, ha2⟩ := setGroupAdd_foldl
      (group.Servers.filter (fun server =>
        (NodeCache.Get cluster.nodeCache (selectIPOrName server.IP server.Name)).isSome))
      { cluster with groups := cluster.groups ++ [group] }
    exact ⟨ha2, ha1⟩

/-! ### The create-partial scenario -/

theorem partialScenario_engines (groupid : String) (cluster : Cluster) (a b : Engine)
    (h : partialScenario groupid cluster a b) :
    GetGroupEngines cluster groupid = some [a, b] := by
  obtain ⟨⟨group, s1, s2, hfind, hs, h1, h2⟩, he, ha, hb, _, _, _⟩ := h
  have hne : ("10.0.0.2" == "10.0.0.1") = false := by decide
  have hne1 : ("10.0.0.1" == "10.0.0.2") = false := by decide
  have hb1 : ("10.0.0.1" != "") = true := by decide
  have hb2 : ("10.0.0.2" != "") = true := by decide
  unfold GetGroupEngines
  rw [hfind]
  simp only [hs, List.filterMap_cons, List.filterMap_nil, serverEngine, h1, h2, hb1, hb2,
    if_true, he, List.find?, ha, hb, beq_self_eq_true, hne]
  simp [removeDuplicatesEngines, selectIPOrName, ha, hb, hb1, hb2]

theorem selectEngines_fields (env : Env) (cluster : Cluster) (engines : List Engine)
    (ipList : List String) (config : models.Container) :
    ∃ k, (selectEngines env cluster engines ipList config).1 = { cluster with randCalls := k } := by
  unfold selectEngines
  simp only []
  split_ifs <;> first | exact ⟨cluster.randCalls, rfl⟩ | exact ⟨_, rfl⟩

theorem rankedEngines_perm (env : Env) (engines : List Engine) (config : models.Container)
    (hh : ∀ e ∈ engines, e.IsHealthy = true) (hs : ∀ e ∈ engines, 0 ≤ env.score e config) :
    (rankedEngines env engines config).Perm engines := by
  have hfil : engines.filter (fun engine => engine.IsHealthy) = engines := by
    rw [List.filter_eq_self]
    exact hh
  have hw : selectWeightdEngines env engines config =
      engines.map (fun e => (e, env.score e config)) := by
    unfold selectWeightdEngines
    rw [List.filter_eq_self]
    intro p hp
    obtain ⟨e, he, hep⟩ := List.mem_map.mp hp
    rw [← hep]
    simpa using hs e he
  unfold rankedEngines
  simp only [hfil, hw]
  split
  · exact List.Perm.refl _
  · split
    · have hp := (List.perm_insertionSort weightedLess
        (engines.map (fun e => (e, env.score e config)))).map (fun p => p.1)
      have hm : (engines.map (fun e => (e, env.score e config))).map (fun p => p.1) = engines := by
        rw [List.map_map]
        exact List.map_id _
      rw [hm] at hp
      exact hp
    · exact List.Perm.refl _

/-- The head of the selection over healthy candidates that all pass the weight filter: it is
one of the candidates, and its IP is in the avoid-IP list only if the IPs of all candidates
are. -/
theorem selectEngines_head (env : Env) (cluster : Cluster) (engines : List Engine)
    (ipList : List String) (config : models.Container) (hne : engines ≠ [])
    (hh : ∀ e ∈ engines, e.IsHealthy = true) (hs : ∀ e ∈ engines, 0 ≤ env.score e config) :
    ∃ head rest, (selectEngines env cluster engines ipList config).2 = head :: rest ∧
      head ∈ engines ∧ (head.IP ∈ ipList → ∀ e ∈ engines, e.IP ∈ ipList) := by
  have hperm := rankedEngines_perm env engines config hh hs
  have hfil : engines.filter (fun engine => engine.IsHealthy) ≠ [] := by
    rw [List.filter_eq_self.mpr hh]
    exact hne
  have hnn := selectEngines_ne_nil env cluster engines ipList config hfil
  cases hsel : (selectEngines env cluster engines ipList config).2 with
  | nil => exact absurd hsel hnn
  | cons head rest =>
    refine ⟨head, rest, rfl, ?_, ?_⟩
    · have hm : head ∈ (selectEngines env cluster engines ipList config).2 := by
        rw [hsel]; exact List.mem_cons_self _ _
      exact hperm.subset (selectEngines_subset_ranked env cluster engines ipList config head hm)
    · intro hip e he
      have he1 : e ∈ rankedEngines env engines config := hperm.symm.subset he
      rw [selectEngines_eq] at hsel
      split at hsel
      · split at hsel
        · have hm : head ∈ filterIPList (rankedEngines env engines config) ipList := by
            rw [hsel]; exact List.mem_cons_self _ _
          unfold filterIPList at hm
          have := (List.mem_filter.mp hm).2
          simp [hip] at this
        · rename_i hf
          by_contra hcon
          apply hf
          apply List.length_pos.mpr
          apply List.ne_nil_of_mem (a := e)
          unfold filterIPList
          rw [List.mem_filter]
          exact ⟨he1, by simpa using hcon⟩
      · rename_i hcond
        have hl : (rankedEngines env engines config).length > 0 :=
          List.length_pos.mpr (List.ne_nil_of_mem he1)
        have hi : ¬ ipList.length > 0 := fun hi => hcond ⟨hl, hi⟩
        have hnil : ipList = [] := by
          cases ipList with
          | nil => rfl
          | cons x xs => simp at hi
        rw [hnil] at hip
        simp at hip

theorem find?_map_MetaID (f : MetaData → MetaData) (hf : ∀ m, (f m).MetaID = m.MetaID)
    (id : String) :
    ∀ (cache : List MetaData),
    (cache.map f).find? (fun m => m.MetaID == id) =
      (cache.find? (fun m => m.MetaID == id)).map f := by
  intro cache
  induction cache with
  | nil => rfl
  | cons x rest ih =>
    rw [List.map_cons, List.find?_cons, List.find?_cons, hf x]
    cases h : (x.MetaID == id) with
    | true => rfl
    | false => exact ih

theorem GetMetaData_AppendBaseConfig (cache : List MetaData) (metaid id : String)
    (baseConfig : ContainerBaseConfig) :
    ContainersConfigCache.GetMetaData
        (ContainersConfigCache.AppendBaseConfig cache metaid baseConfig) id =
      (ContainersConfigCache.GetMetaData cache id).map (fun m =>
        if m.MetaID == metaid then { m with BaseConfigs := m.BaseConfigs ++ [baseConfig] }
        else m) := by
  unfold ContainersConfigCache.GetMetaData ContainersConfigCache.AppendBaseConfig
  apply find?_map_MetaID
  intro m
  split <;> rfl

theorem partialMeta_AppendBaseConfig (cluster : Cluster) (cache : List MetaData)
    (metaid id : String) (baseConfig : ContainerBaseConfig) (k : Nat)
    (hc : cache = ContainersConfigCache.AppendBaseConfig cluster.configCache metaid baseConfig)
    (h : partialMeta cluster id k) :
    ∃ md, ContainersConfigCache.GetMetaData cache id = some md ∧
      md.Instances = 4 ∧ md.BaseConfigs.length ≤ k + 1 := by
  obtain ⟨md, hget, hi, hl⟩ := h
  rw [hc, GetMetaData_AppendBaseConfig, hget]
  by_cases hm : (md.MetaID == metaid) = true
  · refine ⟨{ md with BaseConfigs := md.BaseConfigs ++ [baseConfig] }, ?_, hi, ?_⟩
    · simp only [Option.map_some', hm, if_true]
    · simp only [List.length_append, List.length_singleton]
      omega
  · refine ⟨md, ?_, hi, by omega⟩
    simp only [Option.map_some', hm, Bool.false_eq_true, if_false]

theorem idleIndex_spec (used : List Int) :
    ∀ (fuel start : Nat),
    (ContainersConfigCache.idleIndex used fuel start = -1 ∧
      ∀ i, start ≤ i → i < start + fuel → ((i : Nat) : Int) ∈ used) ∨
    0 ≤ ContainersConfigCache.idleIndex used fuel start := by
  intro fuel
  induction fuel with
  | zero =>
    intro start
    left
    exact ⟨rfl, fun i h1 h2 => absurd h2 (by omega)⟩
  | succ k ih =>
    intro start
    by_cases hc : used.contains (start : Int) = true
    · have hstep : ContainersConfigCache.idleIndex used (k + 1) start =
          ContainersConfigCache.idleIndex used k (start + 1) := by
        simp only [ContainersConfigCache.idleIndex, hc, if_true]
      rw [hstep]
      rcases ih (start + 1) with ⟨h1, h2⟩ | h
      · left
        refine ⟨h1, ?_⟩
        intro i hi1 hi2
        by_cases hi : i = start
        · rw [hi]
          simpa using hc
        · exact h2 i (by omega) (by omega)
      · right
        exact h
    · right
      have hstep : ContainersConfigCache.idleIndex used (k + 1) start = (start : Int) := by
        simp only [ContainersConfigCache.idleIndex, hc, Bool.false_eq_true, if_false]
      rw [hstep]
      exact Int.ofNat_nonneg _

theorem idleIndex_nonneg (used : List Int) (h : used.length ≤ 3) :
    0 ≤ ContainersConfigCache.idleIndex used 4 0 := by
  rcases idleIndex_spec used 4 0 with ⟨_, h2⟩ | h1
  · have hall : ∀ i ∈ (List.range 4).map (fun (n : Nat) => (n : Int)), i ∈ used := by
      intro i hi
      obtain ⟨n, hn, hni⟩ := List.mem_map.mp hi
      rw [← hni]
      exact h2 n (Nat.zero_le _) (by simpa using List.mem_range.mp hn)
    have hnd : ((List.range 4).map (fun (n : Nat) => (n : Int))).Nodup := by decide
    have := (List.subperm_of_subset hnd hall).length_le
    simp at this
    omega
  · exact h1

theorem Engine.CreateContainer_of_err (env : Env) (cluster : Cluster) (engine : Engine)
    (config : models.Container) (text : String)
    (h : (env.agent cluster.calls (AgentCall.create engine.IP config)).err = some text) :
    Engine.CreateContainer env cluster engine config =
      ({ cluster with calls := cluster.calls ++ [AgentCall.create engine.IP config] }, none,
        some (Error.errorf text)) := by
  unfold Engine.CreateContainer callAgent
  simp only [h]

theorem Engine.CreateContainer_of_ok (env : Env) (cluster : Cluster) (engine : Engine)
    (config : models.Container)
    (h : (env.agent cluster.calls (AgentCall.create engine.IP config)).err = none) :
    ∃ (c2 : Cluster) (container : Humpback.Container) (f : Engine → Engine) (metaid : String)
      (baseConfig : ContainerBaseConfig),
      Engine.CreateContainer env cluster engine config = (c2, some container, none) ∧
      c2.groups = cluster.groups ∧ c2.createRetry = cluster.createRetry ∧
      c2.engines = cluster.engines.map (fun e => if e.IP == engine.IP then f e else e) ∧
      (∀ e, (f e).IP = e.IP ∧ (f e).state = e.state) ∧
      c2.configCache =
        ContainersConfigCache.AppendBaseConfig cluster.configCache metaid baseConfig := by
  unfold Engine.CreateContainer callAgent
  simp only [h, updateEngine]
  exact ⟨_, _, _, _, _, rfl, rfl, rfl, rfl, fun e => ⟨rfl, rfl⟩, rfl⟩

/-- What `createContainer` does in the scenario: it places the container on `10.0.0.1`, or
fails on `10.0.0.2` with the agent's error; it picks an engine whose IP is in the avoid-IP
list only when both IPs are in it; the scenario stays, and the meta gains at most one
`BaseConfig`, none on a failure. -/
theorem createContainer_partial (env : Env) (groupid : String) (cluster : Cluster)
    (a b : Engine) (metaData : MetaData) (ipList : List String) (config : models.Container)
    (hsc : partialScenario groupid cluster a b) (hg : metaData.GroupID = groupid)
    (hscore : ∀ e cfg, 0 ≤ env.score e cfg)
    (hok : ∀ calls cfg, (env.agent calls (AgentCall.create "10.0.0.1" cfg)).err = none)
    (hfail : ∀ calls cfg, (env.agent calls (AgentCall.create "10.0.0.2" cfg)).err ≠ none) :
    (∃ c1 a1 container,
      createContainer env cluster metaData ipList config =
        (c1, ⟨some a, some container, none⟩) ∧
      partialScenario groupid c1 a1 b ∧
      (∀ id k, partialMeta cluster id k → partialMeta c1 id (k + 1)) ∧
      ("10.0.0.1" ∈ ipList → "10.0.0.2" ∈ ipList)) ∨
    (∃ c1 text,
      createContainer env cluster metaData ipList config =
        (c1, ⟨some b, none, some (Error.errorf text)⟩) ∧
      partialScenario groupid c1 a b ∧
      (∀ id k, partialMeta cluster id k → partialMeta c1 id k) ∧
      ("10.0.0.2" ∈ ipList → "10.0.0.1" ∈ ipList)) := by
  have hG := partialScenario_engines groupid cluster a b hsc
  obtain ⟨hgroup, he, ha, hb, hha, hhb, hretry⟩ := hsc
  have hh : ∀ e ∈ [a, b], e.IsHealthy = true := by
    intro e hmem
    simp only [List.mem_cons, List.mem_singleton, List.not_mem_nil, or_false] at hmem
    rcases hmem with h | h <;> rw [h] <;> assumption
  obtain ⟨head, rest, hsel2, hmem, hip⟩ := selectEngines_head env cluster [a, b] ipList config
    (by simp) hh (fun e _ => hscore e config)
  obtain ⟨k, hk⟩ := selectEngines_fields env cluster [a, b] ipList config
  have hrun : createContainer env cluster metaData ipList config =
      match Engine.CreateContainer env { cluster with randCalls := k } head config with
      | (c, _, some err) => (c, ⟨some head, none, some err⟩)
      | (c, container, none) => (c, ⟨some head, container, none⟩) := by
    unfold createContainer
    rw [hg, hG]
    simp only []
    cases hsel : selectEngines env cluster [a, b] ipList config with
    | mk c1 sel =>
      rw [hsel] at hsel2 hk
      simp only [] at hsel2 hk
      rw [hsel2, hk]
  simp only [List.mem_cons, List.mem_singleton, List.not_mem_nil, or_false] at hmem
  rcases hmem with hhead | hhead
  · left
    have hagent : (env.agent ({ cluster with randCalls := k } : Cluster).calls
        (AgentCall.create head.IP config)).err = none := by
      rw [hhead, ha]
      exact hok _ _
    obtain ⟨c2, container, f, metaid, baseConfig, hcr, hgr, hre, heng, hf, hcache⟩ :=
      Engine.CreateContainer_of_ok env { cluster with randCalls := k } head config hagent
    refine ⟨c2, f a, container, ?_, ?_, ?_, ?_⟩
    · rw [hrun, hcr, hhead]
    · refine ⟨?_, ?_, ?_, hb, ?_, hhb, ?_⟩
      · rw [hgr]
        exact hgroup
      · rw [heng]
        simp only [he, List.map_cons, List.map_nil, hhead, ha, hb, beq_self_eq_true, if_true]
        have hne : ("10.0.0.2" == "10.0.0.1") = false := by decide
        simp only [hne, Bool.false_eq_true, if_false]
      · rw [(hf a).1]
        exact ha
      · unfold Engine.IsHealthy at hha ⊢
        rw [(hf a).2]
        exact hha
      · rw [hre]
        exact hretry
    · intro id k1 hpm
      exact partialMeta_AppendBaseConfig cluster c2.configCache metaid id baseConfig k1 hcache hpm
    · intro h1
      have := hip (by rw [hhead, ha]; exact h1) b (by simp)
      rw [hb] at this
      exact this
  · right
    cases herr : (env.agent ({ cluster with randCalls := k } : Cluster).calls
        (AgentCall.create head.IP config)).err with
    | none =>
      rw [hhead, hb] at herr
      exact absurd herr (hfail _ _)
    | some text =>
      have hcr := Engine.CreateContainer_of_err env { cluster with randCalls := k } head config
        text herr
      refine ⟨({ cluster with
        randCalls := k, calls := cluster.calls ++ [AgentCall.create b.IP config] } : Cluster),
        text, ?_, ?_, ?_, ?_⟩
      · rw [hrun, hcr, hhead]
      · exact ⟨hgroup, he, ha, hb, hha, hhb, hretry⟩
      · intro id k1 hpm
        exact hpm
      · intro h2
        have := hip (by rw [hhead, hb]; exact h2) a (by simp)
        rw [ha] at this
        exact this

theorem mem_filterAppendIPList (e : Engine) (l : List String) (x : String) :
    x ∈ filterAppendIPList (some e) l ↔ x ∈ l ∨ x = e.IP := by
  unfold filterAppendIPList
  simp only []
  split_ifs with h
  · constructor
    · exact Or.inl
    · rintro (h1 | h1)
      · exact h1
      · rw [h1]
        simpa using h
  · simp [List.mem_append]

/-- One turn of the loop of `createContainers` in the scenario, with at most three
`BaseConfigs` in the meta: either the container is created on `10.0.0.1` and joins the
created list, or the create fails on `10.0.0.2` and the created list is as it was; the IP
of the engine joins the avoid-IP list, and it was in that list only if both IPs were. -/
theorem createContainersTurn_partial (env : Env) (groupid : String) (cluster : Cluster)
    (a b : Engine) (metaData : MetaData) (config : models.Container) (ipList : List String)
    (created : types.CreatedContainers) (k : Nat)
    (hsc : partialScenario groupid cluster a b) (hg : metaData.GroupID = groupid)
    (hlen : 8 ≤ groupid.length) (hpm : partialMeta cluster metaData.MetaID k) (hk : k ≤ 3)
    (hen : partialAgents env) :
    (∃ c1 a1 container,
      createContainersTurn env metaData config cluster ipList created =
        some (c1, filterAppendIPList (some a) ipList,
          created ++ [{ IP := "10.0.0.1", Container := container }]) ∧
      partialScenario groupid c1 a1 b ∧ partialMeta c1 metaData.MetaID (k + 1) ∧
      ("10.0.0.1" ∈ ipList → "10.0.0.2" ∈ ipList)) ∨
    (∃ c1,
      createContainersTurn env metaData config cluster ipList created =
        some (c1, filterAppendIPList (some b) ipList, created) ∧
      partialScenario groupid c1 a b ∧ partialMeta c1 metaData.MetaID k ∧
      ("10.0.0.2" ∈ ipList → "10.0.0.1" ∈ ipList)) := by
  obtain ⟨hscore, hok, hfail⟩ := hen
  have hidx : ¬ ContainersConfigCache.MakeContainerIdleIndex cluster.configCache
      metaData.MetaID < 0 := by
    obtain ⟨md, hget, hinst, hl⟩ := hpm
    unfold ContainersConfigCache.MakeContainerIdleIndex
    rw [hget]
    simp only [hinst]
    have h4 : (4 : Int).toNat = 4 := rfl
    rw [h4]
    exact not_lt.mpr (idleIndex_nonneg _ (by rw [List.length_map]; omega))
  obtain ⟨cfg, hcfg⟩ : ∃ cfg, containerConfig metaData config
      (ContainersConfigCache.MakeContainerIdleIndex cluster.configCache metaData.MetaID) =
        some cfg :=
    ⟨_, containerConfig_eq metaData config _ (by rw [hg]; exact hlen)⟩
  have ha : a.IP = "10.0.0.1" := by
    obtain ⟨_, _, ha, _⟩ := hsc
    exact ha
  unfold createContainersTurn
  simp only []
  rw [if_neg hidx, hcfg]
  simp only []
  rcases createContainer_partial env groupid cluster a b metaData ipList cfg hsc hg hscore hok
    hfail with ⟨c1, a1, container, hrun, hsc1, hpm1, hip⟩ | ⟨c1, text, hrun, hsc1, hpm1, hip⟩
  · left
    refine ⟨c1, a1, container.Config.Container, ?_, hsc1, hpm1 _ _ hpm, hip⟩
    rw [hrun]
    simp only [createContainersPlaced, types.SetCreatedPair, ha]
  · right
    refine ⟨c1, ?_, hsc1, hpm1 _ _ hpm, hip⟩
    rw [hrun]
    have hr : c1.createRetry = 0 := by
      obtain ⟨_, _, _, _, _, _, hr⟩ := hsc1
      exact hr
    simp [hr, createContainersRetry]

/-- The loop of `createContainers` in the scenario returns, it adds at most one entry a
turn, and every entry it adds has the IP `10.0.0.1`. -/
theorem createContainersLoop_partial_le (env : Env) (groupid : String) (b : Engine)
    (metaData : MetaData) (config : models.Container) (hg : metaData.GroupID = groupid)
    (hlen : 8 ≤ groupid.length) (hen : partialAgents env) :
    ∀ (n : Nat) (cluster : Cluster) (a : Engine) (ipList : List String)
      (created : types.CreatedContainers) (k : Nat),
    partialScenario groupid cluster a b → partialMeta cluster metaData.MetaID k → k + n ≤ 4 →
    ∃ c1 extra,
      createContainersLoop env metaData config n cluster ipList created =
        some (c1, created ++ extra) ∧
      extra.length ≤ n ∧ ∀ x ∈ extra, x.IP = "10.0.0.1" := by
  intro n
  induction n with
  | zero =>
    intro cluster a ipList created k _ _ _
    exact ⟨cluster, [], by simp [createContainersLoop], le_refl _, by simp⟩
  | succ n ih =>
    intro cluster a ipList created k hsc hpm hkn
    rcases createContainersTurn_partial env groupid cluster a b metaData config ipList created k
      hsc hg hlen hpm (by omega) hen with
      ⟨c1, a1, container, hrun, hsc1, hpm1, _⟩ | ⟨c1, hrun, hsc1, hpm1, _⟩
    · obtain ⟨c2, extra, hl, hle, hall⟩ := ih c1 a1 (filterAppendIPList (some a) ipList)
        (created ++ [{ IP := "10.0.0.1", Container := container }]) (k + 1) hsc1 hpm1 (by omega)
      refine ⟨c2, { IP := "10.0.0.1", Container := container } :: extra, ?_, ?_, ?_⟩
      · unfold createContainersLoop
        rw [hrun]
        simp only []
        rw [hl, List.append_assoc]
        rfl
      · simp only [List.length_cons]
        omega
      · intro x hx
        rcases List.mem_cons.mp hx with h | h
        · rw [h]
        · exact hall x h
    · obtain ⟨c2, extra, hl, hle, hall⟩ := ih c1 a (filterAppendIPList (some b) ipList)
        created k hsc1 hpm1 (by omega)
      refine ⟨c2, extra, ?_, by omega, hall⟩
      unfold createContainersLoop
      rw [hrun]
      simp only []
      rw [hl]

/-- With `10.0.0.1` in the avoid-IP list and `10.0.0.2` not in it, the next turn fails on
`10.0.0.2`: of `n + 1` turns at most `n` add an entry. -/
theorem createContainersLoop_partial_after_success (env : Env) (groupid : String) (b : Engine)
    (metaData : MetaData) (config : models.Container) (hg : metaData.GroupID = groupid)
    (hlen : 8 ≤ groupid.length) (hen : partialAgents env)
    (n : Nat) (cluster : Cluster) (a : Engine) (ipList : List String)
    (created : types.CreatedContainers) (k : Nat)
    (hsc : partialScenario groupid cluster a b) (hpm : partialMeta cluster metaData.MetaID k)
    (hkn : k + (n + 1) ≤ 4) (h1 : "10.0.0.1" ∈ ipList) (h2 : "10.0.0.2" ∉ ipList) :
    ∃ c1 extra,
      createContainersLoop env metaData config (n + 1) cluster ipList created =
        some (c1, created ++ extra) ∧
      extra.length ≤ n ∧ ∀ x ∈ extra, x.IP = "10.0.0.1" := by
  rcases createContainersTurn_partial env groupid cluster a b metaData config ipList created k
    hsc hg hlen hpm (by omega) hen with
    ⟨c1, a1, container, hrun, hsc1, hpm1, hip⟩ | ⟨c1, hrun, hsc1, hpm1, _⟩
  · exact absurd (hip h1) h2
  · obtain ⟨c2, extra, hl, hle, hall⟩ := createContainersLoop_partial_le env groupid b metaData
      config hg hlen hen n c1 a (filterAppendIPList (some b) ipList) created k hsc1 hpm1
      (by omega)
    refine ⟨c2, extra, ?_, hle, hall⟩
    unfold createContainersLoop
    rw [hrun]
    simp only []
    rw [hl]

/-- With `10.0.0.2` in the avoid-IP list and `10.0.0.1` not in it, the next turn succeeds
on `10.0.0.1`: `n + 1` turns add at least one entry. -/
theorem createContainersLoop_partial_after_failure (env : Env) (groupid : String) (b : Engine)
    (metaData : MetaData) (config : models.Container) (hg : metaData.GroupID = groupid)
    (hlen : 8 ≤ groupid.length) (hen : partialAgents env)
    (n : Nat) (cluster : Cluster) (a : Engine) (ipList : List String)
    (created : types.CreatedContainers) (k : Nat)
    (hsc : partialScenario groupid cluster a b) (hpm : partialMeta cluster metaData.MetaID k)
    (hkn : k + (n + 1) ≤ 4) (h1 : "10.0.0.1" ∉ ipList) (h2 : "10.0.0.2" ∈ ipList) :
    ∃ c1 extra,
      createContainersLoop env metaData config (n + 1) cluster ipList created =
        some (c1, created ++ extra) ∧
      1 ≤ extra.length ∧ extra.length ≤ n + 1 ∧ ∀ x ∈ extra, x.IP = "10.0.0.1" := by
  rcases createContainersTurn_partial env groupid cluster a b metaData config ipList created k
    hsc hg hlen hpm (by omega) hen with
    ⟨c1, a1, container, hrun, hsc1, hpm1, _⟩ | ⟨c1, hrun, hsc1, hpm1, hip⟩
  · obtain ⟨c2, extra, hl, hle, hall⟩ := createContainersLoop_partial_le env groupid b metaData
      config hg hlen hen n c1 a1 (filterAppendIPList (some a) ipList)
      (created ++ [{ IP := "10.0.0.1", Container := container }]) (k + 1) hsc1 hpm1 (by omega)
    refine ⟨c2, { IP := "10.0.0.1", Container := container } :: extra, ?_, ?_, ?_, ?_⟩
    · unfold createContainersLoop
      rw [hrun]
      simp only []
      rw [hl, List.append_assoc]
      rfl
    · simp only [List.length_cons]
      omega
    · simp only [List.length_cons]
      omega
    · intro x hx
      rcases List.mem_cons.mp hx with h | h
      · rw [h]
      · exact hall x h
  · exact absurd (hip h2) h1

/-- From an empty avoid-IP list, `n + 2` turns of the loop of `createContainers` in the
scenario add at least one entry and at most `n + 1`, all with the IP `10.0.0.1`. -/
theorem createContainersLoop_partial (env : Env) (groupid : String) (b : Engine)
    (metaData : MetaData) (config : models.Container) (hg : metaData.GroupID = groupid)
    (hlen : 8 ≤ groupid.length) (hen : partialAgents env)
    (n : Nat) (cluster : Cluster) (a : Engine) (created : types.CreatedContainers) (k : Nat)
    (hsc : partialScenario groupid cluster a b) (hpm : partialMeta cluster metaData.MetaID k)
    (hkn : k + (n + 2) ≤ 4) :
    ∃ c1 extra,
      createContainersLoop env metaData config (n + 2) cluster [] created =
        some (c1, created ++ extra) ∧
      1 ≤ extra.length ∧ extra.length ≤ n + 1 ∧ ∀ x ∈ extra, x.IP = "10.0.0.1" := by
  have hab : a.IP = "10.0.0.1" ∧ b.IP = "10.0.0.2" := by
    obtain ⟨_, _, ha, hb, _⟩ := hsc
    exact ⟨ha, hb⟩
  have hne : ("10.0.0.2" : String) ≠ "10.0.0.1" := by decide
  rcases createContainersTurn_partial env groupid cluster a b metaData config [] created k
    hsc hg hlen hpm (by omega) hen with
    ⟨c1, a1, container, hrun, hsc1, hpm1, _⟩ | ⟨c1, hrun, hsc1, hpm1, _⟩
  · obtain ⟨c2, extra, hl, hle, hall⟩ := createContainersLoop_partial_after_success env groupid
      b metaData config hg hlen hen n c1 a1 (filterAppendIPList (some a) [])
      (created ++ [{ IP := "10.0.0.1", Container := container }]) (k + 1) hsc1 hpm1 (by omega)
      ((mem_filterAppendIPList a [] _).mpr (Or.inr hab.1.symm))
      (by
        intro h
        rcases (mem_filterAppendIPList a [] _).mp h with h | h
        · exact absurd h (List.not_mem_nil _)
        · exact hne (h.trans hab.1))
    refine ⟨c2, { IP := "10.0.0.1", Container := container } :: extra, ?_, ?_, ?_, ?_⟩
    · unfold createContainersLoop
      rw [hrun]
      simp only []
      rw [hl, List.append_assoc]
      rfl
    · simp only [List.length_cons]
      omega
    · simp only [List.length_cons]
      omega
    · intro x hx
      rcases List.mem_cons.mp hx with h | h
      · rw [h]
      · exact hall x h
  · obtain ⟨c2, extra, hl, hge, hle, hall⟩ := createContainersLoop_partial_after_failure env
      groupid b metaData config hg hlen hen n c1 a (filterAppendIPList (some b) []) created k
      hsc1 hpm1 (by omega)
      (by
        intro h
        rcases (mem_filterAppendIPList b [] _).mp h with h | h
        · exact absurd h (List.not_mem_nil _)
        · exact hne (hab.2.symm.trans h.symm))
      ((mem_filterAppendIPList b [] _).mpr (Or.inr hab.2.symm))
    refine ⟨c2, extra, ?_, hge, hle, hall⟩
    unfold createContainersLoop
    rw [hrun]
    simp only []
    rw [hl]

theorem createContainers_eq_loop (env : Env) (cluster : Cluster) (metaData : MetaData)
    (instances : Int) (config : models.Container) :
    createContainers env cluster metaData instances config =
      (createContainersLoop env metaData config instances.toNat
        (setPendingContainer cluster config.Name
          { GroupID := metaData.GroupID, Name := config.Name, Config := config }) [] []).map
        (fun r => (deletePendingContainer r.1 config.Name, r.2)) := by
  unfold createContainers
  simp only []
  cases createContainersLoop env metaData config instances.toNat
    (setPendingContainer cluster config.Name
      { GroupID := metaData.GroupID, Name := config.Name, Config := config }) [] [] with
  | none => rfl
  | some r => rfl

/-- C15, as stated, fails: the group `group0001` has exactly the two healthy engines
`10.0.0.1` and `10.0.0.2`, no score is negative, `10.0.0.2` refuses every create and
`10.0.0.1` accepts every one, and `createRetry` is 0; with a PRNG that always yields 0,
`CreateContainers` with `instances = 4` returns a created list of one entry, and with a PRNG
that always yields its bound less one, a created list of three entries. -/
theorem C15_counterexample :
    partialScenario "group0001" twoEngineCluster
      { IP := "10.0.0.1", Name := "node1" } { IP := "10.0.0.2", Name := "node2" } ∧
    partialAgents partialEnv ∧ partialAgents partialEnvLast ∧
    (CreateContainers partialEnv twoEngineCluster "group0001" 4 [] webConfig).map
        (fun r => (r.2.containers.map (fun l => l.map (fun x => x.IP)), r.2.err)) =
      some (some ["10.0.0.1"], none) ∧
    (CreateContainers partialEnvLast twoEngineCluster "group0001" 4 [] webConfig).map
        (fun r => (r.2.containers.map (fun l => l.map (fun x => x.IP)), r.2.err)) =
      some (some ["10.0.0.1", "10.0.0.1", "10.0.0.1"], none) := by
  refine ⟨⟨⟨_, _, _, rfl, rfl, rfl, rfl⟩, rfl, rfl, rfl, rfl, rfl, rfl⟩, ?_, ?_, ?_, ?_⟩
  · refine ⟨fun e cfg => ?_, fun calls cfg => ?_, fun calls cfg => ?_⟩
    · show (0 : Int) ≤ if e.IP == "10.0.0.1" then 1 else 0
      split <;> decide
    · simp [partialEnv]
    · simp [partialEnv]
  · refine ⟨fun e cfg => ?_, fun calls cfg => ?_, fun calls cfg => ?_⟩
    · show (0 : Int) ≤ if e.IP == "10.0.0.1" then 1 else 0
      split <;> decide
    · simp [partialEnvLast, partialEnv]
    · simp [partialEnvLast, partialEnv]
  · decide
  · decide

/-- C15 (amended): for a group whose ID has at least 8 bytes, with exactly the two healthy
engines `10.0.0.1` and `10.0.0.2`, both passing the weight filter, where `10.0.0.2` fails
every create and `10.0.0.1` succeeds on every one, `createRetry` 0, the name free and a
fresh meta ID, for every ranking and every PRNG: `CreateContainers` with `instances = 4`
returns the new meta ID, no error and a created list of at least one entry and at most
three, all with IP `10.0.0.1`; the response marker is `created partial`, and the meta
remains in the catalog. -/
theorem C15_create_partial (env : Env) (cluster : Cluster) (groupid : String)
    (webhooks : types.WebHooks) (config : models.Container) (a b : Engine)
    (hsc : partialScenario groupid cluster a b) (hen : partialAgents env)
    (hu : cehckContainerNameUniqueness cluster groupid config.Name = true)
    (hfresh : ∀ m ∈ cluster.configCache, m.MetaID ≠ env.newMetaID)
    (hlen : 8 ≤ groupid.length) :
    ∃ final created,
      CreateContainers env cluster groupid 4 webhooks config =
        some (final, ⟨env.newMetaID, some created, none⟩) ∧
      1 ≤ created.length ∧ created.length ≤ 3 ∧
      (∀ x ∈ created, x.IP = "10.0.0.1") ∧
      (response.NewGroupCreateContainersResponse groupid env.newMetaID 4 created).Created =
        "created partial" ∧
      (GetMetaData final env.newMetaID).isSome = true := by
  have hG := partialScenario_engines groupid cluster a b hsc
  have hsc0 : partialScenario groupid
      (setPendingContainer
        { cluster with
          configCache := (ContainersConfigCache.CreateMetaData env cluster.configCache groupid
            4 webhooks config).1 } config.Name
        { GroupID := groupid, Name := config.Name, Config := config }) a b := hsc
  have hnone : cluster.configCache.find? (fun m => m.MetaID == env.newMetaID) = none :=
    List.find?_eq_none.mpr (fun m hm => by simpa using hfresh m hm)
  have hpm0 : partialMeta
      (setPendingContainer
        { cluster with
          configCache := (ContainersConfigCache.CreateMetaData env cluster.configCache groupid
            4 webhooks config).1 } config.Name
        { GroupID := groupid, Name := config.Name, Config := config })
      (ContainersConfigCache.CreateMetaData env cluster.configCache groupid 4 webhooks
        config).2.MetaID 0 := by
    refine ⟨(ContainersConfigCache.CreateMetaData env cluster.configCache groupid 4 webhooks
      config).2, ?_, rfl, le_refl _⟩
    show List.find? (fun m => m.MetaID == env.newMetaID) (cluster.configCache ++ [_]) = _
    rw [List.find?_append, hnone]
    simp [ContainersConfigCache.CreateMetaData]
  obtain ⟨c1, extra, hl, hge, hle, hall⟩ := createContainersLoop_partial env groupid b
    (ContainersConfigCache.CreateMetaData env cluster.configCache groupid 4 webhooks config).2
    config rfl hlen hen 2 _ a [] 0 hsc0 hpm0 (by omega)
  have hcc : createContainers env
      { cluster with
        configCache := (ContainersConfigCache.CreateMetaData env cluster.configCache groupid
          4 webhooks config).1 }
      (ContainersConfigCache.CreateMetaData env cluster.configCache groupid 4 webhooks
        config).2 4 config = some (deletePendingContainer c1 config.Name, extra) := by
    rw [createContainers_eq_loop]
    have h4 : (4 : Int).toNat = 2 + 2 := rfl
    rw [h4]
    exact (congrArg (Option.map (fun r => (deletePendingContainer r.1 config.Name, r.2))) hl)
  obtain ⟨mid, created, hcc1, _, hid⟩ := createContainers_frame env
    { cluster with
      configCache := (ContainersConfigCache.CreateMetaData env cluster.configCache groupid
        4 webhooks config).1 }
    (ContainersConfigCache.CreateMetaData env cluster.configCache groupid 4 webhooks
      config).2 4 config hlen
  rw [hcc] at hcc1
  have hmid : deletePendingContainer c1 config.Name = mid := by
    injection hcc1 with h
    exact congrArg Prod.fst h
  have hnz : (extra.length == 0) = false := by
    cases extra with
    | nil => exact absurd hge (by simp)
    | cons x xs => simp
  refine ⟨deletePendingContainer c1 config.Name, extra, ?_, hge, hle, hall, ?_, ?_⟩
  · unfold CreateContainers
    rw [if_neg (by decide), hG]
    simp only [List.length_cons, List.length_nil, hu]
    have hz : ((0 + 1 + 1 : Nat) == 0) = false := by decide
    rw [hz]
    simp only [Bool.false_eq_true, if_false, Bool.not_true]
    rw [hcc]
    simp only [hnz, Bool.false_eq_true, if_false]
    rfl
  · unfold response.NewGroupCreateContainersResponse
    have hlt : (4 : Int) > (extra.length : Int) := by omega
    simp only [if_pos hlt]
  · rw [hmid]
    unfold GetMetaData
    apply GetMetaData_isSome_of_map _ _ _ hid
    simp [ContainersConfigCache.CreateMetaData]

/-- A witness of C15 (amended): `group0001` on the two healthy engines `10.0.0.1` and
`10.0.0.2` with an empty catalog, the agent of `10.0.0.2` refusing every create. -/
theorem C15_create_partial_witness :
    (partialScenario "group0001" twoEngineCluster
        { IP := "10.0.0.1", Name := "node1" } { IP := "10.0.0.2", Name := "node2" } ∧
      partialAgents partialEnv ∧
      cehckContainerNameUniqueness twoEngineCluster "group0001" webConfig.Name = true ∧
      (∀ m ∈ twoEngineCluster.configCache, m.MetaID ≠ partialEnv.newMetaID) ∧
      8 ≤ "group0001".length) ∧
    ∃ final created,
      CreateContainers partialEnv twoEngineCluster "group0001" 4 [] webConfig =
        some (final, ⟨partialEnv.newMetaID, some created, none⟩) ∧
      1 ≤ created.length ∧ created.length ≤ 3 ∧
      (∀ x ∈ created, x.IP = "10.0.0.1") ∧
      (response.NewGroupCreateContainersResponse "group0001" partialEnv.newMetaID 4
        created).Created = "created partial" ∧
      (GetMetaData final partialEnv.newMetaID).isSome = true :=
  have hsc : partialScenario "group0001" twoEngineCluster
      { IP := "10.0.0.1", Name := "node1" } { IP := "10.0.0.2", Name := "node2" } :=
    ⟨⟨_, _, _, rfl, rfl, rfl, rfl⟩, rfl, rfl, rfl, rfl, rfl, rfl⟩
  have hen : partialAgents partialEnv :=
    ⟨fun e _ => (by
        show (0 : Int) ≤ if e.IP == "10.0.0.1" then 1 else 0
        split <;> decide),
      fun _ _ => by simp [partialEnv], fun _ _ => by simp [partialEnv]⟩
  ⟨⟨hsc, hen, by decide, by simp [twoEngineCluster], by decide⟩,
    C15_create_partial partialEnv twoEngineCluster "group0001" [] webConfig _ _ hsc hen
      (by decide) (by simp [twoEngineCluster]) (by decide)⟩

end Humpback
